import Mathlib

/-!
Verification of the hexdocs agent-wrapper worker (`src/index.ts`, second and
authoritative revision in the repository snapshot).

The development shallowly embeds the worker's pure core.  JavaScript strings
are Lean `String`s (scanners work on `List Char`); regular-expression based
rewrites are embedded as explicit character scanners that realise the
leftmost-match / greedy / lazy semantics of the concrete patterns used by the
source; the platform's WHATWG `URL` constructor is modelled by `urlResolve`
for the http(s)/opaque subset the worker exercises (percent-encoding is not
modelled; theorems that depend on URL resolution are conditioned on the model
succeeding).  Asynchronous fetches are modelled by a pure `Fetcher` function,
and exceptions by `Except`.
-/

namespace SearchEx

/-! ## JavaScript-flavoured string utilities -/

/-- JS `\w` character class: `[A-Za-z0-9_]`. -/
def isWordChar (c : Char) : Bool :=
  (('a' ≤ c && c ≤ 'z') || ('A' ≤ c && c ≤ 'Z') || ('0' ≤ c && c ≤ '9') || c = '_')

/-- ASCII subset of the JS `\s` class (space, tab, LF, CR, VT, FF). -/
def isJsWs (c : Char) : Bool :=
  (c = ' ' || c = '\t' || c = '\n' || c = '\r' || c = Char.ofNat 11 || c = Char.ofNat 12)

def isAsciiDigit (c : Char) : Bool := '0' ≤ c && c ≤ '9'

def isAsciiAlpha (c : Char) : Bool := ('a' ≤ c && c ≤ 'z') || ('A' ≤ c && c ≤ 'Z')

def isAlphanumChar (c : Char) : Bool := isAsciiAlpha c || isAsciiDigit c

def isHexDigit (c : Char) : Bool :=
  isAsciiDigit c || ('a' ≤ c && c ≤ 'f') || ('A' ≤ c && c ≤ 'F')

/-- ASCII lower-casing, as performed by the URL parser on schemes/hosts. -/
def lowerChar (c : Char) : Char :=
  if 'A' ≤ c && c ≤ 'Z' then Char.ofNat (c.toNat + 32) else c

/-- The apostrophe character (HTML attribute quote). -/
def quoteS : Char := Char.ofNat 39

/-- The double-quote character. -/
def quoteD : Char := Char.ofNat 34

def isQuoteChar (c : Char) : Bool := c = quoteS || c = quoteD

/-- `pat` is a literal prefix of `s`. -/
def lStarts : List Char → List Char → Bool
  | [], _ => true
  | _ :: _, [] => false
  | p :: ps, c :: cs => p = c && lStarts ps cs

/-- Case-insensitive (ASCII) literal-prefix test. -/
def lStartsCI : List Char → List Char → Bool
  | [], _ => true
  | _ :: _, [] => false
  | p :: ps, c :: cs => lowerChar p = lowerChar c && lStartsCI ps cs

/-- Drop a literal prefix (unchecked). -/
def lDrop (pat s : List Char) : List Char := s.drop pat.length

/-- First occurrence of literal `pat` in `s`: returns the part before the
match and the part after the match. -/
def lSplitFirst (pat : List Char) : List Char → Option (List Char × List Char)
  | [] => if pat = [] then some ([], []) else none
  | c :: cs =>
      if lStarts pat (c :: cs) then some ([], lDrop pat (c :: cs))
      else match lSplitFirst pat cs with
        | some (pre, post) => some (c :: pre, post)
        | none => none

/-- Case-insensitive variant of `lSplitFirst`. -/
def lSplitFirstCI (pat : List Char) : List Char → Option (List Char × List Char)
  | [] => if pat = [] then some ([], []) else none
  | c :: cs =>
      if lStartsCI pat (c :: cs) then some ([], lDrop pat (c :: cs))
      else match lSplitFirstCI pat cs with
        | some (pre, post) => some (c :: pre, post)
        | none => none

def lContains (pat s : List Char) : Bool := (lSplitFirst pat s).isSome

def strStarts (s pat : String) : Bool := lStarts pat.data s.data

def strEnds (s pat : String) : Bool := lStarts pat.data.reverse s.data.reverse

def strContains (s pat : String) : Bool := lContains pat.data s.data

/-- JS `String.prototype.trim` (ASCII whitespace subset). -/
def jsTrimList (cs : List Char) : List Char :=
  ((cs.dropWhile isJsWs).reverse.dropWhile isJsWs).reverse

def jsTrim (s : String) : String := ⟨jsTrimList s.data⟩

/-- JS `s.split(sep)` for a one-character separator: keeps empty pieces. -/
def splitOnChar (sep : Char) (cs : List Char) : List (List Char) :=
  match cs with
  | [] => [[]]
  | c :: rest =>
      let tail := splitOnChar sep rest
      if c = sep then [] :: tail
      else match tail with
        | [] => [[c]]
        | t :: ts => (c :: t) :: ts

def splitString (sep : Char) (s : String) : List String :=
  (splitOnChar sep s.data).map (fun l => ⟨l⟩)

/-- `s.split(sep)[0]`: the part before the first occurrence of `sep`. -/
def takeBeforeChar (sep : Char) (cs : List Char) : List Char := cs.takeWhile (· ≠ sep)

/-- `Array.prototype.join(sep)`. -/
def joinParts (sep : String) : List String → String
  | [] => ""
  | [x] => x
  | x :: y :: xs => x ++ sep ++ joinParts sep (y :: xs)

/-- Generic replace-all scanner: `m` reports a match starting at the head of
its argument as `(replacement, rest-after-match)`.  Mirrors a global
JS-regex `replace` where every match consumes at least one character.
`fuel` is an upper bound on the number of scanning steps. -/
def replaceScan (m : List Char → Option (List Char × List Char)) :
    Nat → List Char → List Char
  | 0, s => s
  | _, [] => []
  | fuel + 1, c :: cs =>
      match m (c :: cs) with
      | some (rep, rest) => rep ++ replaceScan m fuel rest
      | none => c :: replaceScan m fuel cs

/-- Generic matchAll scanner collecting captures of type `α`. -/
def collectScan (m : List Char → Option (α × List Char)) :
    Nat → List Char → List α
  | 0, _ => []
  | _, [] => []
  | fuel + 1, c :: cs =>
      match m (c :: cs) with
      | some (cap, rest) => cap :: collectScan m fuel rest
      | none => collectScan m fuel cs

/-- Replace all occurrences of literal `pat` by `rep` (JS
`s.replace(/pat/g, rep)` for a literal pattern), non-overlapping,
left-to-right. -/
def replaceAllLit (pat rep : String) (s : String) : String :=
  ⟨replaceScan
      (fun t => if pat ≠ "" && lStarts pat.data t then some (rep.data, lDrop pat.data t) else none)
      (s.data.length + 1) s.data⟩

/-! ## URL model

A model of the platform's WHATWG `URL` for the subset the worker uses:
http/https URLs with an authority, other schemes as opaque paths, relative
resolution against an http(s) base, fragment/query splitting, dot-segment
removal and default-port stripping.  Percent-encoding is not modelled. -/

structure UrlRec where
  scheme : String
  host : String
  path : String
  search : String
  hash : String
  noAuthority : Bool := false
  deriving Repr, DecidableEq, Inhabited

/-- `URL.prototype.toString` / `href` for the modelled subset. -/
def UrlRec.toStr (u : UrlRec) : String :=
  if u.noAuthority then u.scheme ++ ":" ++ u.path ++ u.search ++ u.hash
  else u.scheme ++ "://" ++ u.host ++ u.path ++ u.search ++ u.hash

/-- `URL.prototype.origin` (opaque-path URLs have origin `"null"`). -/
def UrlRec.origin (u : UrlRec) : String :=
  if u.noAuthority then "null" else u.scheme ++ "://" ++ u.host

/-- WHATWG input preprocessing: strip leading/trailing C0-control-or-space,
remove all ASCII tab/newline characters. -/
def urlSanitize (s : String) : List Char :=
  (((s.data.dropWhile (fun c => c.toNat ≤ 32)).reverse.dropWhile
      (fun c => c.toNat ≤ 32)).reverse).filter
    (fun c => ¬(c = '\t' || c = '\n' || c = '\r'))

/-- Split off a leading URL scheme (`[A-Za-z][A-Za-z0-9+.-]*:`), lower-cased. -/
def schemeSplit (cs : List Char) : Option (String × List Char) :=
  match cs with
  | [] => none
  | c :: rest =>
      if isAsciiAlpha c then
        let run := rest.takeWhile (fun d => isAlphanumChar d || d = '+' || d = '-' || d = '.')
        match rest.drop run.length with
        | ':' :: after => some (⟨(c :: run).map lowerChar⟩, after)
        | _ => none
      else none

/-- Split at the first `#`: `(before, fragment-with-hash)`. -/
def splitHash (cs : List Char) : List Char × List Char :=
  match lSplitFirst ['#'] cs with
  | some (pre, post) => (pre, '#' :: post)
  | none => (cs, [])

/-- Split at the first `?`: `(before, query-with-question-mark)`. -/
def splitSearch (cs : List Char) : List Char × List Char :=
  match lSplitFirst ['?'] cs with
  | some (pre, post) => (pre, '?' :: post)
  | none => (cs, [])

/-- Dot-segment removal, working on the list of path segments. -/
def dotSegLoop : List (List Char) → List (List Char) → List (List Char)
  | [], out => out
  | [seg], out =>
      if seg = ['.'] then out ++ [[]]
      else if seg = ['.', '.'] then out.dropLast ++ [[]]
      else out ++ [seg]
  | seg :: rest, out =>
      if seg = ['.'] then dotSegLoop rest out
      else if seg = ['.', '.'] then dotSegLoop rest out.dropLast
      else dotSegLoop rest (out ++ [seg])

def joinSegs (segs : List (List Char)) : List Char :=
  match segs with
  | [] => []
  | s :: rest => s ++ (rest.map (fun t => '/' :: t)).flatten

/-- Remove `.`/`..` segments from an absolute path. -/
def removeDotSegments (path : List Char) : List Char :=
  match path with
  | '/' :: rest => '/' :: joinSegs (dotSegLoop (splitOnChar '/' rest) [])
  | _ => path

/-- Drop the default port (`:80` for http, `:443` for https) from a host. -/
def stripDefaultPort (scheme : String) (host : List Char) : List Char :=
  if scheme = "http" && strEnds ⟨host⟩ ":80" then host.take (host.length - 3)
  else if scheme = "https" && strEnds ⟨host⟩ ":443" then host.take (host.length - 4)
  else host

/-- Parse authority/path/query/fragment of a special-scheme URL, the input
starting right after the scheme's slashes.  Fails on an empty authority. -/
def parseSpecialRest (scheme : String) (afterSlashes : List Char) : Option UrlRec :=
  let auth := afterSlashes.takeWhile (fun c => c ≠ '/' && c ≠ '?' && c ≠ '#')
  if auth = [] then none
  else
    let rest := afterSlashes.drop auth.length
    let (beforeHash, hash) := splitHash rest
    let (p, search) := splitSearch beforeHash
    let path := if p = [] then ['/'] else removeDotSegments p
    some { scheme := scheme, host := ⟨stripDefaultPort scheme (auth.map lowerChar)⟩,
           path := ⟨path⟩, search := ⟨search⟩, hash := ⟨hash⟩ }

/-- Parse an absolute URL (one that carries a scheme). -/
def parseAbsoluteCore (cs : List Char) : Option UrlRec :=
  match schemeSplit cs with
  | none => none
  | some (scheme, after) =>
      if scheme = "http" || scheme = "https" then
        parseSpecialRest scheme (after.dropWhile (fun c => c = '/' || c = '\\'))
      else
        let (beforeHash, hash) := splitHash after
        let (p, search) := splitSearch beforeHash
        some { scheme := scheme, host := "", path := ⟨p⟩, search := ⟨search⟩,
               hash := ⟨hash⟩, noAuthority := true }

/-- The base's path up to and including its last `/`. -/
def dirOf (p : List Char) : List Char :=
  match lSplitFirst ['/'] p.reverse with
  | some (_, post) => ('/' :: post).reverse
  | none => []

/-- Model of `new URL(href, base)`: `none` models the constructor throwing. -/
def urlResolve (href base : String) : Option UrlRec :=
  let h := urlSanitize href
  if (schemeSplit h).isSome then parseAbsoluteCore h
  else
    match parseAbsoluteCore (urlSanitize base) with
    | none => none
    | some b =>
        if b.noAuthority then none
        else
          match h with
          | [] => some { b with hash := "" }
          | '/' :: '/' :: rest => parseSpecialRest b.scheme rest
          | '/' :: _ =>
              let (beforeHash, hash) := splitHash h
              let (p, search) := splitSearch beforeHash
              some { b with path := ⟨removeDotSegments p⟩, search := ⟨search⟩, hash := ⟨hash⟩ }
          | '?' :: _ =>
              let (beforeHash, hash) := splitHash h
              some { b with search := ⟨beforeHash⟩, hash := ⟨hash⟩ }
          | '#' :: _ => some { b with hash := ⟨h⟩ }
          | _ =>
              let (beforeHash, hash) := splitHash h
              let (p, search) := splitSearch beforeHash
              let merged := removeDotSegments (dirOf b.path.data ++ p)
              some { b with path := ⟨merged⟩, search := ⟨search⟩, hash := ⟨hash⟩ }

/-- Model of `new URL(s)` without a base (absolute URLs only). -/
def urlParse (s : String) : Option UrlRec := parseAbsoluteCore (urlSanitize s)

/-! ## Data model (`src/index.ts` lines 404-459) -/

structure OptionEntry where
  key : String
  required : Bool
  type : String
  deriving Repr, DecidableEq, Inhabited

structure SectionRef where
  id : String
  anchor : String
  deriving Repr, DecidableEq, Inhabited

structure ModuleEntry where
  name : String
  summary : Option String := none
  url : String
  markdown_url : String
  deprecated : Bool := false
  group : Option String := none
  deriving Repr, DecidableEq, Inhabited

structure GuideEntry where
  id : String
  title : String
  group : Option String := none
  url : String
  headers : Option (List SectionRef) := none
  deriving Repr, DecidableEq, Inhabited

structure TaskEntry where
  id : String
  title : String
  url : String
  deprecated : Bool := false
  group : Option String := none
  sections : Option (List SectionRef) := none
  deriving Repr, DecidableEq, Inhabited

structure Entrypoint where
  label : String
  url : String
  deriving Repr, DecidableEq, Inhabited

structure TaskMapEntry where
  id : String
  title : String
  description : String
  entrypoints : List Entrypoint
  deriving Repr, DecidableEq, Inhabited

structure SourceRefs where
  api_reference : String
  sidebar_items : Option String := none
  deriving Repr, DecidableEq, Inhabited

structure PackageIndex where
  package : String
  version : Option String := none
  is_versioned : Bool
  base_path : String
  origin : String
  last_modified : Option String := none
  source : SourceRefs
  modules : List ModuleEntry
  guides : List GuideEntry
  tasks : List TaskEntry
  task_map : List TaskMapEntry
  generated_at : String
  deriving Repr, DecidableEq, Inhabited

/-- JS truthiness of an optional string (`undefined` and `""` are falsy). -/
def optTruthy : Option String → Bool
  | some s => s ≠ ""
  | none => false

/-! ## Link Resolver (`normalizeLinkTarget` and friends, lines 565-610) -/

/-- Embedding of `normalizeLinkTarget` (lines 565-587). -/
def normalizeLinkTarget (href baseUrl wrapperOrigin : String) : String :=
  if href = "" ∨ strStarts href "#" = true ∨ strStarts href "mailto:" = true ∨
      strStarts href "javascript:" = true then href
  else
    match urlResolve href baseUrl with
    | some resolved =>
        if resolved.host = "hexdocs.pm" then
          wrapperOrigin ++ resolved.path ++ resolved.search ++ resolved.hash
        else resolved.toStr
    | none => href

/-- Matcher for one markdown link `[label](href)` at the head of the input
(the regex `\[([^\]]+)\]\(([^)]+)\)`). -/
def mdLinkAt : List Char → Option ((String × String) × List Char)
  | '[' :: t =>
      let label := t.takeWhile (· ≠ ']')
      if label = [] then none
      else
        match t.drop label.length with
        | ']' :: '(' :: r =>
            let href := r.takeWhile (fun c => c ≠ ')')
            if href = [] then none
            else
              match r.drop href.length with
              | ')' :: rest => some ((⟨label⟩, ⟨href⟩), rest)
              | _ => none
        | _ => none
  | _ => none

/-- All markdown links of a document in order (`matchAll` of the pattern). -/
def mdLinks (markdown : String) : List (String × String) :=
  collectScan (fun t => mdLinkAt t) (markdown.data.length + 1) markdown.data

/-- Embedding of `rewriteMarkdownLinks` (lines 589-597). -/
def rewriteMarkdownLinks (markdown baseUrl wrapperOrigin : String) : String :=
  ⟨replaceScan
      (fun t =>
        match mdLinkAt t with
        | some ((label, href), rest) =>
            let normalized := normalizeLinkTarget (jsTrim href) baseUrl wrapperOrigin
            let out :=
              if normalized ≠ "" then "[" ++ label ++ "](" ++ normalized ++ ")"
              else "[" ++ label ++ "](" ++ href ++ ")"
            some (out.data, rest)
        | none => none)
      (markdown.data.length + 1) markdown.data⟩

/-- Embedding of `buildWrapperUrl` (lines 599-603). -/
def buildWrapperUrl (href baseUrl wrapperOrigin : String) : String :=
  normalizeLinkTarget href baseUrl wrapperOrigin

/-- First `.html` occurrence followed by a word boundary, replaced by `.md`
(the regex `\.html(\b|$)` of `toMarkdownUrl`, first match only). -/
def replaceHtmlBoundary : List Char → List Char
  | [] => []
  | c :: cs =>
      if lStarts ".html".data (c :: cs) then
        match (c :: cs).drop 5 with
        | [] => ".md".data
        | d :: rest =>
            if isWordChar d then c :: replaceHtmlBoundary cs
            else ".md".data ++ (d :: rest)
      else c :: replaceHtmlBoundary cs

/-- Embedding of `toMarkdownUrl` (lines 605-610). -/
def toMarkdownUrl (url : String) : String :=
  if strEnds url ".md" then url
  else if strContains url ".html" then ⟨replaceHtmlBoundary url.data⟩
  else url ++ ".md"

/-- Embedding of `resolveRelatedLink` (lines 689-706). -/
def resolveRelatedLink (href baseUrl wrapperOrigin : String) : Option String :=
  if href = "" ∨ strStarts href "mailto:" = true ∨ strStarts href "javascript:" = true
  then none
  else
    match urlResolve href baseUrl with
    | some resolved =>
        if resolved.host = "hexdocs.pm" then
          some (wrapperOrigin ++ resolved.path ++ resolved.search ++ resolved.hash)
        else some resolved.toStr
    | none => none

/-- One loop iteration of `extractRelatedLinks`: the candidate string the
loop would add to its `Set` for one markdown link href, or `none` when the
iteration `continue`s. -/
def relatedLinkOf (baseUrl wrapperOrigin : String) (pageUrl : UrlRec)
    (href : String) : Option String :=
  let h := jsTrim href
  match (if h ≠ "" then resolveRelatedLink h baseUrl wrapperOrigin else none) with
  | none => none
  | some r =>
      match urlResolve r pageUrl.toStr with
      | some resolvedUrl =>
          if resolvedUrl.origin = pageUrl.origin && resolvedUrl.path = pageUrl.path then none
          else some resolvedUrl.toStr
      | none => some r

/-- Embedding of `extractRelatedLinks` (lines 708-738): the JS `Set` is the
fold that appends a candidate only when it is not present yet; the result is
capped by `slice(0, 30)`.  `none` models `new URL(baseUrl)` throwing. -/
def extractRelatedLinks (markdown baseUrl wrapperOrigin : String) :
    Option (List String) :=
  match urlParse baseUrl with
  | none => none
  | some pageUrl =>
      let targets := (mdLinks markdown).filterMap
        (fun lh => relatedLinkOf baseUrl wrapperOrigin pageUrl lh.2)
      some ((targets.foldl
        (fun links r => if r ∈ links then links else links ++ [r]) []).take 30)

/-- Embedding of `renderRelatedLinks` (lines 786-796). -/
def renderRelatedLinks (links : List String) : String :=
  if links.length = 0 then "## Related Links" ++ "\n" ++ "- (none)"
  else String.intercalate "\n"
    ("## Related Links" :: links.map (fun link => "- " ++ link))

/-- Embedding of `renderRelatedPages` (lines 771-784). -/
def renderRelatedPages (pages : List String) (origin basePath : String) :
    Option String :=
  if pages.length = 0 then none
  else some (String.intercalate "\n"
    ("## Related Pages" ::
      pages.map (fun page => "- " ++ origin ++ basePath ++ "/" ++ page ++ ".html")))

/-- Embedding of `renderGuidesSection` (lines 1434-1444). -/
def renderGuidesSection (guides : List GuideEntry) : Option String :=
  if guides.length = 0 then none
  else some (String.intercalate "\n"
    ("## Guides" ::
      (guides.take 30).map (fun guide =>
        let group := if optTruthy guide.group then " (" ++ guide.group.getD "" ++ ")" else ""
        "- [" ++ guide.title ++ "](" ++ guide.url ++ ")" ++ group)))

/-- Embedding of `renderTaskMapSection` (lines 1446-1459). -/
def renderTaskMapSection (taskMap : List TaskMapEntry) : Option String :=
  if taskMap.length = 0 then none
  else some (String.intercalate "\n"
    ("## Task Map" ::
      taskMap.map (fun task =>
        let entrypoints := String.intercalate ", "
          (task.entrypoints.map (fun entry => "[" ++ entry.label ++ "](" ++ entry.url ++ ")"))
        let suffix := if entrypoints ≠ "" then " (Entrypoints: " ++ entrypoints ++ ")" else ""
        "- " ++ task.title ++ " — " ++ task.description ++ suffix)))

/-! ## Entity Extraction (`decodeHtmlEntities`, `stripTags`, lines 547-563) -/

def natOfDecDigits (ds : List Char) : Nat :=
  ds.foldl (fun acc c => acc * 10 + (c.toNat - 48)) 0

def hexDigitVal (c : Char) : Nat :=
  if isAsciiDigit c then c.toNat - 48
  else if 'a' ≤ c && c ≤ 'f' then c.toNat - 87
  else c.toNat - 55

def natOfHexDigits (ds : List Char) : Nat :=
  ds.foldl (fun acc c => acc * 16 + hexDigitVal c) 0

/-- Matcher for the numeric-entity rule `&#(x?[0-9a-fA-F]+);` of
`decodeHtmlEntities`, including JS `parseInt`'s partial parse of the decimal
branch (`parseInt("12ab", 10) = 12`, `parseInt("abc", 10) = NaN` keeps the
match unchanged) and `String.fromCharCode`'s reduction modulo 2^16. -/
def numericEntityAt : List Char → Option (List Char × List Char)
  | '&' :: '#' :: t =>
      let withX :=
        match t with
        | 'x' :: t2 =>
            let run := t2.takeWhile isHexDigit
            if run = [] then none
            else
              match t2.drop run.length with
              | ';' :: rest => some (natOfHexDigits run, rest)
              | _ => none
        | _ => none
      match withX with
      | some (value, rest) =>
          some ([Char.ofNat (value % 65536)], rest)
      | none =>
          let run := t.takeWhile isHexDigit
          if run = [] then none
          else
            match t.drop run.length with
            | ';' :: rest =>
                let ds := run.takeWhile isAsciiDigit
                if ds = [] then
                  -- parseInt(raw, 10) is NaN: the whole match is kept as-is
                  some ('&' :: '#' :: run ++ [';'], rest)
                else some ([Char.ofNat (natOfDecDigits ds % 65536)], rest)
            | _ => none
  | _ => none

/-- Embedding of `decodeHtmlEntities` (lines 547-560): the six literal
replacements in source order, then the numeric-entity pass. -/
def decodeHtmlEntities (input : String) : String :=
  let s1 := replaceAllLit "&nbsp;" " " input
  let s2 := replaceAllLit "&amp;" "&" s1
  let s3 := replaceAllLit "&lt;" "<" s2
  let s4 := replaceAllLit "&gt;" ">" s3
  let s5 := replaceAllLit "&quot;" "\x22" s4
  let s6 := replaceAllLit "&#39;" "\x27" s5
  ⟨replaceScan numericEntityAt (s6.data.length + 1) s6.data⟩

/-- Tag-removal pass of `stripTags`: the global regex `<[^>]*>` (each `<` is
removed together with everything up to the next `>`; a `<` with no later `>`
stays). -/
def stripTagsScan : Nat → List Char → List Char
  | 0, s => s
  | _, [] => []
  | fuel + 1, c :: cs =>
      if c = '<' then
        match lSplitFirst ['>'] cs with
        | some (_, post) => stripTagsScan fuel post
        | none => c :: stripTagsScan fuel cs
      else c :: stripTagsScan fuel cs

/-- Embedding of `stripTags` (lines 562-563). -/
def stripTags (input : String) : String :=
  decodeHtmlEntities ⟨stripTagsScan (input.data.length + 1) input.data⟩

/-! ## HTML to Markdown Converter (`htmlToMarkdown`, lines 612-653) -/

/-- Run one global-replace stage with enough fuel for the stage's input. -/
def runStage (m : List Char → Option (List Char × List Char)) (s : List Char) :
    List Char :=
  replaceScan m (s.length + 1) s

/-- Matcher removing a lazily-delimited block (case-insensitive literals),
for `<script[\s\S]*?<\/script>` and `<style[\s\S]*?<\/style>`. -/
def removeDelimitedCI (openPat closePat : List Char) (t : List Char) :
    Option (List Char × List Char) :=
  if lStartsCI openPat t then
    match lSplitFirstCI closePat (lDrop openPat t) with
    | some (_, post) => some ([], post)
    | none => none
  else none

/-- Case-sensitive variant, for HTML comments `<!--[\s\S]*?-->`. -/
def removeDelimitedCS (openPat closePat : List Char) (t : List Char) :
    Option (List Char × List Char) :=
  if lStarts openPat t then
    match lSplitFirst closePat (lDrop openPat t) with
    | some (_, post) => some ([], post)
    | none => none
  else none

/-- Parse `tag[^>]*>` at the head of the input (case-insensitive literal
`tag`), returning what follows the closing `>`. -/
def tagOpenAt (tag : List Char) (t : List Char) : Option (List Char) :=
  if lStartsCI tag t then
    let rest := lDrop tag t
    let mid := rest.takeWhile (· ≠ '>')
    match rest.drop mid.length with
    | '>' :: after => some after
    | _ => none
  else none

/-- Matcher for `<pre[^>]*><code[^>]*>([\s\S]*?)<\/code><\/pre>`. -/
def preCodeAt (t : List Char) : Option (List Char × List Char) :=
  match tagOpenAt "<pre".data t with
  | none => none
  | some afterPre =>
      match tagOpenAt "<code".data afterPre with
      | none => none
      | some afterCode =>
          match lSplitFirstCI "</code></pre>".data afterCode with
          | some (code, post) =>
              some (("\n\n```\n" ++ stripTags ⟨code⟩ ++ "\n```\n\n").data, post)
          | none => none

/-- Matcher for one heading level: `<hN[^>]*>([\s\S]*?)<\/hN>`. -/
def headingAt (level : Nat) (t : List Char) : Option (List Char × List Char) :=
  let digit := Char.ofNat (48 + level)
  match tagOpenAt ['<', 'h', digit] t with
  | none => none
  | some afterOpen =>
      match lSplitFirstCI ['<', '/', 'h', digit, '>'] afterOpen with
      | some (content, post) =>
          let text := stripTags ⟨content⟩
          let rep :=
            if text ≠ "" then
              "\n\n" ++ (⟨List.replicate level '#'⟩ : String) ++ " " ++ text ++ "\n\n"
            else "\n\n"
          some (rep.data, post)
      | none => none

/-- Matcher for `<p[^>]*>([\s\S]*?)<\/p>`. -/
def paragraphAt (t : List Char) : Option (List Char × List Char) :=
  match tagOpenAt "<p".data t with
  | none => none
  | some after =>
      match lSplitFirstCI "</p>".data after with
      | some (content, post) =>
          let text := stripTags ⟨content⟩
          some ((if text ≠ "" then "\n\n" ++ text ++ "\n\n" else "\n\n").data, post)
      | none => none

/-- Matcher for `<li[^>]*>([\s\S]*?)<\/li>`. -/
def listItemAt (t : List Char) : Option (List Char × List Char) :=
  match tagOpenAt "<li".data t with
  | none => none
  | some after =>
      match lSplitFirstCI "</li>".data after with
      | some (content, post) =>
          let text := stripTags ⟨content⟩
          some ((if text ≠ "" then "\n- " ++ text ++ "\n" else "\n").data, post)
      | none => none

/-- Matcher for `<br\s*\/?>`. -/
def brAt (t : List Char) : Option (List Char × List Char) :=
  if lStartsCI "<br".data t then
    match (lDrop "<br".data t).dropWhile isJsWs with
    | '/' :: '>' :: after => some (['\n'], after)
    | '>' :: after => some (['\n'], after)
    | _ => none
  else none

/-- Matcher for `<code[^>]*>([\s\S]*?)<\/code>`. -/
def codeSpanAt (t : List Char) : Option (List Char × List Char) :=
  match tagOpenAt "<code".data t with
  | none => none
  | some after =>
      match lSplitFirstCI "</code>".data after with
      | some (content, post) =>
          let text := stripTags ⟨content⟩
          some ((if text ≠ "" then "`" ++ text ++ "`" else "").data, post)
      | none => none

/-- Matcher for `<a[^>]*href=["']([^"']+)["'][^>]*>([\s\S]*?)<\/a>`. -/
def anchorAt (t : List Char) : Option (List Char × List Char) :=
  if lStartsCI "<a".data t then
    let rest := lDrop "<a".data t
    match lSplitFirstCI "href=".data rest with
    | none => none
    | some (pre, afterHref) =>
        if pre.any (· = '>') then none
        else
          match afterHref with
          | q :: vrest =>
              if isQuoteChar q then
                let value := vrest.takeWhile (fun c => ¬ isQuoteChar c)
                if value = [] then none
                else
                  match vrest.drop value.length with
                  | q2 :: afterVal =>
                      if isQuoteChar q2 then
                        let skip := afterVal.takeWhile (· ≠ '>')
                        match afterVal.drop skip.length with
                        | '>' :: contentStart =>
                            match lSplitFirstCI "</a>".data contentStart with
                            | some (content, post) =>
                                let text := stripTags ⟨content⟩
                                let rep :=
                                  if text ≠ "" then
                                    "[" ++ text ++ "](" ++ (⟨value⟩ : String) ++ ")"
                                  else (⟨value⟩ : String)
                                some (rep.data, post)
                            | none => none
                        | _ => none
                      else none
                  | [] => none
              else none
          | [] => none
  else none

/-- Final tag-removal pass: the regex `<[^>]+>` (note the `+`: `<>` stays). -/
def stripTagsPlusScan : Nat → List Char → List Char
  | 0, s => s
  | _, [] => []
  | fuel + 1, c :: cs =>
      if c = '<' then
        match cs with
        | '>' :: _ => c :: stripTagsPlusScan fuel cs
        | _ =>
            match lSplitFirst ['>'] cs with
            | some (_, post) => stripTagsPlusScan fuel post
            | none => c :: stripTagsPlusScan fuel cs
      else c :: stripTagsPlusScan fuel cs

/-- Collapse runs of three or more newlines to exactly two (`\n{3,}`). -/
def collapseNewlines : Nat → List Char → List Char
  | 0, s => s
  | _, [] => []
  | fuel + 1, c :: cs =>
      if c = '\n' then
        let run := cs.takeWhile (· = '\n')
        if 2 ≤ run.length then '\n' :: '\n' :: collapseNewlines fuel (cs.drop run.length)
        else c :: collapseNewlines fuel cs
      else c :: collapseNewlines fuel cs

/-- Embedding of `htmlToMarkdown` (lines 612-653): the stages in source
order. -/
def htmlToMarkdown (html : String) : String :=
  let o0 := html.data
  let o1 := runStage (removeDelimitedCI "<script".data "</script>".data) o0
  let o2 := runStage (removeDelimitedCI "<style".data "</style>".data) o1
  let o3 := runStage (removeDelimitedCS "<!--".data "-->".data) o2
  let o4 := runStage preCodeAt o3
  let o5 := runStage (headingAt 6) o4
  let o6 := runStage (headingAt 5) o5
  let o7 := runStage (headingAt 4) o6
  let o8 := runStage (headingAt 3) o7
  let o9 := runStage (headingAt 2) o8
  let o10 := runStage (headingAt 1) o9
  let o11 := runStage paragraphAt o10
  let o12 := runStage listItemAt o11
  let o13 := runStage brAt o12
  let o14 := runStage codeSpanAt o13
  let o15 := runStage anchorAt o14
  let o16 := (decodeHtmlEntities ⟨stripTagsPlusScan (o15.length + 1) o15⟩).data
  let o17 := collapseNewlines (o16.length + 1) o16
  jsTrim ⟨o17⟩

/-! ## Signature Extractor (lines 1156-1284) -/

/-- The opening brace character. -/
def braceOpen : Char := Char.ofNat 123

/-- The closing brace character. -/
def braceClose : Char := Char.ofNat 125

def isFnNameChar (c : Char) : Bool := isWordChar c || c = '!' || c = '?'

/-- Generic leftmost-match search: try the matcher at every start position
in order, as an unanchored JS `match` does. -/
def findFirstMatch (m : List Char → Option α) : Nat → List Char → Option α
  | 0, _ => none
  | fuel + 1, s =>
      match m s with
      | some a => some a
      | none =>
          match s with
          | [] => none
          | _ :: cs => findFirstMatch m fuel cs

/-- Matcher for one fenced code block (`matchAll` of
the pattern built from three backticks, a line remainder, a newline, a lazy
body and three closing backticks), capturing the body. -/
def codeBlockAt : List Char → Option (String × List Char)
  | '`' :: '`' :: '`' :: t =>
      let info := t.takeWhile (· ≠ '\n')
      match t.drop info.length with
      | '\n' :: body =>
          match lSplitFirst ['`', '`', '`'] body with
          | some (code, post) => some (⟨code⟩, post)
          | none => none
      | _ => none
  | _ => none

/-- Embedding of `extractCodeBlocks` (lines 1194-1200). -/
def extractCodeBlocks (markdown : String) : List String :=
  collectScan codeBlockAt (markdown.data.length + 1) markdown.data

/-- The `line.replace(/,\s*$/, "")` step of `parseOptionLine`. -/
def stripTrailingComma (cs : List Char) : List Char :=
  match cs.reverse.dropWhile isJsWs with
  | ',' :: rest => rest.reverse
  | _ => cs

/-- Matcher for `^optional\(\s*:(\w+)\s*\)\s*=>\s*(.+)$` on a trimmed line. -/
def parseOptionalField (cs : List Char) : Option (String × String) :=
  if lStarts "optional(".data cs then
    match (lDrop "optional(".data cs).dropWhile isJsWs with
    | ':' :: t2 =>
        let key := t2.takeWhile isWordChar
        if key = [] then none
        else
          match (t2.drop key.length).dropWhile isJsWs with
          | ')' :: t3 =>
              match t3.dropWhile isJsWs with
              | '=' :: '>' :: t4 =>
                  let ty := t4.dropWhile isJsWs
                  if ty = [] then none
                  else some ((":" ++ (⟨key⟩ : String) : String), jsTrim ⟨ty⟩)
              | _ => none
          | _ => none
    | _ => none
  else none

/-- Matcher for `^:(\w+)\s*=>\s*(.+)$` on a trimmed line. -/
def parseRequiredArrow (cs : List Char) : Option (String × String) :=
  match cs with
  | ':' :: t1 =>
      let key := t1.takeWhile isWordChar
      if key = [] then none
      else
        match (t1.drop key.length).dropWhile isJsWs with
        | '=' :: '>' :: t2 =>
            let ty := t2.dropWhile isJsWs
            if ty = [] then none
            else some ((":" ++ (⟨key⟩ : String) : String), jsTrim ⟨ty⟩)
        | _ => none
  | _ => none

/-- Matcher for `^(\w+)\s*:\s*(.+)$` on a trimmed line. -/
def parseRequiredColon (cs : List Char) : Option (String × String) :=
  let key := cs.takeWhile isWordChar
  if key = [] then none
  else
    match (cs.drop key.length).dropWhile isJsWs with
    | ':' :: t1 =>
        let ty := t1.dropWhile isJsWs
        if ty = [] then none
        else some ((":" ++ (⟨key⟩ : String) : String), jsTrim ⟨ty⟩)
    | _ => none

/-- Embedding of `parseOptionLine` (lines 1156-1186). -/
def parseOptionLine (line : String) : Option OptionEntry :=
  let trimmed := jsTrimList (stripTrailingComma line.data)
  if trimmed = [] then none
  else
    match parseOptionalField trimmed with
    | some (k, ty) => some ⟨k, false, ty⟩
    | none =>
        match parseRequiredArrow trimmed with
        | some (k, ty) => some ⟨k, true, ty⟩
        | none =>
            match parseRequiredColon trimmed with
            | some (k, ty) => some ⟨k, true, ty⟩
            | none => none

/-- Embedding of `parseMapOptions` (lines 1188-1192). -/
def parseMapOptions (lines : List String) : List OptionEntry :=
  (lines.map (fun line => jsTrim ⟨takeBeforeChar '#' line.data⟩)).filterMap parseOptionLine

/-- `Map.prototype.set`: overwrite in place, or append a new key. -/
def upsertAssoc (acc : List (String × α)) (k : String) (v : α) : List (String × α) :=
  if acc.any (fun p => p.1 = k) then
    acc.map (fun p => if p.1 = k then (k, v) else p)
  else acc ++ [(k, v)]

/-- `Map.prototype.get` on the association-list model (construction from an
array keeps the last entry for a duplicated key, which `upsertAssoc`
realises, so plain first lookup agrees). -/
def assocGet (acc : List (String × α)) (k : String) : Option α :=
  (acc.find? (fun p => p.1 = k)).map (fun p => p.2)

/-- Matcher at one position for the type-declaration head
`@type\s+([A-Za-z0-9_]+)\(\)\s*::\s*%` followed by an opening brace and
`\s*(.*)$` (the regex of `parseTypeOptions`, line 1208). -/
def typeDeclAt (cs : List Char) : Option (String × String) :=
  if lStarts "@type".data cs then
    let t0 := lDrop "@type".data cs
    let ws := t0.takeWhile isJsWs
    if ws = [] then none
    else
      let t1 := t0.drop ws.length
      let name := t1.takeWhile isWordChar
      if name = [] then none
      else
        match t1.drop name.length with
        | '(' :: ')' :: t2 =>
            match t2.dropWhile isJsWs with
            | ':' :: ':' :: t4 =>
                match t4.dropWhile isJsWs with
                | '%' :: b :: t5 =>
                    if b = braceOpen then some (⟨name⟩, ⟨t5.dropWhile isJsWs⟩)
                    else none
                | _ => none
            | _ => none
        | _ => none
  else none

def typeDeclMatch (line : String) : Option (String × String) :=
  findFirstMatch typeDeclAt (line.data.length + 1) line.data

/-- The inner loop of `parseTypeOptions` that gathers map lines until the
line containing the closing brace (`j` loop, lines 1223-1231); `none` as the
second component means the block ended with the map unterminated. -/
def collectMapLines : List String → List String × Option (List String)
  | [] => ([], none)
  | l :: ls =>
      if l.data.any (· = braceClose) then
        ([(⟨takeBeforeChar braceClose l.data⟩ : String)], some ls)
      else
        let (ms, r) := collectMapLines ls
        (l :: ms, r)

/-- The line loop of `parseTypeOptions` (lines 1205-1237) over one code
block, threading the `optionsByType` map. -/
def parseTypeOptionsGo : Nat → List String → List (String × List OptionEntry) →
    List (String × List OptionEntry)
  | 0, _, acc => acc
  | _, [], acc => acc
  | fuel + 1, line :: rest, acc =>
      match typeDeclMatch line with
      | none => parseTypeOptionsGo fuel rest acc
      | some (typeName, inline) =>
          if inline.data.any (· = braceClose) then
            let options := parseMapOptions [(⟨takeBeforeChar braceClose inline.data⟩ : String)]
            parseTypeOptionsGo fuel rest
              (if options.length ≠ 0 then upsertAssoc acc typeName options else acc)
          else
            let lead := if jsTrim inline ≠ "" then [inline] else []
            match collectMapLines rest with
            | (ms, some after) =>
                let options := parseMapOptions (lead ++ ms)
                parseTypeOptionsGo fuel after
                  (if options.length ≠ 0 then upsertAssoc acc typeName options else acc)
            | (ms, none) =>
                let options := parseMapOptions (lead ++ ms)
                parseTypeOptionsGo fuel rest
                  (if options.length ≠ 0 then upsertAssoc acc typeName options else acc)

/-- Embedding of `parseTypeOptions` (lines 1202-1240): an insertion-ordered
association list models the JS `Map`. -/
def parseTypeOptions (markdown : String) : List (String × List OptionEntry) :=
  (extractCodeBlocks markdown).foldl
    (fun acc block =>
      let lines := splitString '\n' block
      parseTypeOptionsGo (lines.length + 1) lines acc)
    []

/-- Matcher for `@type\s+([A-Za-z0-9_]+)\(\)` (the `parseTypeNames` regex). -/
def typeNameAt (cs : List Char) : Option String :=
  if lStarts "@type".data cs then
    let t0 := lDrop "@type".data cs
    let ws := t0.takeWhile isJsWs
    if ws = [] then none
    else
      let t1 := t0.drop ws.length
      let name := t1.takeWhile isWordChar
      if name = [] then none
      else
        match t1.drop name.length with
        | '(' :: ')' :: _ => some ⟨name⟩
        | _ => none
  else none

/-- Embedding of `parseTypeNames` (lines 1242-1253); the JS `Set` is an
insertion-ordered duplicate-free list. -/
def parseTypeNames (markdown : String) : List String :=
  (extractCodeBlocks markdown).foldl
    (fun acc block =>
      (splitString '\n' block).foldl
        (fun acc2 line =>
          match findFirstMatch typeNameAt (line.data.length + 1) line.data with
          | some n => if n ∈ acc2 then acc2 else acc2 ++ [n]
          | none => acc2)
        acc)
    []

structure SpecInfo where
  spec : String
  optsType : Option String := none
  deriving Repr, DecidableEq, Inhabited

/-- Matcher for `@spec\s+([a-zA-Z0-9_!?]+)\(([^)]*)\)`. -/
def specAt (cs : List Char) : Option (String × String) :=
  if lStarts "@spec".data cs then
    let t0 := lDrop "@spec".data cs
    let ws := t0.takeWhile isJsWs
    if ws = [] then none
    else
      let t1 := t0.drop ws.length
      let name := t1.takeWhile isFnNameChar
      if name = [] then none
      else
        match t1.drop name.length with
        | '(' :: t2 =>
            let args := t2.takeWhile (fun c => c ≠ ')')
            match t2.drop args.length with
            | ')' :: _ => some (⟨name⟩, ⟨args⟩)
            | _ => none
        | _ => none
  else none

/-- Leftmost match of `([A-Za-z0-9_]+_opts)\(\)` inside a spec's argument
list: the first maximal word run that ends in `_opts`, has at least one
character before it, and is immediately followed by `()`. -/
def optsTypeIn : Nat → List Char → Option String
  | 0, _ => none
  | _, [] => none
  | fuel + 1, c :: cs =>
      if isWordChar c then
        let run := (c :: cs).takeWhile isWordChar
        let after := (c :: cs).drop run.length
        if lStarts "()".data after && strEnds ⟨run⟩ "_opts" && 6 ≤ run.length then
          some ⟨run⟩
        else optsTypeIn fuel after
      else optsTypeIn fuel cs

/-- Embedding of `parseSpecs` (lines 1255-1271). -/
def parseSpecs (markdown : String) : List (String × SpecInfo) :=
  (extractCodeBlocks markdown).foldl
    (fun acc block =>
      (splitString '\n' block).foldl
        (fun acc2 line =>
          match findFirstMatch specAt (line.data.length + 1) line.data with
          | some (fnName, args) =>
              upsertAssoc acc2 fnName ⟨jsTrim line, optsTypeIn (args.data.length + 1) args.data⟩
          | none => acc2)
        acc)
    []

/-- Matcher for `@callback\s+([A-Za-z0-9_!?]+)\(`. -/
def callbackAt (cs : List Char) : Option String :=
  if lStarts "@callback".data cs then
    let t0 := lDrop "@callback".data cs
    let ws := t0.takeWhile isJsWs
    if ws = [] then none
    else
      let t1 := t0.drop ws.length
      let name := t1.takeWhile isFnNameChar
      if name = [] then none
      else
        match t1.drop name.length with
        | '(' :: _ => some ⟨name⟩
        | _ => none
  else none

/-- Embedding of `parseCallbacks` (lines 1273-1284). -/
def parseCallbacks (markdown : String) : List String :=
  (extractCodeBlocks markdown).foldl
    (fun acc block =>
      (splitString '\n' block).foldl
        (fun acc2 line =>
          match findFirstMatch callbackAt (line.data.length + 1) line.data with
          | some n => if n ∈ acc2 then acc2 else acc2 ++ [n]
          | none => acc2)
        acc)
    []

/-! ## JSON model (for `JSON.parse` in `parseSidebarNodes`) -/

inductive Json where
  | jnull : Json
  | jbool : Bool → Json
  | jnum : String → Json
  | jstr : String → Json
  | jarr : List Json → Json
  | jobj : List (String × Json) → Json
  deriving Repr, Inhabited, BEq

def jsonSkipWs (cs : List Char) : List Char :=
  cs.dropWhile (fun c => c = ' ' || c = '\t' || c = '\n' || c = '\r')

/-- Parse the body of a JSON string after its opening quote. -/
def jsonParseStringBody : Nat → List Char → Option (List Char × List Char)
  | 0, _ => none
  | _, [] => none
  | fuel + 1, c :: cs =>
      if c = quoteD then some ([], cs)
      else if c = '\\' then
        match cs with
        | [] => none
        | e :: cs2 =>
            let cont := fun (d : Char) (rest : List Char) =>
              (jsonParseStringBody fuel rest).map (fun pr => (d :: pr.1, pr.2))
            if e = quoteD then cont quoteD cs2
            else if e = '\\' then cont '\\' cs2
            else if e = '/' then cont '/' cs2
            else if e = 'b' then cont (Char.ofNat 8) cs2
            else if e = 'f' then cont (Char.ofNat 12) cs2
            else if e = 'n' then cont '\n' cs2
            else if e = 'r' then cont '\r' cs2
            else if e = 't' then cont '\t' cs2
            else if e = 'u' then
              match cs2 with
              | h1 :: h2 :: h3 :: h4 :: cs3 =>
                  if isHexDigit h1 && isHexDigit h2 && isHexDigit h3 && isHexDigit h4 then
                    cont (Char.ofNat (natOfHexDigits [h1, h2, h3, h4] % 65536)) cs3
                  else none
              | _ => none
            else none
      else (jsonParseStringBody fuel cs).map (fun pr => (c :: pr.1, pr.2))

/-- Parse a JSON number, keeping its raw text. -/
def jsonParseNumber (cs : List Char) : Option (List Char × List Char) :=
  let (sign, t1) := match cs with
    | '-' :: rest => (['-'], rest)
    | _ => ([], cs)
  let intPart := t1.takeWhile isAsciiDigit
  if intPart = [] then none
  else
    let t2 := t1.drop intPart.length
    let (frac, t3) :=
      match t2 with
      | '.' :: r =>
          let ds := r.takeWhile isAsciiDigit
          if ds = [] then (([] : List Char), t2) else ('.' :: ds, r.drop ds.length)
      | _ => ([], t2)
    let (expo, t4) :=
      match t3 with
      | e :: r =>
          if e = 'e' || e = 'E' then
            let (es, r2) := match r with
              | s :: r3 => if s = '+' || s = '-' then ([s], r3) else (([] : List Char), r)
              | [] => ([], r)
            let ds := r2.takeWhile isAsciiDigit
            if ds = [] then (([] : List Char), t3) else (e :: es ++ ds, r2.drop ds.length)
          else ([], t3)
      | [] => ([], t3)
  some (sign ++ intPart ++ frac ++ expo, t4)

mutual

def jsonParseValue : Nat → List Char → Option (Json × List Char)
  | 0, _ => none
  | fuel + 1, cs0 =>
      match jsonSkipWs cs0 with
      | [] => none
      | c :: rest =>
          if c = quoteD then
            (jsonParseStringBody (fuel + 1) rest).map (fun pr => (Json.jstr ⟨pr.1⟩, pr.2))
          else if c = 't' then
            if lStarts "rue".data rest then some (Json.jbool true, rest.drop 3) else none
          else if c = 'f' then
            if lStarts "alse".data rest then some (Json.jbool false, rest.drop 4) else none
          else if c = 'n' then
            if lStarts "ull".data rest then some (Json.jnull, rest.drop 3) else none
          else if c = '[' then
            match jsonSkipWs rest with
            | ']' :: r => some (Json.jarr [], r)
            | r => (jsonParseElems fuel r).map (fun pr => (Json.jarr pr.1, pr.2))
          else if c = braceOpen then
            match jsonSkipWs rest with
            | b :: r =>
                if b = braceClose then some (Json.jobj [], r)
                else (jsonParseFields fuel (b :: r)).map (fun pr => (Json.jobj pr.1, pr.2))
            | [] => none
          else
            (jsonParseNumber (c :: rest)).map (fun pr => (Json.jnum ⟨pr.1⟩, pr.2))

def jsonParseElems : Nat → List Char → Option (List Json × List Char)
  | 0, _ => none
  | fuel + 1, cs =>
      match jsonParseValue fuel cs with
      | none => none
      | some (v, rest) =>
          match jsonSkipWs rest with
          | ',' :: r => (jsonParseElems fuel r).map (fun pr => (v :: pr.1, pr.2))
          | ']' :: r => some ([v], r)
          | _ => none

def jsonParseFields : Nat → List Char → Option (List (String × Json) × List Char)
  | 0, _ => none
  | fuel + 1, cs =>
      match jsonSkipWs cs with
      | k :: rest =>
          if k = quoteD then
            match jsonParseStringBody (fuel + 1) rest with
            | none => none
            | some (key, rest2) =>
                match jsonSkipWs rest2 with
                | ':' :: rest3 =>
                    match jsonParseValue fuel rest3 with
                    | none => none
                    | some (v, rest4) =>
                        match jsonSkipWs rest4 with
                        | ',' :: r => (jsonParseFields fuel r).map
                            (fun pr => ((⟨key⟩, v) :: pr.1, pr.2))
                        | b :: r =>
                            if b = braceClose then some ([(⟨key⟩, v)], r) else none
                        | [] => none
                | _ => none
          else none
      | [] => none

end

/-- Model of `JSON.parse` (success on a single value with only trailing
whitespace). -/
def jsonParse (s : String) : Option Json :=
  match jsonParseValue (s.data.length + 1) s.data with
  | some (v, rest) => if jsonSkipWs rest = [] then some v else none
  | none => none

def jsonField (j : Json) (k : String) : Option Json :=
  match j with
  | Json.jobj fs => ((fs.reverse).find? (fun p => p.1 = k)).map (fun p => p.2)
  | _ => none

/-- JS template-literal coercion of a property value (`undefined` prints as
`"undefined"`); arrays/objects are approximated. -/
def jsonToDisplay : Json → String
  | Json.jstr s => s
  | Json.jnum r => r
  | Json.jbool true => "true"
  | Json.jbool false => "false"
  | Json.jnull => "null"
  | Json.jarr _ => ""
  | Json.jobj _ => "[object Object]"

def jsonFieldStr (j : Json) (k : String) : String :=
  match jsonField j k with
  | some v => jsonToDisplay v
  | none => "undefined"

def jsonTruthy : Json → Bool
  | Json.jstr s => s ≠ ""
  | Json.jnum r => r ≠ "0" && r ≠ "-0" && r ≠ ""
  | Json.jbool b => b
  | Json.jnull => false
  | Json.jarr _ => true
  | Json.jobj _ => true

/-- A nullish field maps to `none` (so that `?? false` applies); other
values keep their truthiness. -/
def jsonFieldBool (j : Json) (k : String) : Option Bool :=
  match jsonField j k with
  | none => none
  | some Json.jnull => none
  | some (Json.jbool b) => some b
  | some v => some (jsonTruthy v)

def jsonFieldOptStr (j : Json) (k : String) : Option String :=
  match jsonField j k with
  | none => none
  | some Json.jnull => none
  | some v => some (jsonToDisplay v)

/-! ## Sidebar / Index Parser (lines 655-687, 798-855) -/

structure SidebarModule where
  id : String
  deprecated : Option Bool := none
  group : Option String := none
  deriving Repr, DecidableEq, Inhabited

structure SidebarExtra where
  id : String
  group : Option String := none
  title : String
  headers : Option (List SectionRef) := none
  deriving Repr, DecidableEq, Inhabited

structure SidebarTask where
  id : String
  deprecated : Option Bool := none
  group : Option String := none
  title : String
  sections : Option (List SectionRef) := none
  deriving Repr, DecidableEq, Inhabited

structure SidebarNodes where
  modules : Option (List SidebarModule) := none
  extras : Option (List SidebarExtra) := none
  tasks : Option (List SidebarTask) := none
  deriving Repr, DecidableEq, Inhabited

def extractSectionRefs (v : Json) : Option (List SectionRef) :=
  match v with
  | Json.jarr elems =>
      some (elems.map (fun e => ⟨jsonFieldStr e "id", jsonFieldStr e "anchor"⟩))
  | _ => none

def extractSidebarModules (v : Json) : Option (List SidebarModule) :=
  match v with
  | Json.jarr elems =>
      some (elems.map (fun e =>
        { id := jsonFieldStr e "id", deprecated := jsonFieldBool e "deprecated",
          group := jsonFieldOptStr e "group" }))
  | _ => none

def extractSidebarExtras (v : Json) : Option (List SidebarExtra) :=
  match v with
  | Json.jarr elems =>
      some (elems.map (fun e =>
        { id := jsonFieldStr e "id", group := jsonFieldOptStr e "group",
          title := jsonFieldStr e "title",
          headers := (jsonField e "headers").bind extractSectionRefs }))
  | _ => none

def extractSidebarTasks (v : Json) : Option (List SidebarTask) :=
  match v with
  | Json.jarr elems =>
      some (elems.map (fun e =>
        { id := jsonFieldStr e "id", deprecated := jsonFieldBool e "deprecated",
          group := jsonFieldOptStr e "group", title := jsonFieldStr e "title",
          sections := (jsonField e "sections").bind extractSectionRefs }))
  | _ => none

/-- The typed view that the source obtains by casting `JSON.parse`'s result. -/
def extractSidebarNodes (j : Json) : SidebarNodes :=
  { modules := (jsonField j "modules").bind extractSidebarModules,
    extras := (jsonField j "extras").bind extractSidebarExtras,
    tasks := (jsonField j "tasks").bind extractSidebarTasks }

/-- Embedding of `parseSidebarNodes` (lines 660-687). -/
def parseSidebarNodes (script : String) : Option SidebarNodes :=
  let trimmed := jsTrim script
  if ¬ strStarts trimmed "sidebarNodes=" then none
  else
    let afterEq : String := ⟨trimmed.data.drop "sidebarNodes=".length⟩
    let jsonText : String := if strEnds afterEq ";" then ⟨afterEq.data.dropLast⟩ else afterEq
    match jsonParse jsonText with
    | none => none
    | some j => some (extractSidebarNodes j)

/-- Matcher for `sidebar_items-[A-Za-z0-9]+\.js`. -/
def sidebarItemsAt (cs : List Char) : Option String :=
  if lStarts "sidebar_items-".data cs then
    let t := lDrop "sidebar_items-".data cs
    let run := t.takeWhile isAlphanumChar
    if run = [] then none
    else if lStarts ".js".data (t.drop run.length) then
      some ("sidebar_items-" ++ (⟨run⟩ : String) ++ ".js")
    else none
  else none

/-- `new URL(href, base).toString()` where the source's constructor call
cannot throw; `""` stands for the unreachable throwing case. -/
def urlResolveToStr (href base : String) : String :=
  match urlResolve href base with
  | some u => u.toStr
  | none => ""

/-- Embedding of `findSidebarItemsUrl` (lines 655-658); the base is the
api-reference URL. -/
def findSidebarItemsUrl (html : String) (baseUrl : String) : Option String :=
  (findFirstMatch sidebarItemsAt (html.data.length + 1) html.data).map
    (fun m => urlResolveToStr ("dist/" ++ m) baseUrl)

/-- Generic leftmost-match search that also returns the prefix before the
match and the rest after it. -/
def findFirstMatchSplit (m : List Char → Option (α × List Char)) :
    Nat → List Char → Option (List Char × α × List Char)
  | 0, _ => none
  | fuel + 1, s =>
      match m s with
      | some (a, rest) => some ([], a, rest)
      | none =>
          match s with
          | [] => none
          | c :: cs =>
              (findFirstMatchSplit m fuel cs).map
                (fun pr => (c :: pr.1, pr.2.1, pr.2.2))

/-- Matcher for `id=["'] ... ["']` inside an `h2` tag body; with
`targetId = some t` the id literal must be `t` (case-insensitively, the
whole source regex carries the `i` flag), otherwise any non-empty quoted
value is accepted.  Either quote kind closes either opening quote, as in
the character classes of the source pattern. -/
def idAttrAt (targetId : Option (List Char)) (cs : List Char) : Option (Unit × List Char) :=
  if lStartsCI "id=".data cs then
    match lDrop "id=".data cs with
    | q :: rest =>
        if isQuoteChar q then
          match targetId with
          | some tid =>
              if lStartsCI tid rest then
                match rest.drop tid.length with
                | q2 :: r2 => if isQuoteChar q2 then some ((), r2) else none
                | [] => none
              else none
          | none =>
              let value := rest.takeWhile (fun c => ¬ isQuoteChar c)
              if value = [] then none
              else
                match rest.drop value.length with
                | q2 :: r2 => if isQuoteChar q2 then some ((), r2) else none
                | [] => none
        else none
    | [] => none
  else none

/-- Matcher for `<h2[^>]*id=["']...["'][^>]*>`: an `h2` tag whose body (the
characters before the tag's closing `>`) contains the id attribute.
Returns the matched tag text and the rest. -/
def h2TagAt (targetId : Option (List Char)) (cs : List Char) :
    Option (List Char × List Char) :=
  if lStartsCI "<h2".data cs then
    let rest := lDrop "<h2".data cs
    let body := rest.takeWhile (· ≠ '>')
    match rest.drop body.length with
    | '>' :: after =>
        if (findFirstMatch (fun t => (idAttrAt targetId t).map (fun x => x.1))
              (body.length + 1) body).isSome then
          some (cs.take (3 + body.length + 1), after)
        else none
    | _ => none
  else none

/-- Embedding of `sliceSectionByHeading` (lines 819-834), including the
`!headingMatch?.index` quirk that returns `""` when the heading sits at
index 0. -/
def sliceSectionByHeading (html : String) (headingId : String) : String :=
  match findFirstMatchSplit (h2TagAt (some headingId.data)) (html.data.length + 1) html.data with
  | none => ""
  | some (pre, tag, rest) =>
      if pre.length = 0 then ""
      else
        match findFirstMatchSplit (h2TagAt none) (rest.length + 1) rest with
        | some (pre2, _, _) => ⟨tag ++ rest.take pre2.length⟩
        | none => ⟨tag ++ rest⟩

/-- Matcher for the row pattern's anchor part
`<a href="([^"]+)"[^>]*>([^<]+)<\/a>` (double quotes exactly, per the
source pattern). -/
def rowAnchorAt (cs : List Char) : Option ((String × String) × List Char) :=
  if lStartsCI "<a href=\x22".data cs then
    let rest := lDrop "<a href=\x22".data cs
    let href := rest.takeWhile (· ≠ quoteD)
    if href = [] then none
    else
      match rest.drop href.length with
      | _ :: rest2 =>
          let skip := rest2.takeWhile (· ≠ '>')
          match rest2.drop skip.length with
          | '>' :: rest3 =>
              let text := rest3.takeWhile (· ≠ '<')
              if text = [] then none
              else if lStartsCI "</a>".data (rest3.drop text.length) then
                some (((⟨href⟩ : String), (⟨text⟩ : String)),
                  lDrop "</a>".data (rest3.drop text.length))
              else none
          | _ => none
      | [] => none
  else none

/-- Matcher for the optional synopsis group
`(?:<div class="summary-synopsis">[\s\S]*?<p>([\s\S]*?)<\/p>[\s\S]*?<\/div>)?`
tried exactly at the position after `</a>` (the greedy `?` first tries the
group there; if it fails, the group matches empty and the row match ends). -/
def synopsisAt (cs : List Char) : Option (String × List Char) :=
  if lStartsCI "<div class=\x22summary-synopsis\x22>".data cs then
    match lSplitFirstCI "<p>".data (lDrop "<div class=\x22summary-synopsis\x22>".data cs) with
    | none => none
    | some (_, afterP) =>
        match lSplitFirstCI "</p>".data afterP with
        | none => none
        | some (para, afterPara) =>
            match lSplitFirstCI "</div>".data afterPara with
            | none => none
            | some (_, rest) => some (⟨para⟩, rest)
  else none

/-- Matcher for one `summary-row` of the module table (the `rowPattern` of
`parseApiReferenceModules`): the row marker, then a lazy scan to the first
anchor that completes, then the optional synopsis. -/
def summaryRowAt (cs : List Char) :
    Option ((String × String × Option String) × List Char) :=
  if lStartsCI "<div class=\x22summary-row\x22>".data cs then
    let afterOpen := lDrop "<div class=\x22summary-row\x22>".data cs
    match findFirstMatchSplit rowAnchorAt (afterOpen.length + 1) afterOpen with
    | none => none
    | some (_, (href, name), afterA) =>
        match synopsisAt afterA with
        | some (para, rest) => some ((href, name, some para), rest)
        | none => some ((href, name, none), afterA)
  else none

structure ApiModuleRow where
  name : String
  href : String
  summary : Option String := none
  deriving Repr, DecidableEq, Inhabited

/-- Embedding of `parseApiReferenceModules` (lines 836-855). -/
def parseApiReferenceModules (html : String) : List ApiModuleRow :=
  let sec := sliceSectionByHeading html "modules"
  if sec = "" then []
  else
    (collectScan summaryRowAt (sec.data.length + 1) sec.data).filterMap
      (fun row =>
        let href := jsTrim row.1
        let name := jsTrim row.2.1
        if href = "" || name = "" then none
        else
          let summary :=
            match row.2.2.map jsTrim with
            | some s => if s ≠ "" then some (jsTrim (stripTags s)) else none
            | none => none
          some { name := name, href := href, summary := summary })

/-! ## Task-Map Synthesizer (`buildTaskMap`, lines 857-983) -/

/-- Build a JS `Map` from an array of keyed entries (later duplicates
overwrite earlier ones). -/
def mapOfList (key : α → String) (xs : List α) : List (String × α) :=
  xs.foldl (fun acc x => upsertAssoc acc (key x) x) []

/-- The `seen`-set URL dedup at the end of the `entrypoints` helper. -/
def dedupByUrlGo : List Entrypoint → List String → List Entrypoint
  | [], _ => []
  | p :: ps, seen =>
      if p.url ∈ seen then dedupByUrlGo ps seen
      else p :: dedupByUrlGo ps (p.url :: seen)

def dedupByUrl (points : List Entrypoint) : List Entrypoint :=
  dedupByUrlGo points []

/-- The `entrypoints` helper of `buildTaskMap` (lines 869-905). -/
def taskMapEntrypoints (moduleMap : List (String × ModuleEntry))
    (taskMap : List (String × TaskEntry)) (guideMap : List (String × GuideEntry))
    (moduleNames taskTitles guideIds : List String) : List Entrypoint :=
  let points :=
    (moduleNames.filterMap (fun name =>
        (assocGet moduleMap name).map (fun m => Entrypoint.mk m.name m.url))) ++
    (taskTitles.filterMap (fun title =>
        (assocGet taskMap title).map (fun t => Entrypoint.mk t.title t.url))) ++
    (guideIds.filterMap (fun id =>
        (assocGet guideMap id).map (fun g => Entrypoint.mk g.title g.url)))
  dedupByUrl points

/-- Embedding of `buildTaskMap` (lines 857-983): the five fixed rules in
order, then the filter that drops entries with no entrypoints. -/
def buildTaskMap (modules : List ModuleEntry) (guides : List GuideEntry)
    (tasks : List TaskEntry) : List TaskMapEntry :=
  let moduleMap := mapOfList ModuleEntry.name modules
  let taskMap := mapOfList TaskEntry.title tasks
  let guideMap := mapOfList GuideEntry.id guides
  let entry := taskMapEntrypoints moduleMap taskMap guideMap
  let hasGuide := fun (id : String) => (assocGet guideMap id).isSome
  let hasModule := fun (name : String) => (assocGet moduleMap name).isSome
  let hasTask := fun (title : String) => (assocGet taskMap title).isSome
  let t1 : List TaskMapEntry :=
    if hasGuide "getting-started" || hasGuide "readme" then
      [⟨"getting-started", "Get started", "Install and configure the library.",
        entry [] []
          (if hasGuide "getting-started" then ["getting-started"] else ["readme"])⟩]
    else []
  let t2 : List TaskMapEntry :=
    if hasModule "Ecto.Migration" || hasModule "Ecto.Migrator" ||
        hasTask "mix ecto.migrate" then
      [⟨"migrations", "Run database migrations",
        "Create and apply schema changes safely.",
        entry ["Ecto.Migration", "Ecto.Migrator"]
          ["mix ecto.gen.migration", "mix ecto.migrate", "mix ecto.rollback"]
          ["safe-ecto-migrations"]⟩]
    else []
  let t3 : List TaskMapEntry :=
    if hasModule "Ecto.Repo" || hasTask "mix ecto.create" then
      [⟨"repo-setup", "Configure and manage the repo",
        "Connect to the database and manage lifecycle tasks.",
        entry ["Ecto.Repo"] ["mix ecto.create", "mix ecto.drop", "mix ecto.reset"]
          ["getting-started"]⟩]
    else []
  let t4 : List TaskMapEntry :=
    if hasModule "Ecto.Schema" || hasModule "Ecto.Changeset" then
      [⟨"schemas", "Define schemas and validate data",
        "Map data structures and validate changes.",
        entry ["Ecto.Schema", "Ecto.Changeset"] [] ["getting-started"]⟩]
    else []
  let t5 : List TaskMapEntry :=
    if hasModule "Ecto.Query" then
      [⟨"queries", "Query data", "Build composable, secure queries.",
        entry ["Ecto.Query"] [] ["getting-started"]⟩]
    else []
  (t1 ++ t2 ++ t3 ++ t4 ++ t5).filter (fun e => e.entrypoints.length ≠ 0)

/-! ## Path context and fetching (lines 461-494, 985-1001) -/

/-- Embedding of `isVersionSegment` (lines 490-491): the regex
`^\d+\.\d+\.\d+([-.][0-9A-Za-z.-]+)?$`. -/
def versionCore (cs : List Char) : Option (List Char) :=
  let d1 := cs.takeWhile isAsciiDigit
  if d1 = [] then none
  else
    match cs.drop d1.length with
    | '.' :: r1 =>
        let d2 := r1.takeWhile isAsciiDigit
        if d2 = [] then none
        else
          match r1.drop d2.length with
          | '.' :: r2 =>
              let d3 := r2.takeWhile isAsciiDigit
              if d3 = [] then none else some (r2.drop d3.length)
          | _ => none
    | _ => none

def isVersionTail : List Char → Bool
  | [] => true
  | c :: rest =>
      (c = '-' || c = '.') && rest ≠ [] &&
        rest.all (fun d => isAlphanumChar d || d = '.' || d = '-')

def isVersionSegment (version : Option String) : Bool :=
  match version with
  | none => false
  | some v =>
      v ≠ "" &&
        (match versionCore v.data with
         | some rest => isVersionTail rest
         | none => false)

structure PathContext where
  packageName : Option String
  version : Option String
  restPath : String
  basePath : String
  isVersioned : Bool
  deriving Repr, DecidableEq, Inhabited

/-- Embedding of `parsePathContext` (lines 461-488, the second revision). -/
def parsePathContext (pathname : String) : PathContext :=
  match (splitString '/' pathname).filter (fun s => s ≠ "") with
  | [] => ⟨none, none, "", "", false⟩
  | [packageName] => ⟨some packageName, none, "", "/" ++ packageName, false⟩
  | packageName :: maybeVersion :: rest =>
      let isVersioned := isVersionSegment (some maybeVersion)
      let basePath :=
        if isVersioned then "/" ++ packageName ++ "/" ++ maybeVersion
        else "/" ++ packageName
      let restPath :=
        if isVersioned then String.intercalate "/" rest
        else String.intercalate "/" (maybeVersion :: rest)
      ⟨some packageName, if isVersioned then some maybeVersion else none,
        restPath, basePath, isVersioned⟩

def UPSTREAM_ORIGIN : String := "https://hexdocs.pm"

/-- The observable part of an upstream `fetch` response. -/
structure FetchResult where
  status : Nat
  body : String
  lastModified : Option String := none
  deriving Repr, DecidableEq, Inhabited

/-- `Response.ok`: status in the 2xx range. -/
def FetchResult.ok (r : FetchResult) : Bool := 200 ≤ r.status && r.status < 300

/-- The outbound fetch boundary: a pure function from URL to response
(cache options carry no information in the model). -/
abbrev Fetcher := String → FetchResult

/-- The typed error of `errorWithDetails` (lines 514-517). -/
structure ErrDetails where
  message : String
  attempted : Option String := none
  status : Option Nat := none
  fallback : Option String := none
  fallback_status : Option Nat := none
  deriving Repr, DecidableEq, Inhabited

/-! ## Package Index Builder (`buildPackageIndex`, lines 1003-1103) -/

/-- Embedding of `buildPackageIndex`: the awaited fetches become `fetcher`
calls, `JSON.parse` is the model above, and `new Date().toISOString()` is
the `now` parameter. -/
def buildPackageIndex (requestUrl : UrlRec) (fetcher : Fetcher) (now : String) :
    Except ErrDetails PackageIndex :=
  let ctx := parsePathContext requestUrl.path
  let packageName := ctx.packageName.getD "undefined"
  let version := ctx.version.getD "undefined"
  let apiReferenceUrl := urlResolveToStr
      (if ctx.isVersioned then
        "/" ++ packageName ++ "/" ++ version ++ "/api-reference.html"
       else "/" ++ packageName ++ "/api-reference.html") UPSTREAM_ORIGIN
  let apiResponse := fetcher apiReferenceUrl
  if ¬ apiResponse.ok then
    Except.error { message := "Upstream api-reference fetch failed",
                   attempted := some apiReferenceUrl, status := some apiResponse.status }
  else
    let apiHtml := apiResponse.body
    let sidebarUrl := findSidebarItemsUrl apiHtml apiReferenceUrl
    let resolvedSidebarNodes :=
      match sidebarUrl with
      | none => none
      | some su =>
          let r := fetcher su
          if r.ok then parseSidebarNodes r.body else none
    let sidebarModuleMap :=
      mapOfList SidebarModule.id ((resolvedSidebarNodes.bind SidebarNodes.modules).getD [])
    let modulesFromApi := parseApiReferenceModules apiHtml
    let modules : List ModuleEntry :=
      if 0 < modulesFromApi.length then
        modulesFromApi.map (fun e =>
          let url := buildWrapperUrl e.href apiReferenceUrl requestUrl.origin
          { name := e.name, summary := e.summary, url := url,
            markdown_url := toMarkdownUrl url,
            deprecated := ((assocGet sidebarModuleMap e.name).bind SidebarModule.deprecated).getD false,
            group := (assocGet sidebarModuleMap e.name).bind SidebarModule.group })
      else
        ((resolvedSidebarNodes.bind SidebarNodes.modules).getD []).map (fun e =>
          let url := requestUrl.origin ++ ctx.basePath ++ "/" ++ e.id ++ ".html"
          { name := e.id, url := url, markdown_url := toMarkdownUrl url,
            deprecated := e.deprecated.getD false, group := e.group })
    let guides : List GuideEntry :=
      ((resolvedSidebarNodes.bind SidebarNodes.extras).getD []).map (fun e =>
        { id := e.id, title := e.title, group := e.group, headers := e.headers,
          url := requestUrl.origin ++ ctx.basePath ++ "/" ++ e.id ++ ".html" })
    let tasks : List TaskEntry :=
      ((resolvedSidebarNodes.bind SidebarNodes.tasks).getD []).map (fun e =>
        { id := e.id, title := e.title, group := e.group,
          deprecated := e.deprecated.getD false, sections := e.sections,
          url := requestUrl.origin ++ ctx.basePath ++ "/" ++ e.id ++ ".html" })
    Except.ok
      { package := packageName, version := ctx.version,
        is_versioned := ctx.isVersioned, base_path := ctx.basePath,
        origin := requestUrl.origin, last_modified := apiResponse.lastModified,
        source := { api_reference := apiReferenceUrl, sidebar_items := sidebarUrl },
        modules := modules, guides := guides, tasks := tasks,
        task_map := buildTaskMap modules guides tasks, generated_at := now }

/-! ## Enrichment Assembler pieces (lines 519-545, 740-784, 1286-1609) -/

def ciEnds (s pat : String) : Bool := lStartsCI pat.data.reverse s.data.reverse

/-- `path.replace(/\.md$/i, ".html")`. -/
def replaceMdEnd (path : String) : String :=
  if ciEnds path ".md" then (⟨path.data.take (path.data.length - 3)⟩ : String) ++ ".html"
  else path

/-- `path.replace(/\.html$/i, ".md")`. -/
def replaceHtmlEnd (path : String) : String :=
  if ciEnds path ".html" then (⟨path.data.take (path.data.length - 5)⟩ : String) ++ ".md"
  else path

/-- Embedding of `buildInstructionHeader` (lines 519-529). -/
def buildInstructionHeader (origin basePath : String) : String :=
  let base := origin ++ basePath
  joinParts "\n"
    ["## Navigation",
     "Base: " ++ base,
     "Index: " ++ base ++ "/index.json",
     "LLMs: " ++ base ++ "/llms.txt",
     "Modules: " ++ base ++ "/\x7bModule\x7d.html or " ++ base ++ "/\x7bModule\x7d.md",
     "Guides: " ++ base ++ "/\x7bguide\x7d.html"]

/-- Embedding of `buildSourceSection` (lines 531-545). -/
def buildSourceSection (pageUrl : UrlRec) : Option String :=
  let path := pageUrl.path
  if ¬ strEnds path ".html" && ¬ strEnds path ".md" then none
  else
    let htmlPath := if strEnds path ".html" then path else replaceMdEnd path
    let mdPath := if strEnds path ".md" then path else replaceHtmlEnd path
    some (String.intercalate "\n"
      ["## Source URLs",
       "- HTML: " ++ pageUrl.origin ++ htmlPath,
       "- Markdown: " ++ pageUrl.origin ++ mdPath])

/-- Matcher for `^#\s+\`?([^\`]+)\`?` at a line start (the `extractModuleName`
regex; note that `\s+` and `[^\`]+` both match newlines, so the capture can
run past the heading's own line up to the first backtick). -/
def moduleNameAt (cs : List Char) : Option String :=
  match cs with
  | '#' :: t =>
      let ws := t.takeWhile isJsWs
      if ws = [] then none
      else
        let t1 := t.drop ws.length
        let t2 :=
          match t1 with
          | c :: r => if c = '`' then r else t1
          | [] => t1
        let content := t2.takeWhile (· ≠ '`')
        if content = [] then none else some (jsTrim ⟨content⟩)
  | _ => none

/-- Multiline (`m` flag) search: try the matcher at the string start and
after every newline, in order. -/
def lineStartMatch (m : List Char → Option α) : Nat → List Char → Option α
  | 0, _ => none
  | fuel + 1, s =>
      match m s with
      | some a => some a
      | none =>
          match lSplitFirst ['\n'] s with
          | some (_, post) => lineStartMatch m fuel post
          | none => none

/-- Embedding of `extractModuleName` (lines 740-743). -/
def extractModuleName (markdown : String) : Option String :=
  lineStartMatch moduleNameAt (markdown.data.length + 1) markdown.data

/-- Maximal dotted tail `(?:\.[A-Za-z0-9_]+)+` of the module-reference
pattern. -/
def dottedTailGo : Nat → List Char → Option (List Char × List Char)
  | 0, _ => none
  | fuel + 1, cs =>
      match cs with
      | '.' :: r =>
          let run := r.takeWhile isWordChar
          if run = [] then none
          else
            let rest := r.drop run.length
            match dottedTailGo fuel rest with
            | some (more, rest2) => some ('.' :: run ++ more, rest2)
            | none => some ('.' :: run, rest)
      | _ => none

/-- One match of `\b[A-Z][A-Za-z0-9_]*(?:\.[A-Za-z0-9_]+)+\b` starting at
the head of the input (the leading boundary is checked by the caller). -/
def moduleRefAt (cs : List Char) : Option (String × List Char) :=
  match cs with
  | c :: t =>
      if 'A' ≤ c && c ≤ 'Z' then
        let run := t.takeWhile isWordChar
        let rest := t.drop run.length
        match dottedTailGo (rest.length + 1) rest with
        | some (tail, rest2) => some (⟨c :: (run ++ tail)⟩, rest2)
        | none => none
      else none
  | [] => none

/-- `matchAll` of the module-reference pattern, tracking the word/non-word
boundary before each candidate position. -/
def collectModuleRefs : Nat → Option Char → List Char → List String
  | 0, _, _ => []
  | _, _, [] => []
  | fuel + 1, prev, c :: cs =>
      let boundaryOk :=
        match prev with
        | none => true
        | some p => ¬ isWordChar p
      if boundaryOk then
        match moduleRefAt (c :: cs) with
        | some (name, rest) => name :: collectModuleRefs fuel (some 'A') rest
        | none => collectModuleRefs fuel (some c) cs
      else collectModuleRefs fuel (some c) cs

/-- Embedding of `extractModuleReferences` (lines 745-769). -/
def extractModuleReferences (markdown : String)
    (typeOptions : List (String × List OptionEntry)) (knownModules : List String) :
    List String :=
  let fromMd := collectModuleRefs (markdown.data.length + 1) none markdown.data
  let fromTypes :=
    ((typeOptions.map (fun p => p.2)).flatten.map (fun o =>
      collectModuleRefs (o.type.data.length + 1) none o.type.data)).flatten
  (fromMd ++ fromTypes).foldl
    (fun acc name =>
      if knownModules.length = 0 || name ∈ knownModules then
        (if name ∈ acc then acc else acc ++ [name])
      else acc)
    []

/-- The line loop of `extractFirstParagraph` (lines 1286-1321). -/
def extractFirstParagraphGo :
    List String → Bool → Bool → List String → List String
  | [], _, _, para => para
  | line :: rest, inCode, seenTitle, para =>
      let trimmed := jsTrim line
      if strStarts trimmed "```" then
        extractFirstParagraphGo rest (!inCode) seenTitle para
      else if ¬ seenTitle then
        extractFirstParagraphGo rest inCode (strStarts trimmed "# ") para
      else if inCode then extractFirstParagraphGo rest inCode seenTitle para
      else if trimmed = "" then
        if para.length ≠ 0 then para
        else extractFirstParagraphGo rest inCode seenTitle para
      else if strStarts trimmed "#" then para
      else if strStarts trimmed "[🔗](" then
        extractFirstParagraphGo rest inCode seenTitle para
      else extractFirstParagraphGo rest inCode seenTitle (para ++ [trimmed])

/-- Embedding of `extractFirstParagraph`. -/
def extractFirstParagraph (markdown : String) : Option String :=
  let para := extractFirstParagraphGo (splitString '\n' markdown) false false []
  if para.length ≠ 0 then some (String.intercalate " " para) else none

/-- Matcher for `^(?:NOTE|Note|WARNING|Warning|CAUTION|Caution):\s*(.+)$`
on a trimmed line. -/
def warningContent (trimmed : List Char) : Option String :=
  let tryMarker := fun (marker : String) =>
    if lStarts marker.data trimmed then
      match lDrop marker.data trimmed with
      | ':' :: rest =>
          let content := rest.dropWhile isJsWs
          if content = [] then none else some (jsTrim ⟨content⟩)
      | _ => none
    else none
  (tryMarker "NOTE") <|> (tryMarker "Note") <|> (tryMarker "WARNING") <|>
    (tryMarker "Warning") <|> (tryMarker "CAUTION") <|> (tryMarker "Caution")

/-- The line loop of `extractWarnings` (lines 1323-1347), stopping after the
third collected warning. -/
def extractWarningsGo : List String → Bool → List String → List String
  | [], _, acc => acc.reverse
  | line :: rest, inCode, acc =>
      let trimmed := jsTrim line
      if strStarts trimmed "```" then extractWarningsGo rest (!inCode) acc
      else if inCode || trimmed = "" then extractWarningsGo rest inCode acc
      else
        match warningContent trimmed.data with
        | some w =>
            if 3 ≤ acc.length + 1 then (w :: acc).reverse
            else extractWarningsGo rest inCode (w :: acc)
        | none => extractWarningsGo rest inCode acc

def extractWarnings (markdown : String) : List String :=
  extractWarningsGo (splitString '\n' markdown) false []

/-- Embedding of `buildOperationalWorkflow` (lines 1349-1372). -/
def buildOperationalWorkflow (markdown : String) : Option String :=
  let steps :=
    (if strContains markdown "mix ecto.gen.migration" then
      ["- Generate a migration: `mix ecto.gen.migration <name>`."] else []) ++
    (if strContains markdown "priv/" && strContains markdown "migrations" then
      ["- Edit the migration file under `priv/.../migrations`."] else []) ++
    (if strContains markdown "mix ecto.migrate" then
      ["- Apply migrations: `mix ecto.migrate`."] else []) ++
    (if strContains markdown "mix ecto.rollback" then
      ["- Roll back when needed: `mix ecto.rollback --step 1`."] else []) ++
    (if strContains markdown "Ecto.Migrator" || strContains markdown "bin/my_app eval" then
      ["- For releases, run migrations via `Ecto.Migrator` in a release module."] else [])
  if steps.length ≠ 0 then
    some (String.intercalate "\n" ("## Operational Workflow" :: steps))
  else none

/-- Embedding of `buildModuleSynopsis` (lines 1374-1432). -/
def buildModuleSynopsis (moduleName : Option String) (markdown : String)
    (specs : List (String × SpecInfo)) (taskMap : List TaskMapEntry)
    (relatedPages : List String) (moduleSummary : Option String)
    (origin basePath : String) : Option String :=
  match moduleName with
  | none => none
  | some mname =>
      let purpose : Option String :=
        match moduleSummary with
        | some s => some s
        | none => extractFirstParagraph markdown
      let entrypoints := (specs.map (fun p => p.1)).take 5
      let taskMatches :=
        ((taskMap.filter (fun task =>
            task.entrypoints.any (fun e =>
              e.label = mname || strEnds e.url ("/" ++ mname ++ ".html")))).map
          (fun t => t.title)).take 3
      let seeAlso := relatedPages.take 5
      let lines :=
        ["## Module Synopsis"] ++
        (if optTruthy purpose then ["- Purpose: " ++ purpose.getD ""] else []) ++
        (if entrypoints.length ≠ 0 then
          ["- Primary entrypoints: " ++
            String.intercalate ", " (entrypoints.map (fun e => "`" ++ e ++ "`"))]
         else []) ++
        (if taskMatches.length ≠ 0 then
          ["- Common tasks: " ++ String.intercalate ", " taskMatches] else []) ++
        (if seeAlso.length ≠ 0 then
          ["- See also: " ++ String.intercalate ", "
            (seeAlso.map (fun page =>
              "[" ++ page ++ "](" ++ origin ++ basePath ++ "/" ++ page ++ ".html)"))]
         else [])
      if 1 < lines.length then some (String.intercalate "\n" lines) else none

/-- The per-line heading title of `insertSectionHeadings`: the regex
`^#{1,6}\s+\`?([^\`]+)\`?`, trimmed. -/
def headingTitleOf (line : String) : Option String :=
  let hashes := line.data.takeWhile (· = '#')
  if hashes.length = 0 || 6 < hashes.length then none
  else
    let t := line.data.drop hashes.length
    let ws := t.takeWhile isJsWs
    if ws = [] then none
    else
      let t1 := t.drop ws.length
      let t2 :=
        match t1 with
        | c :: r => if c = '`' then r else t1
        | [] => t1
      let content := t2.takeWhile (· ≠ '`')
      if content = [] then none else some (jsTrim ⟨content⟩)

/-- The line loop of `insertSectionHeadings` (lines 1461-1491). -/
def insertSectionHeadingsGo (typeNames callbackNames : List String) :
    List String → Bool → Bool → Bool → List String → List String
  | [], _, _, _, out => out
  | line :: rest, typesIns, callbacksIns, exceptionsIns, out =>
      match headingTitleOf line with
      | some title =>
          if title ≠ "" then
            let p1 := title ∈ typeNames && ¬ typesIns
            let p2 := title ∈ callbackNames && ¬ callbacksIns
            let p3 := ¬ exceptionsIns &&
              (strContains title "Error" || strContains title "Exception")
            let out1 := out ++ (if p1 then ["## Types", ""] else []) ++
              (if p2 then ["## Callbacks", ""] else []) ++
              (if p3 then ["## Exceptions", ""] else [])
            insertSectionHeadingsGo typeNames callbackNames rest
              (typesIns || p1) (callbacksIns || p2) (exceptionsIns || p3)
              (out1 ++ [line])
          else
            insertSectionHeadingsGo typeNames callbackNames rest
              typesIns callbacksIns exceptionsIns (out ++ [line])
      | none =>
          insertSectionHeadingsGo typeNames callbackNames rest
            typesIns callbacksIns exceptionsIns (out ++ [line])

/-- Embedding of `insertSectionHeadings`. -/
def insertSectionHeadings (markdown : String) (typeNames callbackNames : List String) :
    String :=
  String.intercalate "\n"
    (insertSectionHeadingsGo typeNames callbackNames (splitString '\n' markdown)
      false false false [])

/-- Embedding of `buildOptionsTable` (lines 1493-1507); the stable
required-before-optional sort is the partition. -/
def buildOptionsTable (options : List OptionEntry) : String :=
  let sorted := options.filter (fun o => o.required) ++
    options.filter (fun o => ¬ o.required)
  String.intercalate "\n"
    (["## Options", "| Key | Required | Type |", "| --- | --- | --- |"] ++
      sorted.map (fun o =>
        "| " ++ o.key ++ " | " ++ (if o.required then "yes" else "no") ++
          " | " ++ o.type ++ " |"))

/-- The strict function-heading pattern of `injectFunctionEnhancements`:
`^#{1,6}\s+\`?([A-Za-z0-9_!?]+)\`?\s*$`. -/
def fnHeadingOf (line : String) : Option String :=
  let hashes := line.data.takeWhile (· = '#')
  if hashes.length = 0 || 6 < hashes.length then none
  else
    let t := line.data.drop hashes.length
    let ws := t.takeWhile isJsWs
    if ws = [] then none
    else
      let t1 := t.drop ws.length
      let t2 :=
        match t1 with
        | c :: r => if c = '`' then r else t1
        | [] => t1
      let name := t2.takeWhile isFnNameChar
      if name = [] then none
      else
        let t3 := t2.drop name.length
        let t4 :=
          match t3 with
          | c :: r => if c = '`' then r else t3
          | [] => t3
        if t4.dropWhile isJsWs = [] then some ⟨name⟩ else none

structure PendingFn where
  fnName : String
  spec : Option String := none
  options : Option (List OptionEntry) := none
  inserted : Bool := false
  deriving Repr, DecidableEq, Inhabited

/-- The `flushInsertions` closure of `injectFunctionEnhancements`: the lines
it appends to the output. -/
def flushLines (p : PendingFn) : List String :=
  let specLines :=
    match p.spec with
    | some s => if s ≠ "" then ["Spec: `" ++ s ++ "`"] else []
    | none => []
  let optLines :=
    match p.options with
    | some opts =>
        if opts.length ≠ 0 then
          (if specLines.length ≠ 0 then [""] else []) ++
            splitString '\n' (buildOptionsTable opts)
        else []
    | none => []
  let insertLines := specLines ++ optLines
  if insertLines.length ≠ 0 then insertLines ++ [""] else []

/-- The line loop of `injectFunctionEnhancements` (lines 1509-1582). -/
def injectGo (specs : List (String × SpecInfo))
    (optionsByType : List (String × List OptionEntry)) :
    List String → Option PendingFn → List String → List String
  | [], _, out => out
  | line :: rest, pending, out =>
      match fnHeadingOf line with
      | some fnName =>
          let specInfo := assocGet specs fnName
          let options :=
            match specInfo with
            | some si =>
                match si.optsType with
                | some ot => assocGet optionsByType ot
                | none => none
            | none => none
          let newPending : Option PendingFn :=
            if specInfo.isSome || options.isSome then
              some ⟨fnName, specInfo.map SpecInfo.spec, options, false⟩
            else none
          injectGo specs optionsByType rest newPending (out ++ [line])
      | none =>
          match pending with
          | some p =>
              if strStarts line "[🔗](" then
                injectGo specs optionsByType rest pending (out ++ [line])
              else if ¬ p.inserted then
                if jsTrim line ≠ "" && ¬ strStarts line "```" && ¬ strStarts line "#" then
                  let summaryLine :=
                    if strStarts (jsTrim line) "Summary:" then jsTrim line
                    else "Summary: " ++ jsTrim line
                  injectGo specs optionsByType rest none
                    (out ++ flushLines p ++ [summaryLine])
                else
                  injectGo specs optionsByType rest (some { p with inserted := true })
                    (out ++ flushLines p ++ [line])
              else injectGo specs optionsByType rest pending (out ++ [line])
          | none => injectGo specs optionsByType rest pending (out ++ [line])

/-- Embedding of `injectFunctionEnhancements`. -/
def injectFunctionEnhancements (markdown : String)
    (optionsByType : List (String × List OptionEntry))
    (specs : List (String × SpecInfo)) : String :=
  String.intercalate "\n"
    (injectGo specs optionsByType (splitString '\n' markdown) none [])

/-- Embedding of `buildAgentDataSection` (lines 1584-1609). -/
def buildAgentDataSection (optionsByType : List (String × List OptionEntry)) :
    Option String :=
  let optTypes := optionsByType.filter (fun p => strEnds p.1 "_opts")
  if optTypes.length = 0 then none
  else
    let perType := (optTypes.map (fun p =>
      let required := p.2.filter (fun o => o.required)
      let optional := p.2.filter (fun o => ¬ o.required)
      ["  " ++ p.1 ++ ":"] ++ ["    required:"] ++
        ((required.map (fun o =>
          ["      - key: " ++ o.key, "        type: " ++ o.type])).flatten) ++
        ["    optional:"] ++
        ((optional.map (fun o =>
          ["      - key: " ++ o.key, "        type: " ++ o.type])).flatten))).flatten
    some (String.intercalate "\n"
      (["## Agent Data", "```agent-data", "opts:"] ++ perType ++ ["```"]))

/-! ## Markdown-variant discovery and page fetch (lines 798-817, 1105-1154) -/

/-- Parse a quoted attribute value `["']([^"']+\.md[^"']*)["']` (the value
must contain `.md` at index one or later, since `[^"']+` consumes at least
one character first). -/
def mdAttrValueAt (cs : List Char) : Option (String × List Char) :=
  match cs with
  | q :: rest =>
      if isQuoteChar q then
        let value := rest.takeWhile (fun c => ¬ isQuoteChar c)
        if value = [] then none
        else if ¬ lContains ".md".data (value.drop 1) then none
        else
          match rest.drop value.length with
          | q2 :: after =>
              if isQuoteChar q2 then some (⟨value⟩, after) else none
          | [] => none
      else none
  | [] => none

def dataMarkdownUrlAt (cs : List Char) : Option (String × List Char) :=
  if lStartsCI "data-markdown-url=".data cs then
    mdAttrValueAt (lDrop "data-markdown-url=".data cs)
  else none

def hrefMdAt (cs : List Char) : Option (String × List Char) :=
  if lStartsCI "href=".data cs then mdAttrValueAt (lDrop "href=".data cs)
  else none

/-- Embedding of `findMarkdownUrlFromHtml` (lines 798-817). -/
def findMarkdownUrlFromHtml (html : String) (htmlUrl : UrlRec) : Option String :=
  let expected : Option String :=
    if strEnds htmlUrl.path ".html" then
      ((splitString '/' htmlUrl.path).getLast?).map replaceHtmlEnd
    else none
  let candidates :=
    collectScan dataMarkdownUrlAt (html.data.length + 1) html.data ++
      collectScan hrefMdAt (html.data.length + 1) html.data
  if candidates.length = 0 then
    expected.map (fun e => urlResolveToStr e htmlUrl.toStr)
  else
    let preferred :=
      (expected.bind (fun e => candidates.find? (fun c => strContains c e))) <|>
        candidates.head?
    preferred.map (fun p => urlResolveToStr p htmlUrl.toStr)

/-- Embedding of `getMarkdownFromPath` (lines 1105-1154). -/
def getMarkdownFromPath (requestUrl : UrlRec) (fetcher : Fetcher) :
    Except ErrDetails String :=
  match urlResolve (requestUrl.path ++ requestUrl.search) UPSTREAM_ORIGIN with
  | none => Except.error { message := "Unknown error" }
  | some upstreamRec =>
      let upstreamUrl := upstreamRec.toStr
      if strEnds requestUrl.path ".md" then
        let htmlUrl := urlResolveToStr (replaceMdEnd requestUrl.path) UPSTREAM_ORIGIN
        let response := fetcher upstreamUrl
        if response.ok then Except.ok response.body
        else
          let htmlResponse := fetcher htmlUrl
          if htmlResponse.ok then Except.ok (htmlToMarkdown htmlResponse.body)
          else
            Except.error
              { message := "Upstream markdown fetch failed",
                attempted := some upstreamUrl, status := some response.status,
                fallback := some htmlUrl, fallback_status := some htmlResponse.status }
      else
        let htmlResponse := fetcher upstreamUrl
        if ¬ htmlResponse.ok then
          Except.error
            { message := "Upstream html fetch failed",
              attempted := some upstreamUrl, status := some htmlResponse.status }
        else
          let html := htmlResponse.body
          match findMarkdownUrlFromHtml html upstreamRec with
          | some markdownUrl =>
              let markdownResponse := fetcher markdownUrl
              if markdownResponse.ok then Except.ok markdownResponse.body
              else Except.ok (htmlToMarkdown html)
          | none => Except.ok (htmlToMarkdown html)

/-! ## JSON serialization (`JSON.stringify(body, null, 2)`) -/

def hex4 (n : Nat) : String :=
  let d := fun (k : Nat) =>
    let v := k % 16
    if v < 10 then Char.ofNat (48 + v) else Char.ofNat (87 + v)
  ⟨[d (n / 4096), d (n / 256), d (n / 16), d n]⟩

def jsonEscapeChar (c : Char) : String :=
  if c = quoteD then "\\\x22"
  else if c = '\\' then "\\\\"
  else if c = '\n' then "\\n"
  else if c = '\r' then "\\r"
  else if c = '\t' then "\\t"
  else if c = Char.ofNat 8 then "\\b"
  else if c = Char.ofNat 12 then "\\f"
  else if c.toNat < 32 then "\\u" ++ hex4 c.toNat
  else ⟨[c]⟩

def jsonStrLit (s : String) : String :=
  "\x22" ++ String.join (s.data.map jsonEscapeChar) ++ "\x22"

def jsonIndent (n : Nat) : String := ⟨List.replicate (2 * n) ' '⟩

mutual

def jsonRender : Nat → Json → String
  | _, Json.jnull => "null"
  | _, Json.jbool true => "true"
  | _, Json.jbool false => "false"
  | _, Json.jnum r => r
  | _, Json.jstr s => jsonStrLit s
  | ind, Json.jarr xs =>
      match xs with
      | [] => "[]"
      | _ =>
          "[\n" ++
            String.intercalate ",\n"
              ((jsonRenderItems (ind + 1) xs).map (fun it => jsonIndent (ind + 1) ++ it)) ++
            "\n" ++ jsonIndent ind ++ "]"
  | ind, Json.jobj fs =>
      match fs with
      | [] => "\x7b\x7d"
      | _ =>
          "\x7b\n" ++
            String.intercalate ",\n"
              ((jsonRenderFields (ind + 1) fs).map (fun it => jsonIndent (ind + 1) ++ it)) ++
            "\n" ++ jsonIndent ind ++ "\x7d"

def jsonRenderItems : Nat → List Json → List String
  | _, [] => []
  | ind, x :: xs => jsonRender ind x :: jsonRenderItems ind xs

def jsonRenderFields : Nat → List (String × Json) → List String
  | _, [] => []
  | ind, (k, v) :: fs =>
      (jsonStrLit k ++ ": " ++ jsonRender ind v) :: jsonRenderFields ind fs

end

/-- `PackageIndex` as a JSON value, with `undefined`-valued properties
skipped as `JSON.stringify` does; property order follows the object
literals of the source. -/
def packageIndexJson (i : PackageIndex) : Json :=
  let optStr := fun (k : String) (v : Option String) =>
    match v with
    | some s => [(k, Json.jstr s)]
    | none => ([] : List (String × Json))
  let sectionRefs := fun (refs : List SectionRef) =>
    Json.jarr (refs.map (fun r =>
      Json.jobj [("id", Json.jstr r.id), ("anchor", Json.jstr r.anchor)]))
  Json.jobj
    ([("package", Json.jstr i.package)] ++ optStr "version" i.version ++
     [("is_versioned", Json.jbool i.is_versioned),
      ("base_path", Json.jstr i.base_path),
      ("origin", Json.jstr i.origin)] ++
     optStr "last_modified" i.last_modified ++
     [("source", Json.jobj
        ([("api_reference", Json.jstr i.source.api_reference)] ++
          optStr "sidebar_items" i.source.sidebar_items)),
      ("modules", Json.jarr (i.modules.map (fun m =>
        Json.jobj
          ([("name", Json.jstr m.name)] ++ optStr "summary" m.summary ++
           [("url", Json.jstr m.url),
            ("markdown_url", Json.jstr m.markdown_url),
            ("deprecated", Json.jbool m.deprecated)] ++ optStr "group" m.group)))),
      ("guides", Json.jarr (i.guides.map (fun g =>
        Json.jobj
          ([("id", Json.jstr g.id), ("title", Json.jstr g.title)] ++
           optStr "group" g.group ++
           (match g.headers with
            | some hs => [("headers", sectionRefs hs)]
            | none => []) ++
           [("url", Json.jstr g.url)])))),
      ("tasks", Json.jarr (i.tasks.map (fun t =>
        Json.jobj
          ([("id", Json.jstr t.id), ("title", Json.jstr t.title)] ++
           optStr "group" t.group ++
           [("deprecated", Json.jbool t.deprecated)] ++
           (match t.sections with
            | some ss => [("sections", sectionRefs ss)]
            | none => []) ++
           [("url", Json.jstr t.url)])))),
      ("task_map", Json.jarr (i.task_map.map (fun t =>
        Json.jobj
          [("id", Json.jstr t.id), ("title", Json.jstr t.title),
           ("description", Json.jstr t.description),
           ("entrypoints", Json.jarr (t.entrypoints.map (fun e =>
             Json.jobj [("label", Json.jstr e.label), ("url", Json.jstr e.url)])))]))),
      ("generated_at", Json.jstr i.generated_at)])

def renderPackageIndexJson (i : PackageIndex) : String :=
  jsonRender 0 (packageIndexJson i)

/-- The error object of the `index.json` catch branch (explicit `null`s are
serialized, unlike `undefined`). -/
def renderErrorJson (message attempted : String) (status : Option Nat)
    (fallback : Option String) (fallbackStatus : Option Nat) : String :=
  jsonRender 0 (Json.jobj
    [("error", Json.jstr message),
     ("attempted", Json.jstr attempted),
     ("status", match status with | some s => Json.jnum (toString s) | none => Json.jnull),
     ("fallback", match fallback with | some f => Json.jstr f | none => Json.jnull),
     ("fallback_status",
       match fallbackStatus with | some s => Json.jnum (toString s) | none => Json.jnull)])

/-! ## llms.txt replacement (`buildLlmsReplacement`, lines 1611-1653) -/

def buildLlmsReplacement (requestUrl : UrlRec) (fetcher : Fetcher) (now : String) :
    Except ErrDetails String :=
  match buildPackageIndex requestUrl fetcher now with
  | Except.error e => Except.error e
  | Except.ok index =>
      let moduleLines := index.modules.map (fun e =>
        let summary := if optTruthy e.summary then " — " ++ e.summary.getD "" else ""
        "- [" ++ e.name ++ "](" ++ e.url ++ ")" ++ summary ++
          " (Markdown: " ++ e.markdown_url ++ ")")
      let guideLines := index.guides.map (fun e =>
        let group := if optTruthy e.group then " (" ++ e.group.getD "" ++ ")" else ""
        "- [" ++ e.title ++ "](" ++ e.url ++ ")" ++ group)
      let taskLines := index.tasks.map (fun e =>
        "- [" ++ e.title ++ "](" ++ e.url ++ ")")
      let lines : List (Option String) :=
        [some "## Package",
         some ("- name: " ++ index.package),
         some (if optTruthy index.version then "- version: " ++ index.version.getD ""
               else "- version: latest"),
         some ("- index: " ++ index.origin ++ index.base_path ++ "/index.json"),
         some ("- api_reference: " ++ index.source.api_reference),
         (if optTruthy index.source.sidebar_items then
            some ("- sidebar_items: " ++ index.source.sidebar_items.getD "") else none),
         (if optTruthy index.last_modified then
            some ("- last_modified: " ++ index.last_modified.getD "") else none),
         some "",
         renderTaskMapSection index.task_map,
         some "",
         some "## Modules"] ++ moduleLines.map some ++
        [some "",
         (if index.guides.length ≠ 0 then some "## Guides" else none)] ++
        guideLines.map some ++
        [some "",
         (if index.tasks.length ≠ 0 then some "## Mix Tasks" else none)] ++
        taskLines.map some
      Except.ok (jsTrim (String.intercalate "\n"
        ((lines.filterMap id).filter (fun l => l ≠ ""))))

/-! ## Request handler (`handleRequest`, lines 1655-1809) -/

structure HttpResp where
  status : Nat
  body : String
  deriving Repr, DecidableEq, Inhabited

/-- The `bodyParts` assembly of the page-render branch (lines 1759-1771):
the ten slots in source order, with `filter(Boolean)` dropping both absent
sections and empty strings, joined by blank lines. -/
def assembleBody (instructionHeader : String)
    (sourceSection moduleSynopsis warningsSection workflowSection : Option String)
    (enhanced : String)
    (agentData relatedPagesSection guidesSection : Option String)
    (relatedLinksSection : String) : String :=
  joinParts "\n\n"
    (([some instructionHeader, sourceSection, moduleSynopsis, warningsSection,
       workflowSection, some enhanced, agentData, relatedPagesSection,
       guidesSection, some relatedLinksSection].filterMap id).filter
      (fun s => s ≠ ""))

/-- The 400 body of the invalid-request branch (lines 1664-1672). -/
def invalidRequestBody : String :=
  String.intercalate "\n"
    ["## Invalid Request",
     "Expected URL format: /\x7bpackage\x7d/\x7bversion\x7d/\x7bpage\x7d.html",
     "Example: /ai_sdk_ex/0.1.1/readme.html"]

/-- The page-render success pipeline (the body of the `try` block after
`getMarkdownFromPath`, lines 1695-1772). -/
def renderPageBody (url : UrlRec) (basePath : String)
    (instructionHeader : String) (sourceSection : Option String)
    (packageIndex : Option PackageIndex) (rawMarkdown : String) : String :=
  let rewritten := rewriteMarkdownLinks rawMarkdown url.toStr url.origin
  let optionsByType := parseTypeOptions rewritten
  let specs := parseSpecs rewritten
  let callbacks := parseCallbacks rewritten
  let typeNames := parseTypeNames rewritten
  let withSections := insertSectionHeadings rewritten typeNames callbacks
  let enhanced := injectFunctionEnhancements withSections optionsByType specs
  let agentData := buildAgentDataSection optionsByType
  let moduleName := extractModuleName rewritten
  let knownModules := (packageIndex.map (fun i => i.modules.map ModuleEntry.name)).getD []
  let relatedPages :=
    ((extractModuleReferences enhanced optionsByType knownModules).filter
      (fun page => some page ≠ moduleName)).take 20
  let moduleSummary :=
    (packageIndex.bind (fun i => i.modules.find? (fun e => some e.name = moduleName))).bind
      ModuleEntry.summary
  let moduleSynopsis := buildModuleSynopsis moduleName enhanced specs
      ((packageIndex.map PackageIndex.task_map).getD []) relatedPages moduleSummary
      url.origin basePath
  let warnings := extractWarnings enhanced
  let warningsSection :=
    if warnings.length ≠ 0 then
      some (String.intercalate "\n" ("## Warnings" :: warnings.map (fun w => "- " ++ w)))
    else none
  let workflowSection := buildOperationalWorkflow enhanced
  let relatedPagesSection := renderRelatedPages relatedPages url.origin basePath
  let relatedLinks := (extractRelatedLinks enhanced url.toStr url.origin).getD []
  let guidesSection := packageIndex.bind (fun i => renderGuidesSection i.guides)
  assembleBody instructionHeader sourceSection moduleSynopsis warningsSection
    workflowSection enhanced agentData relatedPagesSection guidesSection
    (renderRelatedLinks relatedLinks)

/-- The catch branch of `handleRequest` (lines 1773-1808): the rendered
error response carrying the attempted URL, status and fallback details. -/
def renderErrorResponse (instructionHeader : String) (isIndexJson : Bool)
    (urlStr : String) (e : ErrDetails) : HttpResp :=
  let attempted := e.attempted.getD urlStr
  if isIndexJson then
    ⟨502, renderErrorJson e.message attempted e.status e.fallback e.fallback_status⟩
  else
    let errorLines :=
      ([some instructionHeader, some "", some "## Upstream Error",
        some ("message: " ++ e.message),
        some ("attempted: " ++ attempted),
        (match e.status with
         | some s => if s ≠ 0 then some ("status: " ++ toString s) else none
         | none => none),
        (match e.fallback with
         | some f => if f ≠ "" then some ("fallback: " ++ f) else some "fallback: none"
         | none => some "fallback: none"),
        (match e.fallback, e.fallback_status with
         | some f, some fs =>
             if f ≠ "" && fs ≠ 0 then some ("fallback_status: " ++ toString fs)
             else none
         | _, _ => none)].filterMap id).filter (fun l => l ≠ "")
    ⟨502, joinParts "\n" errorLines⟩

/-- Embedding of `handleRequest` (lines 1655-1809): the router-parsed URL is
the `url` record, fetches are the pure `fetcher`, and the try/catch is the
`Except` match. -/
def handleRequest (url : UrlRec) (fetcher : Fetcher) (now : String) : HttpResp :=
  let ctx := parsePathContext url.path
  if ctx.packageName = none ∨ ctx.restPath = "" then ⟨400, invalidRequestBody⟩
  else
    let instructionHeader := buildInstructionHeader url.origin ctx.basePath
    let sourceSection := buildSourceSection url
    let isLlms := strEnds url.path "/llms.txt"
    let isIndexJson := strEnds url.path "/index.json"
    let result : Except ErrDetails HttpResp :=
      if isIndexJson then
        (buildPackageIndex url fetcher now).map (fun index =>
          ⟨200, renderPackageIndexJson index⟩)
      else if isLlms then
        (buildLlmsReplacement url fetcher now).map (fun llmsBodyRaw =>
          let llmsBody := rewriteMarkdownLinks llmsBodyRaw url.toStr url.origin
          let bodyParts := [instructionHeader, llmsBody].filter (fun s => s ≠ "")
          ⟨200, String.intercalate "\n\n" bodyParts⟩)
      else
        (getMarkdownFromPath url fetcher).map (fun rawMarkdown =>
          let packageIndex :=
            match buildPackageIndex url fetcher now with
            | Except.ok i => some i
            | Except.error _ => none
          ⟨200, renderPageBody url ctx.basePath instructionHeader sourceSection
            packageIndex rawMarkdown⟩)
    match result with
    | Except.ok resp => resp
    | Except.error e => renderErrorResponse instructionHeader isIndexJson url.toStr e

/-! ## Specification-side definitions

These follow the spec's words rather than the source, and are compared
against the source embeddings by the refinement theorems. -/

/-- Deduplication that keeps the first occurrence of each string, stated
recursively (the spec's "deduplicated" collection of related links); the
fuel only bounds the recursion and never runs out when it exceeds the list
length. -/
def dedupKeepFirstGo : Nat → List String → List String
  | 0, _ => []
  | _, [] => []
  | fuel + 1, x :: xs => x :: dedupKeepFirstGo fuel (xs.filter (fun y => y ≠ x))

def dedupKeepFirst (l : List String) : List String :=
  dedupKeepFirstGo (l.length + 1) l

/-- The per-href resolved targets of a page, in occurrence order and
without deduplication or the cap (the spec's "every resolved Markdown link
target on the page", self-referential links excluded). -/
def relatedLinkTargets (markdown baseUrl wrapperOrigin : String)
    (pageUrl : UrlRec) : List String :=
  (mdLinks markdown).filterMap
    (fun lh => relatedLinkOf baseUrl wrapperOrigin pageUrl lh.2)

/-! ### Generic option-map declarations

An arbitrary well-formed multi-line `@type` option-map declaration, used to
state the field-extraction property for every field list rather than a
fixed example. -/

inductive FieldForm where
  | optionalArrow : FieldForm
  | requiredArrow : FieldForm
  | requiredColon : FieldForm
  deriving Repr, DecidableEq, Inhabited

structure FieldSpec where
  key : String
  form : FieldForm
  ty : String
  deriving Repr, DecidableEq, Inhabited

/-- One declared field, rendered on its own line in the three surface forms
the extractor recognises. -/
def renderFieldLine (f : FieldSpec) : String :=
  match f.form with
  | FieldForm.optionalArrow => "  optional(:" ++ f.key ++ ") => " ++ f.ty ++ ","
  | FieldForm.requiredArrow => "  :" ++ f.key ++ " => " ++ f.ty ++ ","
  | FieldForm.requiredColon => "  " ++ f.key ++ ": " ++ f.ty ++ ","

def typeHeaderLine (tn : String) : String :=
  "@type " ++ tn ++ "() :: %" ++ (⟨[braceOpen]⟩ : String)

/-- The fenced block declaring `tn() :: %{ ... }` with one field per line. -/
def renderTypeBlock (tn : String) (fields : List FieldSpec) : String :=
  "```\n" ++
    joinParts "\n" (typeHeaderLine tn :: (fields.map renderFieldLine ++ ["\x7d"])) ++
    "\n```"

/-- The OptionEntry a declared field denotes. -/
def fieldEntry (f : FieldSpec) : OptionEntry :=
  ⟨":" ++ f.key, f.form ≠ FieldForm.optionalArrow, f.ty⟩

/-- A well-formed key: a non-empty `\w+` word. -/
@[reducible] def cleanKey (k : String) : Prop :=
  k.data ≠ [] ∧ ∀ c ∈ k.data, isWordChar c = true

/-- A well-formed declared type text: non-empty, no surrounding whitespace,
and free of the characters that terminate a line, a comment or the map. -/
@[reducible] def cleanType (t : String) : Prop :=
  t.data ≠ [] ∧
  t.data.dropWhile isJsWs = t.data ∧
  t.data.reverse.dropWhile isJsWs = t.data.reverse ∧
  ∀ c ∈ t.data, c ≠ '\n' ∧ c ≠ '#' ∧ c ≠ braceClose ∧ c ≠ '`'

@[reducible] def cleanField (f : FieldSpec) : Prop := cleanKey f.key ∧ cleanType f.ty

/-! ## Concrete fixtures used by the claim instances -/

/-- The spec's single-line option-map block, exactly as the claim writes it
(no `@type` marker). -/
def specTypeBlock : String :=
  "```\nname() :: %\x7b :a => integer(), optional(:b) => boolean() \x7d\n```"

/-- The same block with the `@type` marker the source regex requires. -/
def specTypeBlockAtType : String :=
  "```\n@type name() :: %\x7b :a => integer(), optional(:b) => boolean() \x7d\n```"

/-- The same declaration with one field per line. -/
def specTypeBlockMultiline : String :=
  "```\n@type name() :: %\x7b\n  :a => integer(),\n  optional(:b) => boolean()\n\x7d\n```"

/-- An api-reference page whose module table lists the same module twice. -/
def dupRowsHtml : String :=
  "x<h2 id=\x22modules\x22>Modules</h2><div class=\x22summary-row\x22>" ++
  "<a href=\x22M.html\x22>M</a></div><div class=\x22summary-row\x22>" ++
  "<a href=\x22M.html\x22>M</a></div>"

def dupRowsFetcher : Fetcher := fun url =>
  if url = "https://hexdocs.pm/p/1.0.0/api-reference.html" then ⟨200, dupRowsHtml, none⟩
  else ⟨404, "Not Found", none⟩

/-- An api-reference page with a one-row module table and a sidebar script
reference. -/
def mergeApiHtml : String :=
  "x<script src=\x22dist/sidebar_items-A.js\x22></script>" ++
  "<h2 id=\x22modules\x22>Modules</h2><div class=\x22summary-row\x22>" ++
  "<a href=\x22M.html\x22>M</a></div>"

/-- A sidebar payload mentioning the same module `M`, with flags. -/
def mergeSidebar : String :=
  "sidebarNodes=\x7b\"modules\":[\x7b\"id\":\"M\",\"deprecated\":true,\"group\":\"g\"\x7d]\x7d;"

def mergeFetcher : Fetcher := fun url =>
  if url = "https://hexdocs.pm/p/1.0.0/api-reference.html" then ⟨200, mergeApiHtml, none⟩
  else if url = "https://hexdocs.pm/p/1.0.0/dist/sidebar_items-A.js" then
    ⟨200, mergeSidebar, none⟩
  else ⟨404, "Not Found", none⟩

def wrapperUrl : UrlRec := ⟨"https", "w", "/p/1.0.0/M.html", "", "", false⟩

/-- The index the builder produces on the one-row-table-plus-sidebar merge
fixture. -/
def mergeIndex : PackageIndex :=
  match buildPackageIndex wrapperUrl mergeFetcher "NOW" with
  | Except.ok i => i
  | Except.error _ => default

/-- A markdown body with 31 distinct links. -/
def manyLinksMarkdown : String :=
  joinParts "\n" ((List.range 31).map (fun i => "[l](/p" ++ toString i ++ ".html)"))

/-- A fetcher for which the `.md` upstream is missing but its `.html`
counterpart exists. -/
def mdFallbackFetcher : Fetcher := fun url =>
  if url = "https://hexdocs.pm/p/1.0.0/M.html" then ⟨200, "<h1>M</h1>", none⟩
  else ⟨404, "Not Found", none⟩

def mdRequestUrl : UrlRec := ⟨"https", "w.example", "/p/1.0.0/M.md", "", "", false⟩

def readmeGuide : GuideEntry :=
  { id := "readme", title := "README", url := "https://w/p/readme.html" }

/-- The index built from the duplicate-row table. -/
def dupIndex : PackageIndex :=
  match buildPackageIndex wrapperUrl dupRowsFetcher "NOW" with
  | Except.ok i => i
  | Except.error _ => default

/-! # Claim theorems -/

/-- A string whose first summand has non-empty data is non-empty. -/
theorem append_ne_empty_left (s t : String) (h : s.data ≠ []) : s ++ t ≠ "" := by
  intro he
  apply h
  have hd : (s ++ t).data = [] := by rw [he]
  rw [String.data_append] at hd
  exact (List.append_eq_nil.mp hd).1

/-! ### Scanner lemmas for the generic option-map extraction -/

theorem lStarts_append_self (p r : List Char) : lStarts p (p ++ r) = true := by
  induction p with
  | nil => rfl
  | cons c cs ih => simp [lStarts, ih]

theorem lDrop_append_self (p r : List Char) : lDrop p (p ++ r) = r := by
  simp [lDrop]

theorem takeWhile_all (p : Char → Bool) (l : List Char) (h : ∀ c ∈ l, p c = true) :
    l.takeWhile p = l := by
  induction l with
  | nil => rfl
  | cons c cs ih =>
      simp [List.takeWhile_cons, h c (List.mem_cons_self c cs),
        ih fun d hd => h d (List.mem_cons_of_mem c hd)]

theorem takeWhile_append_all (p : Char → Bool) (t r : List Char)
    (h : ∀ c ∈ t, p c = true) :
    (t ++ r).takeWhile p = t ++ r.takeWhile p := by
  induction t with
  | nil => rfl
  | cons c cs ih =>
      simp [List.takeWhile_cons, h c (List.mem_cons_self c cs),
        ih fun d hd => h d (List.mem_cons_of_mem c hd)]

theorem dropWhile_append_all (p : Char → Bool) (t r : List Char)
    (h : ∀ c ∈ t, p c = true) :
    (t ++ r).dropWhile p = r.dropWhile p := by
  induction t with
  | nil => rfl
  | cons c cs ih =>
      simp [List.dropWhile_cons, h c (List.mem_cons_self c cs),
        ih fun d hd => h d (List.mem_cons_of_mem c hd)]

theorem dropWhile_keep_append (p : Char → Bool) (A X : List Char)
    (hA : A.dropWhile p = A) (hne : A ≠ []) :
    (A ++ X).dropWhile p = A ++ X := by
  cases A with
  | nil => exact absurd rfl hne
  | cons a A' =>
      have hpa : p a = false := by
        by_contra hp
        rw [Bool.not_eq_false] at hp
        rw [List.dropWhile_cons, hp] at hA
        have hlen := congrArg List.length hA
        have hle := (List.dropWhile_sublist p (l := A')).length_le
        simp at hlen
        omega
      simp [List.cons_append, List.dropWhile_cons, hpa]

theorem word_ne (c d : Char) (h : isWordChar c = true) (hd : isWordChar d = false) :
    c ≠ d := fun e => by rw [e, hd] at h; cases h

theorem word_not_ws (c : Char) (h : isWordChar c = true) : isJsWs c = false := by
  by_contra hws
  rw [Bool.not_eq_false] at hws
  unfold isJsWs at hws
  simp only [Bool.or_eq_true, decide_eq_true_eq] at hws
  rcases hws with ((((h1 | h1) | h1) | h1) | h1) | h1 <;> subst h1 <;>
    exact absurd h (by decide)

theorem lSplitFirst_boundary (p : Char) (ps B R : List Char)
    (hB : ∀ c ∈ B, c ≠ p) :
    lSplitFirst (p :: ps) (B ++ (p :: ps) ++ R) = some (B, R) := by
  induction B with
  | nil =>
      show lSplitFirst (p :: ps) (p :: (ps ++ R)) = some ([], R)
      have h1 : lStarts (p :: ps) (p :: (ps ++ R)) = true := lStarts_append_self (p :: ps) R
      have h2 : lDrop (p :: ps) (p :: (ps ++ R)) = R := lDrop_append_self (p :: ps) R
      simp [lSplitFirst, h1, h2]
  | cons c B' ih =>
      have hc : c ≠ p := hB c (List.mem_cons_self c B')
      have hpc : ¬ p = c := fun e => hc e.symm
      have ih' := ih fun d hd => hB d (List.mem_cons_of_mem c hd)
      show lSplitFirst (p :: ps) (c :: (B' ++ (p :: ps) ++ R)) = some (c :: B', R)
      have hst : lStarts (p :: ps) (c :: (B' ++ (p :: ps) ++ R)) = false := by
        simp [lStarts, hpc]
      simp only [lSplitFirst, hst, Bool.false_eq_true, if_false, ih']

theorem splitOnChar_boundary (sep : Char) (A B : List Char)
    (hA : ∀ c ∈ A, c ≠ sep) :
    splitOnChar sep (A ++ sep :: B) = A :: splitOnChar sep B := by
  induction A with
  | nil => simp [splitOnChar]
  | cons c A' ih =>
      have hc : c ≠ sep := hA c (List.mem_cons_self c A')
      have ih' := ih fun d hd => hA d (List.mem_cons_of_mem c hd)
      simp [List.cons_append, splitOnChar, hc, ih']

theorem splitString_join_lines (lines : List String)
    (h : ∀ l ∈ lines, ∀ c ∈ l.data, c ≠ '\n') (hne : lines ≠ []) :
    splitString '\n' (joinParts "\n" lines ++ "\n") = lines ++ [""] := by
  induction lines with
  | nil => exact absurd rfl hne
  | cons l rest ih =>
      cases rest with
      | nil =>
          show splitString '\n' (l ++ "\n") = [l, ""]
          unfold splitString
          have hd : (l ++ "\n").data = l.data ++ '\n' :: [] := by
            rw [String.data_append]
          rw [hd, splitOnChar_boundary '\n' l.data [] (h l (List.mem_cons_self l []))]
          rfl
      | cons l2 rest' =>
          have ih' := ih (fun x hx => h x (List.mem_cons_of_mem l hx)) (by simp)
          unfold splitString at ih' ⊢
          have hd : ((l ++ "\n" ++ joinParts "\n" (l2 :: rest')) ++ "\n").data
              = l.data ++ '\n' :: (joinParts "\n" (l2 :: rest') ++ "\n").data := by
            simp [String.data_append]
          show (splitOnChar '\n'
              ((l ++ "\n" ++ joinParts "\n" (l2 :: rest')) ++ "\n").data).map
              (fun x => (⟨x⟩ : String)) = (l :: l2 :: rest') ++ [""]
          rw [hd, splitOnChar_boundary '\n' l.data _ (h l (List.mem_cons_self l _))]
          rw [List.map_cons, ih']
          rfl

theorem jsTrim_eq_self_of_clean (t : String)
    (h1 : t.data.dropWhile isJsWs = t.data)
    (h2 : t.data.reverse.dropWhile isJsWs = t.data.reverse) :
    jsTrim t = t := by
  show (⟨jsTrimList t.data⟩ : String) = t
  unfold jsTrimList
  rw [h1, h2, List.reverse_reverse]

theorem stripTrailingComma_append (A : List Char) :
    stripTrailingComma (A ++ [',']) = A := by
  unfold stripTrailingComma
  have h : (A ++ [',']).reverse.dropWhile isJsWs = ',' :: A.reverse := by
    rw [List.reverse_append]
    have h0 : isJsWs ',' = false := by decide
    simp [List.dropWhile_cons, h0]
  rw [h]
  exact List.reverse_reverse A

theorem parseRequiredArrow_head (c : Char) (r : List Char) (h : c ≠ ':') :
    parseRequiredArrow (c :: r) = none := by
  unfold parseRequiredArrow
  split
  · rename_i t1 heq
    injection heq with h1 h2
    exact absurd h1 h
  · rfl

theorem findFirstMatch_head (m : List Char → Option α) (fuel : Nat)
    (s : List Char) (a : α) (h : m s = some a) :
    findFirstMatch m (fuel + 1) s = some a := by
  simp [findFirstMatch, h]

theorem collectScan_nil (m : List Char → Option (α × List Char)) (fuel : Nat) :
    collectScan m fuel [] = [] := by
  cases fuel <;> rfl

theorem parseTypeOptionsGo_nil (fuel : Nat) (acc : List (String × List OptionEntry)) :
    parseTypeOptionsGo fuel [] acc = acc := by
  cases fuel <;> rfl

theorem filterMap_congr_some (l : List α) (p : α → Option β) (q : α → β)
    (h : ∀ x ∈ l, p x = some (q x)) : l.filterMap p = l.map q := by
  induction l with
  | nil => rfl
  | cons a l' ih =>
      simp [List.filterMap_cons, h a (List.mem_cons_self a l'),
        ih fun x hx => h x (List.mem_cons_of_mem a hx)]

/-- A pattern of word characters closed by `(` can never match at a
position where a word run is followed by `:`. -/
theorem lStarts_break (w : List Char) (hw : ∀ c ∈ w, isWordChar c = true) :
    ∀ pat : List Char, pat ≠ [] → (∀ c ∈ pat, c ≠ ':') → pat.getLast? = some '(' →
      ∀ r, lStarts pat (w ++ ':' :: r) = false := by
  induction w with
  | nil =>
      intro pat hne hnc _ r
      cases pat with
      | nil => exact absurd rfl hne
      | cons p ps =>
          have hp : ¬ p = ':' := hnc p (List.mem_cons_self p ps)
          simp [lStarts, hp]
  | cons c w' ih =>
      intro pat hne hnc hlast r
      cases pat with
      | nil => exact absurd rfl hne
      | cons p ps =>
          by_cases hpc : p = c
          · subst hpc
            have hcw : isWordChar p = true := hw p (List.mem_cons_self p w')
            cases ps with
            | nil =>
                have hpl : p = '(' := by simpa using hlast
                rw [hpl] at hcw
                exact absurd hcw (by decide)
            | cons q qs =>
                have hlast' : (q :: qs).getLast? = some '(' := by
                  rw [List.getLast?_cons_cons] at hlast
                  exact hlast
                have hrec := ih (fun d hd => hw d (List.mem_cons_of_mem p hd))
                  (q :: qs) (by simp) (fun d hd => hnc d (List.mem_cons_of_mem p hd))
                  hlast' r
                simp [lStarts, hrec]
          · simp [lStarts, hpc]

theorem parseOptionalField_colonHead (r : List Char) :
    parseOptionalField (':' :: r) = none := by
  have h1 : lStarts "optional(".data (':' :: r) = false := by
    have e1 : ("optional(" : String).data = 'o' :: "ptional(".data := rfl
    rw [e1]
    simp [lStarts]
  simp [parseOptionalField, h1]

theorem parseOptionalField_wordHead (k : String) (hk : cleanKey k) (r : List Char) :
    parseOptionalField (k.data ++ ':' :: r) = none := by
  have h1 : lStarts "optional(".data (k.data ++ ':' :: r) = false :=
    lStarts_break k.data hk.2 "optional(".data (by decide) (by decide) (by decide) r
  simp [parseOptionalField, h1]

theorem parseRequiredArrow_wordHead (k : String) (hk : cleanKey k) (X : List Char) :
    parseRequiredArrow (k.data ++ X) = none := by
  obtain ⟨hk0, hkw⟩ := hk
  cases hkd : k.data with
  | nil => exact absurd hkd hk0
  | cons c k' =>
      have hcw : isWordChar c = true := hkw c (hkd ▸ List.mem_cons_self c k')
      rw [List.cons_append]
      exact parseRequiredArrow_head c (k' ++ X) (word_ne c ':' hcw (by decide))

theorem parseOptionalField_core (k ty : String) (hk : cleanKey k) (hty : cleanType ty) :
    parseOptionalField
        ("optional(".data ++ (':' :: (k.data ++ (')' :: ' ' :: '=' :: '>' :: ' ' :: ty.data)))) =
      some (":" ++ k, ty) := by
  obtain ⟨hk0, hkw⟩ := hk
  obtain ⟨hty0, htyd, htyr, _⟩ := hty
  have hketa : ((⟨k.data⟩ : String)) = k := rfl
  have htyws := jsTrim_eq_self_of_clean ty htyd htyr
  have hlst : lStarts "optional(".data
      ("optional(".data ++ (':' :: (k.data ++ (')' :: ' ' :: '=' :: '>' :: ' ' :: ty.data)))) = true :=
    lStarts_append_self _ _
  have hldr : lDrop "optional(".data
      ("optional(".data ++ (':' :: (k.data ++ (')' :: ' ' :: '=' :: '>' :: ' ' :: ty.data)))) =
      ':' :: (k.data ++ (')' :: ' ' :: '=' :: '>' :: ' ' :: ty.data)) := rfl
  have hkey : (k.data ++ (')' :: ' ' :: '=' :: '>' :: ' ' :: ty.data)).takeWhile isWordChar
      = k.data := by
    rw [takeWhile_append_all isWordChar k.data _ hkw]
    simp [List.takeWhile_cons, (by decide : isWordChar (')') = false)]
  have hdropk : (k.data ++ (')' :: ' ' :: '=' :: '>' :: ' ' :: ty.data)).drop k.data.length
      = ')' :: ' ' :: '=' :: '>' :: ' ' :: ty.data := List.drop_left _ _
  unfold parseOptionalField
  rw [if_pos hlst, hldr]
  rw [show (':' :: (k.data ++ (')' :: ' ' :: '=' :: '>' :: ' ' :: ty.data))).dropWhile isJsWs
      = ':' :: (k.data ++ (')' :: ' ' :: '=' :: '>' :: ' ' :: ty.data)) from by
    rw [List.dropWhile_cons]
    rw [if_neg (by decide : ¬ (isJsWs ':' = true))]]
  simp only [hkey, hdropk]
  rw [if_neg hk0]
  simp only [List.dropWhile_cons, (by decide : isJsWs (')') = false),
    (by decide : isJsWs ' ' = true), (by decide : isJsWs '=' = false),
    Bool.false_eq_true, if_false, eq_self_iff_true, if_true, htyd]
  rw [if_neg hty0, hketa, show ((⟨ty.data⟩ : String)) = ty from rfl, htyws]

theorem parseRequiredArrow_core (k ty : String) (hk : cleanKey k) (hty : cleanType ty) :
    parseRequiredArrow (':' :: (k.data ++ (' ' :: '=' :: '>' :: ' ' :: ty.data))) =
      some (":" ++ k, ty) := by
  obtain ⟨hk0, hkw⟩ := hk
  obtain ⟨hty0, htyd, htyr, _⟩ := hty
  have hketa : ((⟨k.data⟩ : String)) = k := rfl
  have htyws := jsTrim_eq_self_of_clean ty htyd htyr
  have hkey : (k.data ++ (' ' :: '=' :: '>' :: ' ' :: ty.data)).takeWhile isWordChar
      = k.data := by
    rw [takeWhile_append_all isWordChar k.data _ hkw]
    simp [List.takeWhile_cons, (by decide : isWordChar ' ' = false)]
  have hdropk : (k.data ++ (' ' :: '=' :: '>' :: ' ' :: ty.data)).drop k.data.length
      = ' ' :: '=' :: '>' :: ' ' :: ty.data := List.drop_left _ _
  unfold parseRequiredArrow
  simp only [hkey, hdropk]
  rw [if_neg hk0]
  simp only [List.dropWhile_cons, (by decide : isJsWs ' ' = true),
    (by decide : isJsWs '=' = false), Bool.false_eq_true, if_false,
    eq_self_iff_true, if_true, htyd]
  rw [if_neg hty0, hketa, show ((⟨ty.data⟩ : String)) = ty from rfl, htyws]

theorem parseRequiredColon_core (k ty : String) (hk : cleanKey k) (hty : cleanType ty) :
    parseRequiredColon (k.data ++ (':' :: ' ' :: ty.data)) = some (":" ++ k, ty) := by
  obtain ⟨hk0, hkw⟩ := hk
  obtain ⟨hty0, htyd, htyr, _⟩ := hty
  have hketa : ((⟨k.data⟩ : String)) = k := rfl
  have htyws := jsTrim_eq_self_of_clean ty htyd htyr
  have hkey : (k.data ++ (':' :: ' ' :: ty.data)).takeWhile isWordChar = k.data := by
    rw [takeWhile_append_all isWordChar k.data _ hkw]
    simp [List.takeWhile_cons, (by decide : isWordChar (':') = false)]
  have hdropk : (k.data ++ (':' :: ' ' :: ty.data)).drop k.data.length
      = ':' :: ' ' :: ty.data := List.drop_left _ _
  unfold parseRequiredColon
  simp only [hkey, hdropk]
  rw [if_neg hk0]
  simp only [List.dropWhile_cons, (by decide : isJsWs (':') = false),
    (by decide : isJsWs ' ' = true), Bool.false_eq_true, if_false,
    eq_self_iff_true, if_true, htyd]
  rw [if_neg hty0, hketa, show ((⟨ty.data⟩ : String)) = ty from rfl, htyws]

theorem jsTrimList_core (B : List Char) (hBd : B.dropWhile isJsWs = B)
    (hBne : B ≠ []) :
    jsTrimList (' ' :: ' ' :: (B ++ [','])) = B ++ [','] := by
  unfold jsTrimList
  rw [List.dropWhile_cons, if_pos (by decide : isJsWs ' ' = true),
      List.dropWhile_cons, if_pos (by decide : isJsWs ' ' = true)]
  rw [dropWhile_keep_append isJsWs B [','] hBd hBne]
  rw [List.reverse_append]
  rw [show (([','] : List Char).reverse ++ B.reverse) = ',' :: B.reverse from rfl]
  rw [List.dropWhile_cons, if_neg (by decide : ¬ (isJsWs ',' = true))]
  simp

theorem jsTrimList_id (B : List Char) (hBd : B.dropWhile isJsWs = B)
    (hBr : B.reverse.dropWhile isJsWs = B.reverse) :
    jsTrimList B = B := by
  unfold jsTrimList
  rw [hBd, hBr, List.reverse_reverse]

theorem mapline_optional (k ty : String) (hk : cleanKey k) (hty : cleanType ty) :
    parseOptionLine (jsTrim ⟨takeBeforeChar '#'
        ("  optional(:" ++ k ++ ") => " ++ ty ++ ",").data⟩) =
      some ⟨":" ++ k, false, ty⟩ := by
  obtain ⟨hk0, hkw⟩ := hk
  obtain ⟨hty0, htyd, htyr, htyc⟩ := hty
  have e4 : ("optional(" : String).data = ['o', 'p', 't', 'i', 'o', 'n', 'a', 'l', '('] := rfl
  have hdata : ("  optional(:" ++ k ++ ") => " ++ ty ++ ",").data
      = ' ' :: ' ' :: (("optional(".data ++
          (':' :: (k.data ++ (')' :: ' ' :: '=' :: '>' :: ' ' :: ty.data)))) ++ [',']) := by
    have e1 : ("  optional(:" : String).data
        = [' ', ' ', 'o', 'p', 't', 'i', 'o', 'n', 'a', 'l', '(', ':'] := rfl
    have e2 : (") => " : String).data = [')', ' ', '=', '>', ' '] := rfl
    have e3 : ("," : String).data = [','] := rfl
    simp [String.data_append, e1, e2, e3, e4, List.append_assoc]
  have hhash : takeBeforeChar '#' (' ' :: ' ' :: (("optional(".data ++
        (':' :: (k.data ++ (')' :: ' ' :: '=' :: '>' :: ' ' :: ty.data)))) ++ [','])) =
      ' ' :: ' ' :: (("optional(".data ++
        (':' :: (k.data ++ (')' :: ' ' :: '=' :: '>' :: ' ' :: ty.data)))) ++ [',']) := by
    apply takeWhile_all
    intro c hc
    rw [decide_eq_true_eq]
    have hkh : ∀ x ∈ k.data, x ≠ '#' := fun x hx => word_ne x '#' (hkw x hx) (by decide)
    have hth : ∀ x ∈ ty.data, x ≠ '#' := fun x hx => (htyc x hx).2.1
    simp only [List.mem_cons, List.mem_append] at hc
    casesm* _ ∨ _
    all_goals first
      | exact hkh c (by assumption)
      | exact hth c (by assumption)
      | exact absurd (by assumption : c ∈ ([] : List Char)) (List.not_mem_nil c)
      | (rename_i hcx; subst hcx; decide)
  have htrim : jsTrimList (' ' :: ' ' :: (("optional(".data ++
        (':' :: (k.data ++ (')' :: ' ' :: '=' :: '>' :: ' ' :: ty.data)))) ++ [','])) =
      ("optional(".data ++
        (':' :: (k.data ++ (')' :: ' ' :: '=' :: '>' :: ' ' :: ty.data)))) ++ [','] := by
    unfold jsTrimList
    rw [List.dropWhile_cons, if_pos (by decide : isJsWs ' ' = true),
        List.dropWhile_cons, if_pos (by decide : isJsWs ' ' = true)]
    rw [List.append_assoc,
        dropWhile_keep_append isJsWs "optional(".data _ (by rw [e4]; decide)
          (by rw [e4]; decide),
        ← List.append_assoc]
    rw [List.reverse_append]
    rw [show (([','] : List Char).reverse ++ (("optional(".data ++
          (':' :: (k.data ++ (')' :: ' ' :: '=' :: '>' :: ' ' :: ty.data)))).reverse))
        = ',' :: ("optional(".data ++
          (':' :: (k.data ++ (')' :: ' ' :: '=' :: '>' :: ' ' :: ty.data)))).reverse from rfl]
    rw [List.dropWhile_cons, if_neg (by decide : ¬ (isJsWs ',' = true))]
    simp
  have hjB : jsTrimList ("optional(".data ++
        (':' :: (k.data ++ (')' :: ' ' :: '=' :: '>' :: ' ' :: ty.data)))) =
      "optional(".data ++ (':' :: (k.data ++ (')' :: ' ' :: '=' :: '>' :: ' ' :: ty.data))) := by
    unfold jsTrimList
    rw [dropWhile_keep_append isJsWs "optional(".data _ (by rw [e4]; decide)
        (by rw [e4]; decide)]
    have hrev : ("optional(".data ++
          (':' :: (k.data ++ (')' :: ' ' :: '=' :: '>' :: ' ' :: ty.data)))).reverse
        = ty.data.reverse ++ (' ' :: '>' :: '=' :: ' ' :: ')' ::
            (k.data.reverse ++ (':' :: ['(', 'l', 'a', 'n', 'o', 'i', 't', 'p', 'o']))) := by
      simp [e4, List.reverse_append, List.append_assoc]
    rw [hrev, dropWhile_keep_append isJsWs ty.data.reverse _ htyr
        (by simpa using hty0), ← hrev, List.reverse_reverse]
  have hBne : ("optional(".data ++
        (':' :: (k.data ++ (')' :: ' ' :: '=' :: '>' :: ' ' :: ty.data)))) ++ [','] ≠ [] := by
    simp
  rw [hdata, hhash]
  have hstr : (jsTrim ⟨' ' :: ' ' :: (("optional(".data ++
        (':' :: (k.data ++ (')' :: ' ' :: '=' :: '>' :: ' ' :: ty.data)))) ++ [','])⟩ : String)
      = ⟨("optional(".data ++
        (':' :: (k.data ++ (')' :: ' ' :: '=' :: '>' :: ' ' :: ty.data)))) ++ [',']⟩ := by
    show (⟨jsTrimList (' ' :: ' ' :: (("optional(".data ++
        (':' :: (k.data ++ (')' :: ' ' :: '=' :: '>' :: ' ' :: ty.data)))) ++ [',']))⟩ : String) = _
    rw [htrim]
  rw [hstr]
  unfold parseOptionLine
  rw [show ((⟨("optional(".data ++
        (':' :: (k.data ++ (')' :: ' ' :: '=' :: '>' :: ' ' :: ty.data)))) ++ [',']⟩ :
        String)).data = ("optional(".data ++
        (':' :: (k.data ++ (')' :: ' ' :: '=' :: '>' :: ' ' :: ty.data)))) ++ [','] from rfl]
  rw [stripTrailingComma_append, hjB]
  rw [if_neg (by simp : ¬ ("optional(".data ++
      (':' :: (k.data ++ (')' :: ' ' :: '=' :: '>' :: ' ' :: ty.data))) = ([] : List Char)))]
  rw [parseOptionalField_core k ty ⟨hk0, hkw⟩ ⟨hty0, htyd, htyr, htyc⟩]

theorem mapline_arrow (k ty : String) (hk : cleanKey k) (hty : cleanType ty) :
    parseOptionLine (jsTrim ⟨takeBeforeChar '#'
        ("  :" ++ k ++ " => " ++ ty ++ ",").data⟩) =
      some ⟨":" ++ k, true, ty⟩ := by
  obtain ⟨hk0, hkw⟩ := hk
  obtain ⟨hty0, htyd, htyr, htyc⟩ := hty
  have hdata : ("  :" ++ k ++ " => " ++ ty ++ ",").data
      = ' ' :: ' ' :: ((':' :: (k.data ++ (' ' :: '=' :: '>' :: ' ' :: ty.data))) ++ [',']) := by
    have e1 : ("  :" : String).data = [' ', ' ', ':'] := rfl
    have e2 : (" => " : String).data = [' ', '=', '>', ' '] := rfl
    have e3 : ("," : String).data = [','] := rfl
    simp [String.data_append, e1, e2, e3, List.append_assoc]
  have hhash : takeBeforeChar '#'
      (' ' :: ' ' :: ((':' :: (k.data ++ (' ' :: '=' :: '>' :: ' ' :: ty.data))) ++ [','])) =
      ' ' :: ' ' :: ((':' :: (k.data ++ (' ' :: '=' :: '>' :: ' ' :: ty.data))) ++ [',']) := by
    apply takeWhile_all
    intro c hc
    rw [decide_eq_true_eq]
    have hkh : ∀ x ∈ k.data, x ≠ '#' := fun x hx => word_ne x '#' (hkw x hx) (by decide)
    have hth : ∀ x ∈ ty.data, x ≠ '#' := fun x hx => (htyc x hx).2.1
    simp only [List.mem_cons, List.mem_append] at hc
    casesm* _ ∨ _
    all_goals first
      | exact hkh c (by assumption)
      | exact hth c (by assumption)
      | exact absurd (by assumption : c ∈ ([] : List Char)) (List.not_mem_nil c)
      | (rename_i hcx; subst hcx; decide)
  have hBd : (':' :: (k.data ++ (' ' :: '=' :: '>' :: ' ' :: ty.data))).dropWhile isJsWs
      = ':' :: (k.data ++ (' ' :: '=' :: '>' :: ' ' :: ty.data)) := by
    rw [List.dropWhile_cons, if_neg (by decide : ¬ (isJsWs (':') = true))]
  have hBr : (':' :: (k.data ++ (' ' :: '=' :: '>' :: ' ' :: ty.data))).reverse.dropWhile isJsWs
      = (':' :: (k.data ++ (' ' :: '=' :: '>' :: ' ' :: ty.data))).reverse := by
    have hrev : (':' :: (k.data ++ (' ' :: '=' :: '>' :: ' ' :: ty.data))).reverse
        = ty.data.reverse ++ (' ' :: '>' :: '=' :: ' ' :: (k.data.reverse ++ [':'])) := by
      simp [List.reverse_cons, List.reverse_append, List.append_assoc]
    rw [hrev, dropWhile_keep_append isJsWs ty.data.reverse _ htyr (by simpa using hty0), ← hrev]
  have hBne : (':' :: (k.data ++ (' ' :: '=' :: '>' :: ' ' :: ty.data))) ≠ ([] : List Char) := by
    simp
  rw [hdata, hhash]
  have hstr : (jsTrim ⟨' ' :: ' ' ::
        ((':' :: (k.data ++ (' ' :: '=' :: '>' :: ' ' :: ty.data))) ++ [','])⟩ : String)
      = ⟨(':' :: (k.data ++ (' ' :: '=' :: '>' :: ' ' :: ty.data))) ++ [',']⟩ := by
    show (⟨jsTrimList (' ' :: ' ' ::
        ((':' :: (k.data ++ (' ' :: '=' :: '>' :: ' ' :: ty.data))) ++ [',']))⟩ : String) = _
    rw [jsTrimList_core _ hBd hBne]
  rw [hstr]
  unfold parseOptionLine
  rw [show ((⟨(':' :: (k.data ++ (' ' :: '=' :: '>' :: ' ' :: ty.data))) ++ [',']⟩ :
        String)).data = (':' :: (k.data ++ (' ' :: '=' :: '>' :: ' ' :: ty.data))) ++ [','] from rfl]
  rw [stripTrailingComma_append, jsTrimList_id _ hBd hBr]
  rw [if_neg hBne]
  rw [parseOptionalField_colonHead]
  rw [parseRequiredArrow_core k ty ⟨hk0, hkw⟩ ⟨hty0, htyd, htyr, htyc⟩]

theorem mapline_colon (k ty : String) (hk : cleanKey k) (hty : cleanType ty) :
    parseOptionLine (jsTrim ⟨takeBeforeChar '#'
        ("  " ++ k ++ ": " ++ ty ++ ",").data⟩) =
      some ⟨":" ++ k, true, ty⟩ := by
  obtain ⟨hk0, hkw⟩ := hk
  obtain ⟨hty0, htyd, htyr, htyc⟩ := hty
  have hdata : ("  " ++ k ++ ": " ++ ty ++ ",").data
      = ' ' :: ' ' :: ((k.data ++ (':' :: ' ' :: ty.data)) ++ [',']) := by
    have e1 : ("  " : String).data = [' ', ' '] := rfl
    have e2 : (": " : String).data = [':', ' '] := rfl
    have e3 : ("," : String).data = [','] := rfl
    simp [String.data_append, e1, e2, e3, List.append_assoc]
  have hhash : takeBeforeChar '#'
      (' ' :: ' ' :: ((k.data ++ (':' :: ' ' :: ty.data)) ++ [','])) =
      ' ' :: ' ' :: ((k.data ++ (':' :: ' ' :: ty.data)) ++ [',']) := by
    apply takeWhile_all
    intro c hc
    rw [decide_eq_true_eq]
    have hkh : ∀ x ∈ k.data, x ≠ '#' := fun x hx => word_ne x '#' (hkw x hx) (by decide)
    have hth : ∀ x ∈ ty.data, x ≠ '#' := fun x hx => (htyc x hx).2.1
    simp only [List.mem_cons, List.mem_append] at hc
    casesm* _ ∨ _
    all_goals first
      | exact hkh c (by assumption)
      | exact hth c (by assumption)
      | exact absurd (by assumption : c ∈ ([] : List Char)) (List.not_mem_nil c)
      | (rename_i hcx; subst hcx; decide)
  have hBd : (k.data ++ (':' :: ' ' :: ty.data)).dropWhile isJsWs
      = k.data ++ (':' :: ' ' :: ty.data) := by
    cases hkd : k.data with
    | nil => exact absurd hkd hk0
    | cons c k' =>
        have hcw : isWordChar c = true := hkw c (hkd ▸ List.mem_cons_self c k')
        rw [List.cons_append, List.dropWhile_cons,
          if_neg (by simp [word_not_ws c hcw])]
  have hBr : (k.data ++ (':' :: ' ' :: ty.data)).reverse.dropWhile isJsWs
      = (k.data ++ (':' :: ' ' :: ty.data)).reverse := by
    have hrev : (k.data ++ (':' :: ' ' :: ty.data)).reverse
        = ty.data.reverse ++ (' ' :: ':' :: k.data.reverse) := by
      simp [List.reverse_cons, List.reverse_append, List.append_assoc]
    rw [hrev, dropWhile_keep_append isJsWs ty.data.reverse _ htyr (by simpa using hty0), ← hrev]
  have hBne : (k.data ++ (':' :: ' ' :: ty.data)) ≠ ([] : List Char) := by
    simp
  rw [hdata, hhash]
  have hstr : (jsTrim ⟨' ' :: ' ' ::
        ((k.data ++ (':' :: ' ' :: ty.data)) ++ [','])⟩ : String)
      = ⟨(k.data ++ (':' :: ' ' :: ty.data)) ++ [',']⟩ := by
    show (⟨jsTrimList (' ' :: ' ' ::
        ((k.data ++ (':' :: ' ' :: ty.data)) ++ [',']))⟩ : String) = _
    rw [jsTrimList_core _ hBd hBne]
  rw [hstr]
  unfold parseOptionLine
  rw [show ((⟨(k.data ++ (':' :: ' ' :: ty.data)) ++ [',']⟩ :
        String)).data = (k.data ++ (':' :: ' ' :: ty.data)) ++ [','] from rfl]
  rw [stripTrailingComma_append, jsTrimList_id _ hBd hBr]
  rw [if_neg hBne]
  rw [show (k.data ++ (':' :: ' ' :: ty.data)) = k.data ++ ':' :: (' ' :: ty.data) from rfl]
  rw [parseOptionalField_wordHead k ⟨hk0, hkw⟩ (' ' :: ty.data)]
  rw [parseRequiredArrow_wordHead k ⟨hk0, hkw⟩ (':' :: ' ' :: ty.data)]
  rw [parseRequiredColon_core k ty ⟨hk0, hkw⟩ ⟨hty0, htyd, htyr, htyc⟩]

theorem joinParts_chars (sep : String) (ls : List String) (c : Char)
    (hc : c ∈ (joinParts sep ls).data) : c ∈ sep.data ∨ ∃ l ∈ ls, c ∈ l.data := by
  induction ls with
  | nil => simp [joinParts] at hc
  | cons x ys ih =>
      cases ys with
      | nil =>
          right
          exact ⟨x, List.mem_cons_self x [], hc⟩
      | cons y ys' =>
          have hc' : c ∈ ((x ++ sep) ++ joinParts sep (y :: ys')).data := hc
          rw [String.data_append, String.data_append] at hc'
          rcases List.mem_append.mp hc' with hc2 | hc2
          · rcases List.mem_append.mp hc2 with hc3 | hc3
            · right; exact ⟨x, List.mem_cons_self x _, hc3⟩
            · left; exact hc3
          · rcases ih hc2 with h1 | ⟨l, hl, hcl⟩
            · left; exact h1
            · right; exact ⟨l, List.mem_cons_of_mem x hl, hcl⟩

theorem typeDeclAt_header (tn : String) (h : cleanKey tn) :
    typeDeclAt (typeHeaderLine tn).data = some (tn, "") := by
  obtain ⟨h0, hw⟩ := h
  have hdata : (typeHeaderLine tn).data
      = "@type".data ++ (' ' :: (tn.data ++
          ('(' :: ')' :: ' ' :: ':' :: ':' :: ' ' :: '%' :: [braceOpen]))) := by
    unfold typeHeaderLine
    have e1 : ("@type " : String).data = ['@', 't', 'y', 'p', 'e', ' '] := rfl
    have e2 : ("() :: %" : String).data = ['(', ')', ' ', ':', ':', ' ', '%'] := rfl
    have e3 : ((⟨[braceOpen]⟩ : String)).data = [braceOpen] := rfl
    have e4 : ("@type" : String).data = ['@', 't', 'y', 'p', 'e'] := rfl
    simp [String.data_append, e1, e2, e3, e4, List.append_assoc]
  have hwsX : (tn.data ++
      ('(' :: ')' :: ' ' :: ':' :: ':' :: ' ' :: '%' :: [braceOpen])).takeWhile isJsWs
      = [] := by
    cases htd : tn.data with
    | nil => exact absurd htd h0
    | cons c tn' =>
        have hcw : isWordChar c = true := hw c (htd ▸ List.mem_cons_self c tn')
        simp [List.cons_append, List.takeWhile_cons, word_not_ws c hcw]
  have hname : (tn.data ++
      ('(' :: ')' :: ' ' :: ':' :: ':' :: ' ' :: '%' :: [braceOpen])).takeWhile isWordChar
      = tn.data := by
    rw [takeWhile_append_all isWordChar tn.data _ hw]
    simp [List.takeWhile_cons, (by decide : isWordChar ('(') = false)]
  have hdropn : (tn.data ++
      ('(' :: ')' :: ' ' :: ':' :: ':' :: ' ' :: '%' :: [braceOpen])).drop tn.data.length
      = '(' :: ')' :: ' ' :: ':' :: ':' :: ' ' :: '%' :: [braceOpen] := List.drop_left _ _
  rw [hdata]
  unfold typeDeclAt
  rw [if_pos (lStarts_append_self "@type".data _)]
  rw [show lDrop "@type".data ("@type".data ++ (' ' :: (tn.data ++
      ('(' :: ')' :: ' ' :: ':' :: ':' :: ' ' :: '%' :: [braceOpen])))) =
      ' ' :: (tn.data ++ ('(' :: ')' :: ' ' :: ':' :: ':' :: ' ' :: '%' :: [braceOpen]))
    from lDrop_append_self _ _]
  simp only [List.takeWhile_cons, (by decide : isJsWs ' ' = true), if_true,
    eq_self_iff_true, hwsX, List.length_cons, List.length_nil,
    List.drop_succ_cons, List.drop_zero, hname, hdropn]
  rw [if_neg (by simp : ¬ ((' ' :: ([] : List Char)) = []))]
  rw [if_neg h0]
  simp only [List.dropWhile_cons, (by decide : isJsWs ' ' = true),
    (by decide : isJsWs (':') = false), (by decide : isJsWs '%' = false),
    Bool.false_eq_true, if_false, if_true, eq_self_iff_true]
  rfl

theorem typeDeclMatch_header (tn : String) (h : cleanKey tn) :
    typeDeclMatch (typeHeaderLine tn) = some (tn, "") := by
  unfold typeDeclMatch
  exact findFirstMatch_head typeDeclAt _ _ _ (typeDeclAt_header tn h)

theorem extractCodeBlocks_single (inner : String)
    (hin : ∀ c ∈ inner.data, c ≠ '`') :
    extractCodeBlocks ("```\n" ++ inner ++ "\n```") = [inner ++ "\n"] := by
  unfold extractCodeBlocks
  have hdata : ("```\n" ++ inner ++ "\n```").data
      = '`' :: '`' :: '`' :: '\n' :: ((inner.data ++ ['\n']) ++ ['`', '`', '`']) := by
    have e1 : ("```\n" : String).data = ['`', '`', '`', '\n'] := rfl
    have e2 : ("\n```" : String).data = ['\n', '`', '`', '`'] := rfl
    simp [String.data_append, e1, e2, List.append_assoc]
  have hsplit : lSplitFirst ['`', '`', '`'] (inner.data ++ ['\n', '`', '`', '`'])
      = some (inner.data ++ ['\n'], []) := by
    have hb := lSplitFirst_boundary '`' ['`', '`'] (inner.data ++ ['\n']) []
      (fun c hc => by
        rcases List.mem_append.mp hc with hc2 | hc2
        · exact hin c hc2
        · simp at hc2
          subst hc2
          decide)
    simpa [List.append_assoc] using hb
  have hmatch : codeBlockAt ('`' :: '`' :: '`' :: '\n' ::
      ((inner.data ++ ['\n']) ++ ['`', '`', '`'])) = some (⟨inner.data ++ ['\n']⟩, []) := by
    unfold codeBlockAt
    simp [hsplit]
  rw [hdata]
  simp only [collectScan, hmatch, collectScan_nil]
  rfl

theorem collectMapLines_fields (fls rest : List String)
    (h : ∀ l ∈ fls, ∀ c ∈ l.data, c ≠ braceClose) :
    collectMapLines (fls ++ ("\x7d" :: rest)) = (fls ++ [""], some rest) := by
  induction fls with
  | nil =>
      show collectMapLines ("\x7d" :: rest) = ([""], some rest)
      unfold collectMapLines
      rw [if_pos (by decide : ((("\x7d" : String).data.any (· = braceClose)) = true))]
      rfl
  | cons l fls' ih =>
      have hany : (l.data.any (· = braceClose)) = false := by
        rw [List.any_eq_false]
        intro x hx
        simp [h l (List.mem_cons_self l fls') x hx]
      have ih' := ih fun x hx => h x (List.mem_cons_of_mem l hx)
      show collectMapLines (l :: (fls' ++ ("\x7d" :: rest))) = ((l :: fls') ++ [""], some rest)
      unfold collectMapLines
      rw [if_neg (by simp [hany])]
      rw [ih']
      rfl

theorem parseMapOptions_fields (fields : List FieldSpec)
    (h : ∀ f ∈ fields, cleanField f) :
    parseMapOptions (fields.map renderFieldLine ++ [""]) = fields.map fieldEntry := by
  unfold parseMapOptions
  rw [List.map_append, List.filterMap_append]
  rw [show (([""] : List String).map
      (fun line => jsTrim ⟨takeBeforeChar '#' line.data⟩)).filterMap parseOptionLine
      = [] from rfl]
  rw [List.append_nil, List.map_map, List.filterMap_map]
  refine filterMap_congr_some fields _ fieldEntry ?_
  intro f hf
  have hcf := h f hf
  cases f with
  | mk k form ty =>
      obtain ⟨hk, hty⟩ := hcf
      simp only [Function.comp_apply]
      cases form with
      | optionalArrow =>
          simp only [renderFieldLine, fieldEntry]
          exact mapline_optional k ty hk hty
      | requiredArrow =>
          simp only [renderFieldLine, fieldEntry]
          exact mapline_arrow k ty hk hty
      | requiredColon =>
          simp only [renderFieldLine, fieldEntry]
          exact mapline_colon k ty hk hty

theorem parseTypeOptionsGo_run (fuel : Nat) (header : String) (fls : List String)
    (tn : String) (entries : List OptionEntry)
    (hh : typeDeclMatch header = some (tn, ""))
    (hcml : collectMapLines (fls ++ ["\x7d", ""]) = (fls ++ [""], some [""]))
    (ho : parseMapOptions (fls ++ [""]) = entries)
    (hne : entries ≠ []) :
    parseTypeOptionsGo (fuel + 2) (header :: (fls ++ ["\x7d", ""])) [] = [(tn, entries)] := by
  have h2 : typeDeclMatch "" = none := rfl
  have hlen : ¬ (entries.length = 0) := fun hl => hne (List.length_eq_zero.mp hl)
  have hj : ¬ ((jsTrim "" : String) ≠ "") := by decide
  have hb0 : ((("" : String).data.any (· = braceClose)) = true) = False := by decide
  show parseTypeOptionsGo ((fuel + 1) + 1) (header :: (fls ++ ["\x7d", ""])) [] = [(tn, entries)]
  simp only [parseTypeOptionsGo, hh, hb0, hj, hcml, List.nil_append, ho, h2,
    parseTypeOptionsGo_nil, upsertAssoc, List.any_nil, Bool.false_eq_true,
    if_false, if_true, ne_eq, hlen, not_false_eq_true, eq_self_iff_true]

theorem typeHeaderLine_chars (tn : String) (h : cleanKey tn) :
    ∀ c ∈ (typeHeaderLine tn).data, c ≠ '\n' ∧ c ≠ '`' := by
  intro c hc
  have hdata : (typeHeaderLine tn).data
      = "@type".data ++ (' ' :: (tn.data ++
          ('(' :: ')' :: ' ' :: ':' :: ':' :: ' ' :: '%' :: [braceOpen]))) := by
    unfold typeHeaderLine
    have e1 : ("@type " : String).data = ['@', 't', 'y', 'p', 'e', ' '] := rfl
    have e2 : ("() :: %" : String).data = ['(', ')', ' ', ':', ':', ' ', '%'] := rfl
    have e3 : ((⟨[braceOpen]⟩ : String)).data = [braceOpen] := rfl
    have e4 : ("@type" : String).data = ['@', 't', 'y', 'p', 'e'] := rfl
    simp [String.data_append, e1, e2, e3, e4, List.append_assoc]
  rw [hdata] at hc
  simp only [List.mem_cons, List.mem_append] at hc
  casesm* _ ∨ _
  all_goals first
    | exact ⟨word_ne c '\n' (h.2 c (by assumption)) (by decide),
        word_ne c '`' (h.2 c (by assumption)) (by decide)⟩
    | exact absurd (by assumption : c ∈ ([] : List Char)) (List.not_mem_nil c)
    | (rename_i hcx; subst hcx; decide)

theorem renderFieldLine_chars (f : FieldSpec) (hf : cleanField f) :
    ∀ c ∈ (renderFieldLine f).data, c ≠ '\n' ∧ c ≠ braceClose ∧ c ≠ '`' := by
  intro c hc
  cases f with
  | mk k form ty =>
      obtain ⟨hk, hty⟩ := hf
      cases form with
      | optionalArrow =>
          have hdata : (renderFieldLine ⟨k, FieldForm.optionalArrow, ty⟩).data
              = ' ' :: ' ' :: (("optional(".data ++
                  (':' :: (k.data ++ (')' :: ' ' :: '=' :: '>' :: ' ' :: ty.data)))) ++ [',']) := by
            simp only [renderFieldLine]
            have e1 : ("  optional(:" : String).data
                = [' ', ' ', 'o', 'p', 't', 'i', 'o', 'n', 'a', 'l', '(', ':'] := rfl
            have e2 : (") => " : String).data = [')', ' ', '=', '>', ' '] := rfl
            have e3 : ("," : String).data = [','] := rfl
            have e4 : ("optional(" : String).data
                = ['o', 'p', 't', 'i', 'o', 'n', 'a', 'l', '('] := rfl
            simp [String.data_append, e1, e2, e3, e4, List.append_assoc]
          rw [hdata] at hc
          simp only [List.mem_cons, List.mem_append] at hc
          casesm* _ ∨ _
          all_goals first
            | exact ⟨word_ne c '\n' (hk.2 c (by assumption)) (by decide),
                word_ne c braceClose (hk.2 c (by assumption)) (by decide),
                word_ne c '`' (hk.2 c (by assumption)) (by decide)⟩
            | exact ⟨(hty.2.2.2 c (by assumption)).1,
                (hty.2.2.2 c (by assumption)).2.2.1,
                (hty.2.2.2 c (by assumption)).2.2.2⟩
            | exact absurd (by assumption : c ∈ ([] : List Char)) (List.not_mem_nil c)
            | (rename_i hcx; subst hcx; decide)
      | requiredArrow =>
          have hdata : (renderFieldLine ⟨k, FieldForm.requiredArrow, ty⟩).data
              = ' ' :: ' ' :: ((':' :: (k.data ++ (' ' :: '=' :: '>' :: ' ' :: ty.data))) ++ [',']) := by
            simp only [renderFieldLine]
            have e1 : ("  :" : String).data = [' ', ' ', ':'] := rfl
            have e2 : (" => " : String).data = [' ', '=', '>', ' '] := rfl
            have e3 : ("," : String).data = [','] := rfl
            simp [String.data_append, e1, e2, e3, List.append_assoc]
          rw [hdata] at hc
          simp only [List.mem_cons, List.mem_append] at hc
          casesm* _ ∨ _
          all_goals first
            | exact ⟨word_ne c '\n' (hk.2 c (by assumption)) (by decide),
                word_ne c braceClose (hk.2 c (by assumption)) (by decide),
                word_ne c '`' (hk.2 c (by assumption)) (by decide)⟩
            | exact ⟨(hty.2.2.2 c (by assumption)).1,
                (hty.2.2.2 c (by assumption)).2.2.1,
                (hty.2.2.2 c (by assumption)).2.2.2⟩
            | exact absurd (by assumption : c ∈ ([] : List Char)) (List.not_mem_nil c)
            | (rename_i hcx; subst hcx; decide)
      | requiredColon =>
          have hdata : (renderFieldLine ⟨k, FieldForm.requiredColon, ty⟩).data
              = ' ' :: ' ' :: ((k.data ++ (':' :: ' ' :: ty.data)) ++ [',']) := by
            simp only [renderFieldLine]
            have e1 : ("  " : String).data = [' ', ' '] := rfl
            have e2 : (": " : String).data = [':', ' '] := rfl
            have e3 : ("," : String).data = [','] := rfl
            simp [String.data_append, e1, e2, e3, List.append_assoc]
          rw [hdata] at hc
          simp only [List.mem_cons, List.mem_append] at hc
          casesm* _ ∨ _
          all_goals first
            | exact ⟨word_ne c '\n' (hk.2 c (by assumption)) (by decide),
                word_ne c braceClose (hk.2 c (by assumption)) (by decide),
                word_ne c '`' (hk.2 c (by assumption)) (by decide)⟩
            | exact ⟨(hty.2.2.2 c (by assumption)).1,
                (hty.2.2.2 c (by assumption)).2.2.1,
                (hty.2.2.2 c (by assumption)).2.2.2⟩
            | exact absurd (by assumption : c ∈ ([] : List Char)) (List.not_mem_nil c)
            | (rename_i hcx; subst hcx; decide)

/-- C1 counterexample: the claim's own single-line block yields nothing
(the extractor's pattern requires the `@type` marker), and even with the
marker the comma-separated single-line field list produces a single entry
whose type text swallows the second field — not the claimed two entries. -/
theorem c1_option_map_counterexample :
    parseTypeOptions specTypeBlock = [] ∧
    parseTypeOptions specTypeBlockAtType =
      [("name", [⟨":a", true, "integer(), optional(:b) => boolean()"⟩])] := by
  constructor <;> decide

/-- C1 (amended): with the `@type` marker and one field per line, the
Signature Extractor yields one OptionEntry per declared field in declared
order — for every type name, every non-empty field list and all three field
surface forms, `optional(:k) => T` marked optional and `:k => T` / `k: T`
marked required. -/
theorem c1_option_map_extraction (tn : String) (fields : List FieldSpec)
    (htn : cleanKey tn) (hne : fields ≠ [])
    (hf : ∀ f ∈ fields, cleanField f) :
    parseTypeOptions (renderTypeBlock tn fields) = [(tn, fields.map fieldEntry)] := by
  have hlines : ∀ l ∈ (typeHeaderLine tn :: (fields.map renderFieldLine ++ ["\x7d"])),
      ∀ c ∈ l.data, c ≠ '\n' := by
    intro l hl c hc
    rcases List.mem_cons.mp hl with rfl | hl2
    · exact (typeHeaderLine_chars tn htn c hc).1
    · rcases List.mem_append.mp hl2 with hl3 | hl3
      · obtain ⟨g, hg, rfl⟩ := List.mem_map.mp hl3
        exact (renderFieldLine_chars g (hf g hg) c hc).1
      · rw [List.mem_singleton.mp hl3] at hc
        have hx : ∀ x ∈ ("\x7d" : String).data, x ≠ '\n' := by decide
        exact hx c hc
  have hbt : ∀ c ∈ (joinParts "\n"
      (typeHeaderLine tn :: (fields.map renderFieldLine ++ ["\x7d"]))).data, c ≠ '`' := by
    intro c hc
    rcases joinParts_chars "\n" _ c hc with hc1 | ⟨l, hl, hcl⟩
    · have hx : ∀ x ∈ ("\n" : String).data, x ≠ '`' := by decide
      exact hx c hc1
    · rcases List.mem_cons.mp hl with rfl | hl2
      · exact (typeHeaderLine_chars tn htn c hcl).2
      · rcases List.mem_append.mp hl2 with hl3 | hl3
        · obtain ⟨g, hg, rfl⟩ := List.mem_map.mp hl3
          exact (renderFieldLine_chars g (hf g hg) c hcl).2.2
        · rw [List.mem_singleton.mp hl3] at hcl
          have hx : ∀ x ∈ ("\x7d" : String).data, x ≠ '`' := by decide
          exact hx c hcl
  have hfls : ∀ l ∈ fields.map renderFieldLine, ∀ c ∈ l.data, c ≠ braceClose := by
    intro l hl c hc
    obtain ⟨g, hg, rfl⟩ := List.mem_map.mp hl
    exact (renderFieldLine_chars g (hf g hg) c hc).2.1
  rw [show renderTypeBlock tn fields
      = "```\n" ++ joinParts "\n"
          (typeHeaderLine tn :: (fields.map renderFieldLine ++ ["\x7d"])) ++ "\n```" from rfl]
  unfold parseTypeOptions
  rw [extractCodeBlocks_single _ hbt]
  rw [List.foldl_cons, List.foldl_nil]
  rw [splitString_join_lines _ hlines (by simp)]
  rw [show (typeHeaderLine tn :: (fields.map renderFieldLine ++ ["\x7d"])) ++ [""]
      = typeHeaderLine tn :: (fields.map renderFieldLine ++ ["\x7d", ""]) from by simp]
  show parseTypeOptionsGo
      ((typeHeaderLine tn :: (fields.map renderFieldLine ++ ["\x7d", ""])).length + 1)
      (typeHeaderLine tn :: (fields.map renderFieldLine ++ ["\x7d", ""])) []
      = [(tn, fields.map fieldEntry)]
  rw [show (typeHeaderLine tn :: (fields.map renderFieldLine ++ ["\x7d", ""])).length + 1
      = (fields.length + 2) + 2 from by
    simp [List.length_cons, List.length_append, List.length_map]]
  exact parseTypeOptionsGo_run (fields.length + 2) _ _ tn _
    (typeDeclMatch_header tn htn)
    (collectMapLines_fields _ [""] hfls)
    (parseMapOptions_fields fields hf)
    (by simpa using hne)

/-- C1 witness: the general extraction applied to a concrete three-field
declaration spanning all three surface forms, evaluated to the literal
result. -/
theorem c1_option_map_extraction_witness :
    cleanKey "name" ∧
    ([⟨"a", FieldForm.requiredArrow, "integer()"⟩,
      ⟨"b", FieldForm.optionalArrow, "boolean()"⟩,
      ⟨"c", FieldForm.requiredColon, "String.t()"⟩] : List FieldSpec) ≠ [] ∧
    (∀ f ∈ ([⟨"a", FieldForm.requiredArrow, "integer()"⟩,
      ⟨"b", FieldForm.optionalArrow, "boolean()"⟩,
      ⟨"c", FieldForm.requiredColon, "String.t()"⟩] : List FieldSpec), cleanField f) ∧
    parseTypeOptions (renderTypeBlock "name"
        [⟨"a", FieldForm.requiredArrow, "integer()"⟩,
         ⟨"b", FieldForm.optionalArrow, "boolean()"⟩,
         ⟨"c", FieldForm.requiredColon, "String.t()"⟩]) =
      [("name", [⟨":a", true, "integer()"⟩, ⟨":b", false, "boolean()"⟩,
        ⟨":c", true, "String.t()"⟩])] :=
  ⟨by decide, by decide, by decide, by
    rw [c1_option_map_extraction "name"
      [⟨"a", FieldForm.requiredArrow, "integer()"⟩,
       ⟨"b", FieldForm.optionalArrow, "boolean()"⟩,
       ⟨"c", FieldForm.requiredColon, "String.t()"⟩]
      (by decide) (by decide) (by decide)]
    decide⟩

/-- C2 counterexample: an in-page fragment href resolves (against an
upstream-host base) to the upstream host, yet the resolver returns it
unchanged instead of the wrapper-origin rewrite the claim demands. -/
theorem c2_link_rewrite_counterexample :
    (urlResolve "#install" "https://hexdocs.pm/pkg/ver/Mod.html").map UrlRec.host =
        some "hexdocs.pm" ∧
    normalizeLinkTarget "#install" "https://hexdocs.pm/pkg/ver/Mod.html" "https://w" =
        "#install" ∧
    ("#install" : String) ≠ "https://w" ++ "/pkg/ver/Mod.html" ++ "" ++ "#install" := by
  refine ⟨by decide, by decide, by decide⟩

/-- C2 (amended): for every href that is not empty and does not start with
`#`, `mailto:` or `javascript:`, if resolution against the base succeeds
then a resolved upstream-host URL is rewritten to the wrapper origin plus
path, query and fragment, and any other host's resolved URL is returned as
its absolute string. -/
theorem c2_link_rewrite (href base wrapperOrigin : String) (u : UrlRec)
    (h0 : href ≠ "") (h1 : strStarts href "#" = false)
    (h2 : strStarts href "mailto:" = false) (h3 : strStarts href "javascript:" = false)
    (hres : urlResolve href base = some u) :
    normalizeLinkTarget href base wrapperOrigin =
      if u.host = "hexdocs.pm" then wrapperOrigin ++ u.path ++ u.search ++ u.hash
      else u.toStr := by
  unfold normalizeLinkTarget
  rw [if_neg, hres]
  rintro (hc | hc | hc | hc)
  · exact h0 hc
  · rw [h1] at hc; cases hc
  · rw [h2] at hc; cases hc
  · rw [h3] at hc; cases hc

/-- C2 witness: the spec's round trip at a concrete upstream link. -/
theorem c2_link_rewrite_witness :
    normalizeLinkTarget "https://hexdocs.pm/pkg/ver/Mod.html"
        "https://hexdocs.pm/pkg/ver/other.html" "https://w" =
      "https://w/pkg/ver/Mod.html" := by
  have := c2_link_rewrite "https://hexdocs.pm/pkg/ver/Mod.html"
    "https://hexdocs.pm/pkg/ver/other.html" "https://w"
    ⟨"https", "hexdocs.pm", "/pkg/ver/Mod.html", "", "", false⟩
    (by decide) (by decide) (by decide) (by decide) (by decide)
  simpa using this

/-- C8: hrefs that are empty or begin with `#`, `mailto:` or `javascript:`
are returned unchanged, and an href whose resolution against the base fails
is also returned unchanged rather than raising. -/
theorem c8_passthrough (href base wrapperOrigin : String)
    (h : href = "" ∨ strStarts href "#" = true ∨ strStarts href "mailto:" = true ∨
      strStarts href "javascript:" = true ∨ urlResolve href base = none) :
    normalizeLinkTarget href base wrapperOrigin = href := by
  unfold normalizeLinkTarget
  by_cases hg : href = "" ∨ strStarts href "#" = true ∨ strStarts href "mailto:" = true ∨
      strStarts href "javascript:" = true
  · rw [if_pos hg]
  · rw [if_neg hg]
    have hres : urlResolve href base = none := by
      rcases h with h | h | h | h | h
      · exact absurd (Or.inl h) hg
      · exact absurd (Or.inr (Or.inl h)) hg
      · exact absurd (Or.inr (Or.inr (Or.inl h))) hg
      · exact absurd (Or.inr (Or.inr (Or.inr h))) hg
      · exact h
    rw [hres]

/-- C8 witness: a fragment href and a malformed href both pass through. -/
theorem c8_passthrough_witness :
    normalizeLinkTarget "#x" "https://hexdocs.pm/a.html" "https://w" = "#x" ∧
    normalizeLinkTarget "https://" "https://hexdocs.pm/a.html" "https://w" = "https://" := by
  constructor
  · exact c8_passthrough "#x" "https://hexdocs.pm/a.html" "https://w"
      (Or.inr (Or.inl (by decide)))
  · exact c8_passthrough "https://" "https://hexdocs.pm/a.html" "https://w"
      (Or.inr (Or.inr (Or.inr (Or.inr (by decide)))))

/-- C3: every entry of a `buildTaskMap` result (and hence every `task_map`
entry of a built PackageIndex) has a non-empty entrypoints list. -/
theorem c3_task_map_nonempty (modules : List ModuleEntry) (guides : List GuideEntry)
    (tasks : List TaskEntry) (e : TaskMapEntry)
    (h : e ∈ buildTaskMap modules guides tasks) : e.entrypoints ≠ [] := by
  simp only [buildTaskMap, List.mem_filter] at h
  intro hnil
  have h2 := h.2
  rw [hnil] at h2
  simp at h2

/-- C3 witness: a `readme` guide fires the getting-started rule with a
non-empty entrypoint list. -/
theorem c3_task_map_nonempty_witness :
    (TaskMapEntry.mk "getting-started" "Get started"
        "Install and configure the library."
        [⟨"README", "https://w/p/readme.html"⟩]).entrypoints ≠ [] :=
  c3_task_map_nonempty [] [readmeGuide] [] _ (by decide)

/-- C10: a request whose path yields no package segment or no remaining
page path is answered with the 400 invalid-request document, and the
response does not depend on the fetcher (no upstream fetch is performed). -/
theorem c10_invalid_request (url : UrlRec) (f g : Fetcher) (now now2 : String)
    (h : (parsePathContext url.path).packageName = none ∨
      (parsePathContext url.path).restPath = "") :
    handleRequest url f now = ⟨400, invalidRequestBody⟩ ∧
    handleRequest url f now = handleRequest url g now2 ∧
    strStarts invalidRequestBody "## Invalid Request" = true := by
  refine ⟨?_, ?_, by decide⟩ <;> · unfold handleRequest; rw [if_pos h]; try rw [if_pos h]

/-- C10 witness: a one-segment path is rejected identically under two
different fetchers. -/
theorem c10_invalid_request_witness :
    handleRequest ⟨"https", "w", "/pkg", "", "", false⟩ (fun _ => ⟨200, "A", none⟩) "t1" =
        ⟨400, invalidRequestBody⟩ ∧
    handleRequest ⟨"https", "w", "/pkg", "", "", false⟩ (fun _ => ⟨200, "A", none⟩) "t1" =
      handleRequest ⟨"https", "w", "/pkg", "", "", false⟩ (fun _ => ⟨500, "B", none⟩) "t2" := by
  have := c10_invalid_request ⟨"https", "w", "/pkg", "", "", false⟩
    (fun _ => ⟨200, "A", none⟩) (fun _ => ⟨500, "B", none⟩) "t1" "t2" (Or.inr (by decide))
  exact ⟨this.1, this.2.1⟩

theorem char_toNat_ofNat (n : Nat) (h : n.isValidChar) : (Char.ofNat n).toNat = n := by
  rw [Char.ofNat, dif_pos h]
  simp [Char.ofNatAux, Char.toNat, UInt32.toNat, BitVec.toNat_ofNatLt]

theorem char_toNat_le_of_le {a b : Char} (h : a ≤ b) : a.toNat ≤ b.toNat := by
  rw [Char.le_def] at h
  exact h

theorem lowerChar_ne_lt (c : Char) (h : c ≠ '<') : lowerChar c ≠ '<' := by
  unfold lowerChar
  split
  · rename_i hup
    simp only [Bool.and_eq_true, decide_eq_true_eq] at hup
    intro he
    have hv : (c.toNat + 32).isValidChar := by
      have hle := char_toNat_le_of_le hup.2
      have : ('Z' : Char).toNat = 90 := by decide
      rw [this] at hle
      left
      omega
    have ht := congrArg Char.toNat he
    rw [char_toNat_ofNat _ hv] at ht
    have hge := char_toNat_le_of_le hup.1
    have hA : ('A' : Char).toNat = 65 := by decide
    have hlt : ('<' : Char).toNat = 60 := by decide
    rw [hA] at hge
    rw [hlt] at ht
    omega
  · exact h

theorem lStartsCI_append_self (p r : List Char) : lStartsCI p (p ++ r) = true := by
  induction p with
  | nil => rfl
  | cons c cs ih => simp [lStartsCI, ih]

theorem lSplitFirstCI_boundary_lt (ps B R : List Char)
    (hB : ∀ c ∈ B, c ≠ '<') :
    lSplitFirstCI ('<' :: ps) (B ++ ('<' :: ps) ++ R) = some (B, R) := by
  induction B with
  | nil =>
      show lSplitFirstCI ('<' :: ps) ('<' :: (ps ++ R)) = some ([], R)
      have h1 : lStartsCI ('<' :: ps) ('<' :: (ps ++ R)) = true :=
        lStartsCI_append_self ('<' :: ps) R
      have h2 : lDrop ('<' :: ps) ('<' :: (ps ++ R)) = R := lDrop_append_self ('<' :: ps) R
      simp [lSplitFirstCI, h1, h2]
  | cons c B' ih =>
      have hc : c ≠ '<' := hB c (List.mem_cons_self c B')
      have ih' := ih fun d hd => hB d (List.mem_cons_of_mem c hd)
      show lSplitFirstCI ('<' :: ps) (c :: (B' ++ ('<' :: ps) ++ R)) = some (c :: B', R)
      have hst : lStartsCI ('<' :: ps) (c :: (B' ++ ('<' :: ps) ++ R)) = false := by
        have hlc := lowerChar_ne_lt c hc
        have e : lowerChar '<' = '<' := by decide
        have hne : ¬ ('<' = lowerChar c) := fun hx => hlc hx.symm
        simp [lStartsCI, e, hne]
      simp only [lSplitFirstCI, hst, Bool.false_eq_true, if_false, ih']

theorem replaceScan_nil (m : List Char → Option (List Char × List Char)) (fuel : Nat) :
    replaceScan m fuel [] = [] := by
  cases fuel <;> rfl

theorem replaceScan_step_none (m : List Char → Option (List Char × List Char))
    (fuel : Nat) (c : Char) (cs : List Char) (h : m (c :: cs) = none) :
    replaceScan m (fuel + 1) (c :: cs) = c :: replaceScan m fuel cs := by
  simp [replaceScan, h]

theorem replaceScan_step_some (m : List Char → Option (List Char × List Char))
    (fuel : Nat) (c : Char) (cs rep rest : List Char) (h : m (c :: cs) = some (rep, rest)) :
    replaceScan m (fuel + 1) (c :: cs) = rep ++ replaceScan m fuel rest := by
  simp [replaceScan, h]

theorem replaceScan_steps_front (m : List Char → Option (List Char × List Char))
    (A B : List Char) (hA : ∀ i, i < A.length → m (A.drop i ++ B) = none) :
    ∀ fuel, replaceScan m (A.length + fuel) (A ++ B) = A ++ replaceScan m fuel B := by
  induction A with
  | nil => intro fuel; simp
  | cons c A' ih =>
      intro fuel
      have h0 : m (c :: (A' ++ B)) = none := by
        have := hA 0 (by simp)
        simpa using this
      have hA' : ∀ i, i < A'.length → m (A'.drop i ++ B) = none := fun i hi => by
        have := hA (i + 1) (by simp only [List.length_cons]; omega)
        simpa using this
      rw [show (c :: A').length + fuel = (A'.length + fuel) + 1 from by
        simp only [List.length_cons]; omega]
      rw [List.cons_append, replaceScan_step_none m (A'.length + fuel) c (A' ++ B) h0]
      rw [ih hA' fuel]
      rfl

theorem replaceScan_id_of_none (m : List Char → Option (List Char × List Char)) :
    ∀ (s : List Char) (fuel : Nat), (∀ i, m (s.drop i) = none) →
    replaceScan m fuel s = s := by
  intro s
  induction s with
  | nil => intro fuel _; exact replaceScan_nil m fuel
  | cons c cs ih =>
      intro fuel h
      cases fuel with
      | zero => rfl
      | succ n =>
          have h0 : m (c :: cs) = none := by simpa using h 0
          rw [replaceScan_step_none m n c cs h0]
          rw [ih n (fun i => by simpa using h (i + 1))]

theorem suffixes_none_append (m : List Char → Option (List Char × List Char))
    (A B : List Char)
    (hA : ∀ i, i < A.length → m (A.drop i ++ B) = none)
    (hB : ∀ i, m (B.drop i) = none) :
    ∀ i, m ((A ++ B).drop i) = none := by
  intro i
  by_cases h : i < A.length
  · rw [List.drop_append_eq_append_drop, show i - A.length = 0 from by omega,
      List.drop_zero]
    exact hA i h
  · rw [List.drop_append_eq_append_drop, List.drop_eq_nil_of_le (by omega),
      List.nil_append]
    exact hB (i - A.length)

theorem suffixes_none_trigfree (m : List Char → Option (List Char × List Char))
    (trig : Char) (hm : ∀ c r, c ≠ trig → m (c :: r) = none)
    (t : List Char) (ht : ∀ c ∈ t, c ≠ trig) (B : List Char)
    (hB : ∀ i, m (B.drop i) = none) :
    ∀ i, m ((t ++ B).drop i) = none := by
  apply suffixes_none_append m t B _ hB
  intro i hi
  cases hdr : t.drop i with
  | nil =>
      have hlen : t.length ≤ i := by
        have hld := List.length_drop i t
        rw [hdr] at hld
        simp at hld
        omega
      exact absurd hi (by omega)
  | cons c cs =>
      have hct : c ∈ t := List.drop_subset i t (hdr ▸ List.mem_cons_self c cs)
      rw [List.cons_append]
      exact hm c _ (ht c hct)

theorem suffixes_none_concrete (m : List Char → Option (List Char × List Char))
    (C : List Char) (hC : ∀ i, i < C.length → m (C.drop i) = none)
    (hnil : m [] = none) :
    ∀ i, m (C.drop i) = none := by
  intro i
  by_cases h : i < C.length
  · exact hC i h
  · rw [List.drop_eq_nil_of_le (by omega)]
    exact hnil

theorem lStartsCI_lt_head (ps : List Char) (c : Char) (r : List Char) (h : c ≠ '<') :
    lStartsCI ('<' :: ps) (c :: r) = false := by
  have hlc := lowerChar_ne_lt c h
  have e : lowerChar '<' = '<' := by decide
  have hne : ¬ ('<' = lowerChar c) := fun hx => hlc hx.symm
  simp [lStartsCI, e, hne]

theorem removeDelimitedCI_head (ps cp : List Char) (c : Char) (r : List Char)
    (h : c ≠ '<') : removeDelimitedCI ('<' :: ps) cp (c :: r) = none := by
  simp [removeDelimitedCI, lStartsCI_lt_head ps c r h]

theorem removeDelimitedCS_head (ps cp : List Char) (c : Char) (r : List Char)
    (h : c ≠ '<') : removeDelimitedCS ('<' :: ps) cp (c :: r) = none := by
  have hst : lStarts ('<' :: ps) (c :: r) = false := by
    have hne : ¬ ('<' = c) := fun hx => h hx.symm
    simp [lStarts, hne]
  simp [removeDelimitedCS, hst]

theorem tagOpenAt_head (ts : List Char) (c : Char) (r : List Char) (h : c ≠ '<') :
    tagOpenAt ('<' :: ts) (c :: r) = none := by
  simp [tagOpenAt, lStartsCI_lt_head ts c r h]

theorem headingAt_head (level : Nat) (c : Char) (r : List Char) (h : c ≠ '<') :
    headingAt level (c :: r) = none := by
  unfold headingAt
  simp only [tagOpenAt_head _ c r h]

theorem preCodeAt_head (c : Char) (r : List Char) (h : c ≠ '<') :
    preCodeAt (c :: r) = none := by
  unfold preCodeAt
  rw [show ("<pre" : String).data = '<' :: ['p', 'r', 'e'] from rfl,
    tagOpenAt_head _ c r h]

theorem paragraphAt_head (c : Char) (r : List Char) (h : c ≠ '<') :
    paragraphAt (c :: r) = none := by
  unfold paragraphAt
  rw [show ("<p" : String).data = '<' :: ['p'] from rfl, tagOpenAt_head _ c r h]

theorem listItemAt_head (c : Char) (r : List Char) (h : c ≠ '<') :
    listItemAt (c :: r) = none := by
  unfold listItemAt
  rw [show ("<li" : String).data = '<' :: ['l', 'i'] from rfl, tagOpenAt_head _ c r h]

theorem codeSpanAt_head (c : Char) (r : List Char) (h : c ≠ '<') :
    codeSpanAt (c :: r) = none := by
  unfold codeSpanAt
  rw [show ("<code" : String).data = '<' :: ['c', 'o', 'd', 'e'] from rfl,
    tagOpenAt_head _ c r h]

theorem brAt_head (c : Char) (r : List Char) (h : c ≠ '<') :
    brAt (c :: r) = none := by
  have hst : lStartsCI ("<br".data) (c :: r) = false := by
    rw [show ("<br" : String).data = '<' :: ['b', 'r'] from rfl]
    exact lStartsCI_lt_head _ c r h
  simp [brAt, hst]

theorem anchorAt_head (c : Char) (r : List Char) (h : c ≠ '<') :
    anchorAt (c :: r) = none := by
  have hst : lStartsCI ("<a".data) (c :: r) = false := by
    rw [show ("<a" : String).data = '<' :: ['a'] from rfl]
    exact lStartsCI_lt_head _ c r h
  simp [anchorAt, hst]

theorem stripTagsScan_id : ∀ (s : List Char) (fuel : Nat), (∀ c ∈ s, c ≠ '<') →
    stripTagsScan fuel s = s := by
  intro s
  induction s with
  | nil => intro fuel _; cases fuel <;> rfl
  | cons c cs ih =>
      intro fuel h
      cases fuel with
      | zero => rfl
      | succ n =>
          have hc : c ≠ '<' := h c (List.mem_cons_self c cs)
          simp only [stripTagsScan]
          rw [if_neg hc, ih n (fun d hd => h d (List.mem_cons_of_mem c hd))]

theorem stripTagsPlusScan_id : ∀ (s : List Char) (fuel : Nat), (∀ c ∈ s, c ≠ '<') →
    stripTagsPlusScan fuel s = s := by
  intro s
  induction s with
  | nil => intro fuel _; cases fuel <;> rfl
  | cons c cs ih =>
      intro fuel h
      cases fuel with
      | zero => rfl
      | succ n =>
          have hc : c ≠ '<' := h c (List.mem_cons_self c cs)
          simp only [stripTagsPlusScan]
          rw [if_neg hc, ih n (fun d hd => h d (List.mem_cons_of_mem c hd))]

theorem numericEntityAt_head (c : Char) (r : List Char) (h : c ≠ '&') :
    numericEntityAt (c :: r) = none := by
  unfold numericEntityAt
  split
  · rename_i t heq
    injection heq with h1 h2
    exact absurd h1 h
  · rfl

theorem replaceAllLit_amp_id (pat rep s : String) (ps : List Char)
    (hp : pat.data = '&' :: ps) (hs : ∀ c ∈ s.data, c ≠ '&') :
    replaceAllLit pat rep s = s := by
  unfold replaceAllLit
  rw [replaceScan_id_of_none _ s.data _ ?_]
  · intro i
    cases hdr : s.data.drop i with
    | nil =>
        show (if pat ≠ "" && lStarts pat.data [] then _ else none) = none
        rw [hp]
        simp [lStarts]
    | cons c cs =>
        have hct : c ∈ s.data := List.drop_subset i s.data (hdr ▸ List.mem_cons_self c cs)
        have hc : c ≠ '&' := hs c hct
        show (if pat ≠ "" && lStarts pat.data (c :: cs) then _ else none) = none
        have hst : lStarts pat.data (c :: cs) = false := by
          rw [hp]
          have hne : ¬ ('&' = c) := fun hx => hc hx.symm
          simp [lStarts, hne]
        rw [hst]
        simp

theorem decode_plain (t : List Char) (h : ∀ c ∈ t, c ≠ '&') :
    decodeHtmlEntities ⟨t⟩ = ⟨t⟩ := by
  simp only [decodeHtmlEntities]
  rw [replaceAllLit_amp_id "&nbsp;" " " ⟨t⟩ _ rfl h,
      replaceAllLit_amp_id "&amp;" "&" ⟨t⟩ _ rfl h,
      replaceAllLit_amp_id "&lt;" "<" ⟨t⟩ _ rfl h,
      replaceAllLit_amp_id "&gt;" ">" ⟨t⟩ _ rfl h,
      replaceAllLit_amp_id "&quot;" "\x22" ⟨t⟩ _ rfl h,
      replaceAllLit_amp_id "&#39;" "\x27" ⟨t⟩ _ rfl h]
  rw [replaceScan_id_of_none _ _ _ ?_]
  intro i
  cases hdr : (⟨t⟩ : String).data.drop i with
  | nil => rfl
  | cons c cs =>
      have hct : c ∈ t := List.drop_subset i t (hdr ▸ List.mem_cons_self c cs)
      exact numericEntityAt_head c cs (h c hct)

theorem stripTags_plain (t : List Char) (hlt : ∀ c ∈ t, c ≠ '<')
    (hamp : ∀ c ∈ t, c ≠ '&') : stripTags ⟨t⟩ = ⟨t⟩ := by
  unfold stripTags
  rw [show ((⟨t⟩ : String)).data = t from rfl, stripTagsScan_id t _ hlt]
  exact decode_plain t hamp

theorem collapseNewlines_nil (fuel : Nat) : collapseNewlines fuel [] = [] := by
  cases fuel <;> rfl

theorem collapse_step_char (fuel : Nat) (c : Char) (cs : List Char) (h : c ≠ '\n') :
    collapseNewlines (fuel + 1) (c :: cs) = c :: collapseNewlines fuel cs := by
  simp only [collapseNewlines]
  rw [if_neg h]

theorem collapse_step_short (fuel : Nat) (cs : List Char)
    (h : (cs.takeWhile (· = '\n')).length < 2) :
    collapseNewlines (fuel + 1) ('\n' :: cs) = '\n' :: collapseNewlines fuel cs := by
  simp only [collapseNewlines, if_true]
  rw [if_neg (by omega)]

theorem collapse_step_run (fuel : Nat) (cs : List Char)
    (h : 2 ≤ (cs.takeWhile (· = '\n')).length) :
    collapseNewlines (fuel + 1) ('\n' :: cs)
      = '\n' :: '\n' :: collapseNewlines fuel (cs.drop (cs.takeWhile (· = '\n')).length) := by
  simp only [collapseNewlines, if_true]
  rw [if_pos h]

theorem collapse_skip (t : List Char) (ht : ∀ c ∈ t, c ≠ '\n') :
    ∀ (fuel : Nat) (R : List Char),
      collapseNewlines (t.length + fuel) (t ++ R) = t ++ collapseNewlines fuel R := by
  induction t with
  | nil => intro fuel R; simp
  | cons c t' ih =>
      intro fuel R
      have hc : c ≠ '\n' := ht c (List.mem_cons_self c t')
      rw [show (c :: t').length + fuel = (t'.length + fuel) + 1 from by
        simp only [List.length_cons]; omega]
      rw [List.cons_append, collapse_step_char (t'.length + fuel) c (t' ++ R) hc]
      rw [ih (fun d hd => ht d (List.mem_cons_of_mem c hd)) fuel R]
      rfl

theorem suffixes_none_nil (m : List Char → Option (List Char × List Char))
    (hnil : m [] = none) : ∀ i, m (([] : List Char).drop i) = none := by
  intro i
  rw [List.drop_nil]
  exact hnil

theorem replaceScan_skip_trigfree (m : List Char → Option (List Char × List Char))
    (trig : Char) (hm : ∀ c r, c ≠ trig → m (c :: r) = none)
    (t : List Char) (ht : ∀ c ∈ t, c ≠ trig) (B : List Char) (fuel : Nat) :
    replaceScan m (t.length + fuel) (t ++ B) = t ++ replaceScan m fuel B := by
  apply replaceScan_steps_front m t B _ fuel
  intro i hi
  cases hdr : t.drop i with
  | nil =>
      have hld := List.length_drop i t
      rw [hdr] at hld
      simp at hld
      exact absurd hi (by omega)
  | cons c cs =>
      rw [List.cons_append]
      exact hm c _ (ht c (List.drop_subset i t (hdr ▸ List.mem_cons_self c cs)))

theorem collapse_lead (fuel : Nat) (X : List Char) :
    collapseNewlines (fuel + 3) ('\n' :: '\n' :: 'x' :: X)
      = '\n' :: '\n' :: 'x' :: collapseNewlines fuel X := by
  rw [show fuel + 3 = (fuel + 2) + 1 from by omega]
  rw [collapse_step_short (fuel + 2) ('\n' :: 'x' :: X) (by
    rw [show (('\n' :: 'x' :: X).takeWhile (· = '\n')) = ['\n'] from by
      simp [List.takeWhile_cons]]
    decide)]
  rw [show fuel + 2 = (fuel + 1) + 1 from by omega]
  rw [collapse_step_short (fuel + 1) ('x' :: X) (by
    rw [show (('x' :: X).takeWhile (· = '\n')) = [] from by
      simp [List.takeWhile_cons]]
    decide)]
  rw [collapse_step_char fuel 'x' X (by decide)]

theorem collapse_quad (fuel : Nat) (X : List Char)
    (hX : X.takeWhile (· = '\n') = []) :
    collapseNewlines (fuel + 1) ('\n' :: '\n' :: '\n' :: '\n' :: X)
      = '\n' :: '\n' :: collapseNewlines fuel X := by
  have hrun : (('\n' :: '\n' :: '\n' :: X).takeWhile (· = '\n')) = ['\n', '\n', '\n'] := by
    simp [List.takeWhile_cons, hX]
  rw [collapse_step_run fuel ('\n' :: '\n' :: '\n' :: X) (by rw [hrun]; decide)]
  rw [hrun]
  rfl

theorem collapse_tail3 (fuel : Nat) :
    collapseNewlines (fuel + 3) ('y' :: '\n' :: '\n' :: [])
      = 'y' :: '\n' :: '\n' :: [] := by
  rw [show fuel + 3 = (fuel + 2) + 1 from by omega]
  rw [collapse_step_char (fuel + 2) 'y' ('\n' :: '\n' :: []) (by decide)]
  rw [show fuel + 2 = (fuel + 1) + 1 from by omega]
  rw [collapse_step_short (fuel + 1) ('\n' :: []) (by decide)]
  rw [collapse_step_short fuel [] (by decide)]
  rw [collapseNewlines_nil]


theorem suffixes_none_all (m : List Char → Option (List Char × List Char))
    (trig : Char) (hm : ∀ c r, c ≠ trig → m (c :: r) = none)
    (t : List Char) (ht : ∀ c ∈ t, c ≠ trig) (hnil : m [] = none) :
    ∀ i, m (t.drop i) = none := by
  intro i
  cases hdr : t.drop i with
  | nil => exact hnil
  | cons c cs =>
      exact hm c cs (ht c (List.drop_subset i t (hdr ▸ List.mem_cons_self c cs)))

set_option maxHeartbeats 1000000 in
theorem htmlToMarkdown_h1 (T : String) (hT0 : T.data ≠ [])
    (hTc : ∀ c ∈ T.data, c ≠ '<' ∧ c ≠ '&' ∧ c ≠ '\n') :
    htmlToMarkdown ("<p>x</p><h" ++ toString (1 : Nat) ++ ">" ++ T ++ "</h" ++
        toString (1 : Nat) ++ "><p>y</p>")
      = "x\n\n" ++ (⟨List.replicate 1 '#'⟩ : String) ++ " " ++ T ++ "\n\ny" := by
  have hTlt : ∀ c ∈ T.data, c ≠ '<' := fun c hc => (hTc c hc).1
  have hTne : T ≠ "" := fun e => hT0 (congrArg String.data e)
  have hdoc : ("<p>x</p><h" ++ toString (1 : Nat) ++ ">" ++ T ++ "</h" ++
      toString (1 : Nat) ++ "><p>y</p>").data
      = "<p>x</p><h1>".data ++ (T.data ++ "</h1><p>y</p>".data) := by
    rw [show toString (1 : Nat) = "1" from rfl]
    simp [String.data_append, List.append_assoc]
  have hid0 : ∀ (m : List Char → Option (List Char × List Char)),
      (∀ c r, c ≠ '<' → m (c :: r) = none) →
      (∀ i, i < 12 → m (("<p>x</p><h1>".data).drop i ++
        (T.data ++ "</h1><p>y</p>".data)) = none) →
      (∀ i, i < 13 → m (("</h1><p>y</p>".data).drop i) = none) →
      m [] = none →
      runStage m ("<p>x</p><h1>".data ++ (T.data ++ "</h1><p>y</p>".data))
        = "<p>x</p><h1>".data ++ (T.data ++ "</h1><p>y</p>".data) := by
    intro m hhead h0 h1 hnil
    apply replaceScan_id_of_none
    apply suffixes_none_append
    · intro i hi
      exact h0 i (by rw [show ("<p>x</p><h1>".data).length = 12 from rfl] at hi; exact hi)
    · apply suffixes_none_trigfree m '<' hhead T.data hTlt
      apply suffixes_none_concrete m _ _ hnil
      intro i hi
      exact h1 i (by rw [show ("</h1><p>y</p>".data).length = 13 from rfl] at hi; exact hi)
  have hid1 : ∀ (m : List Char → Option (List Char × List Char)),
      (∀ c r, c ≠ '<' → m (c :: r) = none) →
      (∀ i, i < 8 → m (("<p>x</p>".data).drop i ++
        (['\n', '\n', '#', ' '] ++ (T.data ++ (['\n', '\n'] ++ "<p>y</p>".data)))) = none) →
      (∀ i, i < 8 → m (("<p>y</p>".data).drop i) = none) →
      m [] = none →
      runStage m ("<p>x</p>".data ++ (['\n', '\n', '#', ' '] ++ (T.data ++ (['\n', '\n'] ++ "<p>y</p>".data))))
        = "<p>x</p>".data ++ (['\n', '\n', '#', ' '] ++ (T.data ++ (['\n', '\n'] ++ "<p>y</p>".data))) := by
    intro m hhead h0 h1 hnil
    apply replaceScan_id_of_none
    apply suffixes_none_append
    · intro i hi
      exact h0 i (by rw [show ("<p>x</p>".data).length = 8 from rfl] at hi; exact hi)
    · apply suffixes_none_trigfree m '<' hhead ['\n', '\n', '#', ' '] (by decide)
      apply suffixes_none_trigfree m '<' hhead T.data hTlt
      apply suffixes_none_trigfree m '<' hhead ['\n', '\n'] (by decide)
      apply suffixes_none_concrete m _ _ hnil
      intro i hi
      exact h1 i (by rw [show ("<p>y</p>".data).length = 8 from rfl] at hi; exact hi)
  have hid2 : ∀ (m : List Char → Option (List Char × List Char)),
      (∀ c r, c ≠ '<' → m (c :: r) = none) →
      m [] = none →
      runStage m ("\n\nx\n\n".data ++ (['\n', '\n', '#', ' '] ++ (T.data ++ (['\n', '\n'] ++ "\n\ny\n\n".data))))
        = "\n\nx\n\n".data ++ (['\n', '\n', '#', ' '] ++ (T.data ++ (['\n', '\n'] ++ "\n\ny\n\n".data))) := by
    intro m hhead hnil
    apply replaceScan_id_of_none
    apply suffixes_none_trigfree m '<' hhead "\n\nx\n\n".data (by decide)
    apply suffixes_none_trigfree m '<' hhead ['\n', '\n', '#', ' '] (by decide)
    apply suffixes_none_trigfree m '<' hhead T.data hTlt
    apply suffixes_none_trigfree m '<' hhead ['\n', '\n'] (by decide)
    exact suffixes_none_all m '<' hhead "\n\ny\n\n".data (by decide) hnil
  have hs1 := hid0 (removeDelimitedCI "<script".data "</script>".data)
    (fun c r hc => removeDelimitedCI_head "script".data "</script>".data c r hc)
    (by intro i hi; interval_cases i <;> rfl)
    (by intro i hi; interval_cases i <;> rfl) rfl
  have hs2 := hid0 (removeDelimitedCI "<style".data "</style>".data)
    (fun c r hc => removeDelimitedCI_head "style".data "</style>".data c r hc)
    (by intro i hi; interval_cases i <;> rfl)
    (by intro i hi; interval_cases i <;> rfl) rfl
  have hs3 := hid0 (removeDelimitedCS "<!--".data "-->".data)
    (fun c r hc => removeDelimitedCS_head "!--".data "-->".data c r hc)
    (by intro i hi; interval_cases i <;> rfl)
    (by intro i hi; interval_cases i <;> rfl) rfl
  have hs4 := hid0 preCodeAt (fun c r hc => preCodeAt_head c r hc)
    (by intro i hi; interval_cases i <;> rfl)
    (by intro i hi; interval_cases i <;> rfl) rfl
  have hh6 := hid0 (headingAt 6) (fun c r hc => headingAt_head 6 c r hc)
    (by intro i hi; interval_cases i <;> rfl)
    (by intro i hi; interval_cases i <;> rfl) rfl
  have hh5 := hid0 (headingAt 5) (fun c r hc => headingAt_head 5 c r hc)
    (by intro i hi; interval_cases i <;> rfl)
    (by intro i hi; interval_cases i <;> rfl) rfl
  have hh4 := hid0 (headingAt 4) (fun c r hc => headingAt_head 4 c r hc)
    (by intro i hi; interval_cases i <;> rfl)
    (by intro i hi; interval_cases i <;> rfl) rfl
  have hh3 := hid0 (headingAt 3) (fun c r hc => headingAt_head 3 c r hc)
    (by intro i hi; interval_cases i <;> rfl)
    (by intro i hi; interval_cases i <;> rfl) rfl
  have hh2 := hid0 (headingAt 2) (fun c r hc => headingAt_head 2 c r hc)
    (by intro i hi; interval_cases i <;> rfl)
    (by intro i hi; interval_cases i <;> rfl) rfl
  have hmatch : headingAt 1 ('<' :: 'h' :: '1' :: '>' ::
      (T.data ++ ("</h1>".data ++ "<p>y</p>".data)))
      = some (("\n\n" ++ (⟨List.replicate 1 '#'⟩ : String) ++ " " ++ T ++ "\n\n").data,
          "<p>y</p>".data) := by
    have hsplit := lSplitFirstCI_boundary_lt ['/', 'h', '1', '>'] T.data "<p>y</p>".data hTlt
    rw [List.append_assoc] at hsplit
    simp only [headingAt]
    rw [show tagOpenAt ['<', 'h', Char.ofNat (48 + 1)]
        ('<' :: 'h' :: '1' :: '>' :: (T.data ++ ("</h1>".data ++ "<p>y</p>".data)))
        = some (T.data ++ ("</h1>".data ++ "<p>y</p>".data)) from rfl]
    rw [show ('<' :: '/' :: 'h' :: Char.ofNat (48 + 1) :: '>' :: [] : List Char)
        = ('<' :: ['/', 'h', '1', '>'] : List Char) from rfl]
    rw [show (T.data ++ ("</h1>".data ++ "<p>y</p>".data))
        = T.data ++ (('<' :: ['/', 'h', '1', '>'] : List Char) ++ "<p>y</p>".data) from rfl]
    have heta : ((⟨T.data⟩ : String)) = T := rfl
    have hstp := stripTags_plain T.data hTlt (fun c hc => (hTc c hc).2.1)
    simp only [hsplit, hstp, heta, ne_eq, hTne, not_false_eq_true, if_true]
  have hhN : runStage (headingAt 1) ("<p>x</p><h1>".data ++ (T.data ++ "</h1><p>y</p>".data))
      = "<p>x</p>".data ++ ((("\n\n" ++ (⟨List.replicate 1 '#'⟩ : String) ++ " " ++ T ++ "\n\n").data) ++ "<p>y</p>".data) := by
    unfold runStage
    rw [show ("<p>x</p><h1>".data ++ (T.data ++ "</h1><p>y</p>".data))
        = "<p>x</p>".data ++ ("<h1>".data ++ (T.data ++ ("</h1>".data ++ "<p>y</p>".data)))
        from rfl]
    rw [show ("<p>x</p>".data ++
          ("<h1>".data ++ (T.data ++ ("</h1>".data ++ "<p>y</p>".data)))).length + 1
        = ("<p>x</p>".data).length +
          ((("<h1>".data ++ (T.data ++ ("</h1>".data ++ "<p>y</p>".data)))).length + 1)
        from by
      simp only [List.length_append, List.length_cons, List.length_nil] <;> omega]
    rw [replaceScan_steps_front (headingAt 1) ("<p>x</p>".data)
        ("<h1>".data ++ (T.data ++ ("</h1>".data ++ "<p>y</p>".data)))
        (by
          intro i hi
          rw [show (("<p>x</p>".data)).length = 8 from rfl] at hi
          interval_cases i <;> rfl)]
    rw [show ("<h1>".data ++ (T.data ++ ("</h1>".data ++ "<p>y</p>".data)))
        = '<' :: ('h' :: '1' :: '>' :: (T.data ++ ("</h1>".data ++ "<p>y</p>".data)))
        from rfl]
    rw [replaceScan_step_some (headingAt 1)
        ('<' :: 'h' :: '1' :: '>' :: (T.data ++ ("</h1>".data ++ "<p>y</p>".data))).length
        '<' ('h' :: '1' :: '>' :: (T.data ++ ("</h1>".data ++ "<p>y</p>".data)))
        (("\n\n" ++ (⟨List.replicate 1 '#'⟩ : String) ++ " " ++ T ++ "\n\n").data)
        ("<p>y</p>".data)
        hmatch]
    rw [replaceScan_id_of_none (headingAt 1) ("<p>y</p>".data) _
        (suffixes_none_concrete _ _
          (by
            intro i hi
            rw [show (("<p>y</p>".data)).length = 8 from rfl] at hi
            interval_cases i <;> rfl)
          rfl)]
  have hbridge : "<p>x</p>".data ++ ((("\n\n" ++ (⟨List.replicate 1 '#'⟩ : String) ++ " " ++ T ++ "\n\n").data) ++ "<p>y</p>".data)
      = "<p>x</p>".data ++ (['\n', '\n', '#', ' '] ++ (T.data ++ (['\n', '\n'] ++ "<p>y</p>".data))) := by
    simp [String.data_append, List.append_assoc]
  have hp : runStage paragraphAt ("<p>x</p>".data ++ (['\n', '\n', '#', ' '] ++ (T.data ++ (['\n', '\n'] ++ "<p>y</p>".data))))
      = "\n\nx\n\n".data ++ (['\n', '\n', '#', ' '] ++ (T.data ++ (['\n', '\n'] ++ "\n\ny\n\n".data))) := by
    unfold runStage
    rw [show ("<p>x</p>".data ++ (['\n', '\n', '#', ' '] ++ (T.data ++ (['\n', '\n'] ++ "<p>y</p>".data))))
        = '<' :: ('p' :: '>' :: 'x' :: '<' :: '/' :: 'p' :: '>' ::
            (['\n', '\n', '#', ' '] ++ (T.data ++ (['\n', '\n'] ++ "<p>y</p>".data))))
        from by simp [String.data_append, List.append_assoc]]
    have hpm1 : paragraphAt ('<' :: ('p' :: '>' :: 'x' :: '<' :: '/' :: 'p' :: '>' ::
            (['\n', '\n', '#', ' '] ++ (T.data ++ (['\n', '\n'] ++ "<p>y</p>".data)))))
        = some ("\n\nx\n\n".data,
            ['\n', '\n', '#', ' '] ++ (T.data ++ (['\n', '\n'] ++ "<p>y</p>".data))) := by rfl
    rw [replaceScan_step_some paragraphAt
        ('<' :: 'p' :: '>' :: 'x' :: '<' :: '/' :: 'p' :: '>' ::
            (['\n', '\n', '#', ' '] ++ (T.data ++ (['\n', '\n'] ++ "<p>y</p>".data)))).length
        '<' ('p' :: '>' :: 'x' :: '<' :: '/' :: 'p' :: '>' ::
            (['\n', '\n', '#', ' '] ++ (T.data ++ (['\n', '\n'] ++ "<p>y</p>".data))))
        ("\n\nx\n\n".data)
        (['\n', '\n', '#', ' '] ++ (T.data ++ (['\n', '\n'] ++ "<p>y</p>".data)))
        hpm1]
    rw [show ('<' :: 'p' :: '>' :: 'x' :: '<' :: '/' :: 'p' :: '>' ::
            (['\n', '\n', '#', ' '] ++ (T.data ++ (['\n', '\n'] ++ "<p>y</p>".data)))).length
        = (['\n', '\n', '#', ' '] : List Char).length + (T.data.length + 18)
        from by
      simp only [List.length_append, List.length_cons, List.length_nil] <;> omega]
    rw [replaceScan_steps_front paragraphAt ['\n', '\n', '#', ' ']
        (T.data ++ (['\n', '\n'] ++ "<p>y</p>".data))
        (by
          intro i hi
          simp only [List.length_cons, List.length_nil] at hi
          interval_cases i <;> rfl)
        (T.data.length + 18)]
    rw [replaceScan_skip_trigfree paragraphAt '<' (fun c r hc => paragraphAt_head c r hc)
        T.data hTlt (['\n', '\n'] ++ "<p>y</p>".data) 18]
    rw [show (18 : Nat) = (['\n', '\n'] : List Char).length + 16 from rfl]
    rw [replaceScan_steps_front paragraphAt ['\n', '\n'] ("<p>y</p>".data)
        (by
          intro i hi
          simp only [List.length_cons, List.length_nil] at hi
          interval_cases i <;> rfl)
        16]
    rw [show ("<p>y</p>".data : List Char)
        = '<' :: ('p' :: '>' :: 'y' :: '<' :: '/' :: 'p' :: '>' :: []) from rfl]
    rw [show (16 : Nat) = 15 + 1 from rfl]
    have hpm2 : paragraphAt ('<' :: ('p' :: '>' :: 'y' :: '<' :: '/' :: 'p' :: '>' :: []))
        = some ("\n\ny\n\n".data, []) := by rfl
    rw [replaceScan_step_some paragraphAt 15
        '<' ('p' :: '>' :: 'y' :: '<' :: '/' :: 'p' :: '>' :: []) ("\n\ny\n\n".data) [] hpm2]
    rw [replaceScan_nil]
    simp
  have hli := hid2 listItemAt (fun c r hc => listItemAt_head c r hc) rfl
  have hbr := hid2 brAt (fun c r hc => brAt_head c r hc) rfl
  have hcs := hid2 codeSpanAt (fun c r hc => codeSpanAt_head c r hc) rfl
  have han := hid2 anchorAt (fun c r hc => anchorAt_head c r hc) rfl
  have hmem : ∀ c ∈ ("\n\nx\n\n".data ++ (['\n', '\n', '#', ' '] ++ (T.data ++ (['\n', '\n'] ++ "\n\ny\n\n".data)))), c ≠ '<' := by
    intro c hc
    simp only [List.mem_append, List.mem_cons, List.not_mem_nil, or_false] at hc
    casesm* _ ∨ _
    all_goals first
      | exact (hTc c (by assumption)).1
      | (rename_i hx; subst hx; decide)
  have hamp : ∀ c ∈ ("\n\nx\n\n".data ++ (['\n', '\n', '#', ' '] ++ (T.data ++ (['\n', '\n'] ++ "\n\ny\n\n".data)))), c ≠ '&' := by
    intro c hc
    simp only [List.mem_append, List.mem_cons, List.not_mem_nil, or_false] at hc
    casesm* _ ∨ _
    all_goals first
      | exact (hTc c (by assumption)).2.1
      | (rename_i hx; subst hx; decide)
  have hstrip := stripTagsPlusScan_id ("\n\nx\n\n".data ++ (['\n', '\n', '#', ' '] ++ (T.data ++ (['\n', '\n'] ++ "\n\ny\n\n".data)))) (("\n\nx\n\n".data ++ (['\n', '\n', '#', ' '] ++ (T.data ++ (['\n', '\n'] ++ "\n\ny\n\n".data)))).length + 1) hmem
  have hdec := decode_plain ("\n\nx\n\n".data ++ (['\n', '\n', '#', ' '] ++ (T.data ++ (['\n', '\n'] ++ "\n\ny\n\n".data)))) hamp
  have hcol : collapseNewlines
      ((("\n\nx\n\n".data ++ (['\n', '\n', '#', ' '] ++ (T.data ++ (['\n', '\n'] ++ "\n\ny\n\n".data))))).length + 1)
      ("\n\nx\n\n".data ++ (['\n', '\n', '#', ' '] ++ (T.data ++ (['\n', '\n'] ++ "\n\ny\n\n".data))))
      = '\n' :: '\n' :: 'x' :: '\n' :: '\n' :: (('#' :: ' ' :: T.data) ++ ('\n' :: '\n' :: 'y' :: '\n' :: '\n' :: [])) := by
    rw [show ("\n\nx\n\n".data ++ (['\n', '\n', '#', ' '] ++ (T.data ++ (['\n', '\n'] ++ "\n\ny\n\n".data))))
        = '\n' :: '\n' :: 'x' :: '\n' :: '\n' :: '\n' :: '\n' :: (('#' :: ' ' :: T.data) ++ ('\n' :: '\n' :: '\n' :: '\n' :: 'y' :: '\n' :: '\n' :: []))
        from by simp [List.append_assoc]]
    rw [show ('\n' :: '\n' :: 'x' :: '\n' :: '\n' :: '\n' :: '\n' :: (('#' :: ' ' :: T.data) ++ ('\n' :: '\n' :: '\n' :: '\n' :: 'y' :: '\n' :: '\n' :: []))).length + 1
        = ((T.data.length + (1 + 12)) + 1) + 3
        from by
      simp only [List.length_append, List.length_cons, List.length_nil] <;> omega]
    rw [collapse_lead ((T.data.length + (1 + 12)) + 1) _]
    rw [collapse_quad (T.data.length + (1 + 12)) _ (by
      cases hd : T.data with
      | nil => simp [List.takeWhile_cons]
      | cons c cs =>
          have hc : c ≠ '\n' := (hTc c (hd ▸ List.mem_cons_self c cs)).2.2
          simp [List.takeWhile_cons, hc])]
    rw [show T.data.length + (1 + 12)
        = ('#' :: ' ' :: T.data).length + 11 from by
      simp only [List.length_append, List.length_cons, List.length_nil] <;> omega]
    rw [collapse_skip ('#' :: ' ' :: T.data) (by
        intro c hc
        simp only [List.mem_cons] at hc
        casesm* _ ∨ _
        all_goals first
          | exact (hTc c (by assumption)).2.2
          | (rename_i hx; subst hx; decide)) 11
        ('\n' :: '\n' :: '\n' :: '\n' :: 'y' :: '\n' :: '\n' :: [])]
    rw [show (11 : Nat) = 10 + 1 from rfl]
    rw [collapse_quad 10 _ (by decide)]
    rw [show (10 : Nat) = 7 + 3 from rfl]
    rw [collapse_tail3 7]
  have htrim : jsTrim ⟨'\n' :: '\n' :: 'x' :: '\n' :: '\n' :: (('#' :: ' ' :: T.data) ++ ('\n' :: '\n' :: 'y' :: '\n' :: '\n' :: []))⟩
      = "x\n\n" ++ (⟨List.replicate 1 '#'⟩ : String) ++ " " ++ T ++ "\n\ny" := by
    show (⟨jsTrimList ('\n' :: '\n' :: 'x' :: '\n' :: '\n' :: (('#' :: ' ' :: T.data) ++ ('\n' :: '\n' :: 'y' :: '\n' :: '\n' :: [])))⟩ : String)
      = "x\n\n" ++ (⟨List.replicate 1 '#'⟩ : String) ++ " " ++ T ++ "\n\ny"
    have hlist : jsTrimList ('\n' :: '\n' :: 'x' :: '\n' :: '\n' :: (('#' :: ' ' :: T.data) ++ ('\n' :: '\n' :: 'y' :: '\n' :: '\n' :: [])))
        = ("x\n\n" ++ (⟨List.replicate 1 '#'⟩ : String) ++ " " ++ T ++ "\n\ny").data := by
      unfold jsTrimList
      rw [show (('\n' :: '\n' :: 'x' :: '\n' :: '\n' :: (('#' :: ' ' :: T.data) ++ ('\n' :: '\n' :: 'y' :: '\n' :: '\n' :: []))).dropWhile isJsWs)
          = 'x' :: '\n' :: '\n' :: (('#' :: ' ' :: T.data) ++
              ('\n' :: '\n' :: 'y' :: '\n' :: '\n' :: [])) from by
        simp [List.dropWhile_cons, (by decide : isJsWs '\n' = true),
          (by decide : isJsWs 'x' = false)]]
      rw [show ('x' :: '\n' :: '\n' :: (('#' :: ' ' :: T.data) ++
            ('\n' :: '\n' :: 'y' :: '\n' :: '\n' :: []))).reverse
          = '\n' :: '\n' :: 'y' :: '\n' :: '\n' ::
            (T.data.reverse ++ [' ', '#', '\n', '\n', 'x']) from by
        simp [List.reverse_append, List.append_assoc]]
      rw [show (('\n' :: '\n' :: 'y' :: '\n' :: '\n' ::
            (T.data.reverse ++ [' ', '#', '\n', '\n', 'x'])).dropWhile isJsWs)
          = 'y' :: '\n' :: '\n' ::
            (T.data.reverse ++ [' ', '#', '\n', '\n', 'x']) from by
        simp [List.dropWhile_cons, (by decide : isJsWs '\n' = true),
          (by decide : isJsWs 'y' = false)]]
      rw [show ('y' :: '\n' :: '\n' ::
            (T.data.reverse ++ [' ', '#', '\n', '\n', 'x'])).reverse
          = 'x' :: '\n' :: '\n' :: '#' :: ' ' ::
            (T.data ++ ['\n', '\n', 'y']) from by
        simp [List.reverse_append, List.append_assoc]]
      simp [String.data_append, List.append_assoc]
    rw [hlist]
  simp only [htmlToMarkdown]
  rw [hdoc, hs1, hs2, hs3, hs4]
  rw [hh6]
  rw [hh5]
  rw [hh4]
  rw [hh3]
  rw [hh2]
  rw [hhN, hbridge]
  rw [hp, hli, hbr, hcs, han, hstrip, hdec]
  rw [show ((⟨"\n\nx\n\n".data ++ (['\n', '\n', '#', ' '] ++ (T.data ++ (['\n', '\n'] ++ "\n\ny\n\n".data)))⟩ : String)).data
      = "\n\nx\n\n".data ++ (['\n', '\n', '#', ' '] ++ (T.data ++ (['\n', '\n'] ++ "\n\ny\n\n".data))) from rfl]
  rw [hcol]
  exact htrim

set_option maxHeartbeats 1000000 in
theorem htmlToMarkdown_h2 (T : String) (hT0 : T.data ≠ [])
    (hTc : ∀ c ∈ T.data, c ≠ '<' ∧ c ≠ '&' ∧ c ≠ '\n') :
    htmlToMarkdown ("<p>x</p><h" ++ toString (2 : Nat) ++ ">" ++ T ++ "</h" ++
        toString (2 : Nat) ++ "><p>y</p>")
      = "x\n\n" ++ (⟨List.replicate 2 '#'⟩ : String) ++ " " ++ T ++ "\n\ny" := by
  have hTlt : ∀ c ∈ T.data, c ≠ '<' := fun c hc => (hTc c hc).1
  have hTne : T ≠ "" := fun e => hT0 (congrArg String.data e)
  have hdoc : ("<p>x</p><h" ++ toString (2 : Nat) ++ ">" ++ T ++ "</h" ++
      toString (2 : Nat) ++ "><p>y</p>").data
      = "<p>x</p><h2>".data ++ (T.data ++ "</h2><p>y</p>".data) := by
    rw [show toString (2 : Nat) = "2" from rfl]
    simp [String.data_append, List.append_assoc]
  have hid0 : ∀ (m : List Char → Option (List Char × List Char)),
      (∀ c r, c ≠ '<' → m (c :: r) = none) →
      (∀ i, i < 12 → m (("<p>x</p><h2>".data).drop i ++
        (T.data ++ "</h2><p>y</p>".data)) = none) →
      (∀ i, i < 13 → m (("</h2><p>y</p>".data).drop i) = none) →
      m [] = none →
      runStage m ("<p>x</p><h2>".data ++ (T.data ++ "</h2><p>y</p>".data))
        = "<p>x</p><h2>".data ++ (T.data ++ "</h2><p>y</p>".data) := by
    intro m hhead h0 h1 hnil
    apply replaceScan_id_of_none
    apply suffixes_none_append
    · intro i hi
      exact h0 i (by rw [show ("<p>x</p><h2>".data).length = 12 from rfl] at hi; exact hi)
    · apply suffixes_none_trigfree m '<' hhead T.data hTlt
      apply suffixes_none_concrete m _ _ hnil
      intro i hi
      exact h1 i (by rw [show ("</h2><p>y</p>".data).length = 13 from rfl] at hi; exact hi)
  have hid1 : ∀ (m : List Char → Option (List Char × List Char)),
      (∀ c r, c ≠ '<' → m (c :: r) = none) →
      (∀ i, i < 8 → m (("<p>x</p>".data).drop i ++
        (['\n', '\n', '#', '#', ' '] ++ (T.data ++ (['\n', '\n'] ++ "<p>y</p>".data)))) = none) →
      (∀ i, i < 8 → m (("<p>y</p>".data).drop i) = none) →
      m [] = none →
      runStage m ("<p>x</p>".data ++ (['\n', '\n', '#', '#', ' '] ++ (T.data ++ (['\n', '\n'] ++ "<p>y</p>".data))))
        = "<p>x</p>".data ++ (['\n', '\n', '#', '#', ' '] ++ (T.data ++ (['\n', '\n'] ++ "<p>y</p>".data))) := by
    intro m hhead h0 h1 hnil
    apply replaceScan_id_of_none
    apply suffixes_none_append
    · intro i hi
      exact h0 i (by rw [show ("<p>x</p>".data).length = 8 from rfl] at hi; exact hi)
    · apply suffixes_none_trigfree m '<' hhead ['\n', '\n', '#', '#', ' '] (by decide)
      apply suffixes_none_trigfree m '<' hhead T.data hTlt
      apply suffixes_none_trigfree m '<' hhead ['\n', '\n'] (by decide)
      apply suffixes_none_concrete m _ _ hnil
      intro i hi
      exact h1 i (by rw [show ("<p>y</p>".data).length = 8 from rfl] at hi; exact hi)
  have hid2 : ∀ (m : List Char → Option (List Char × List Char)),
      (∀ c r, c ≠ '<' → m (c :: r) = none) →
      m [] = none →
      runStage m ("\n\nx\n\n".data ++ (['\n', '\n', '#', '#', ' '] ++ (T.data ++ (['\n', '\n'] ++ "\n\ny\n\n".data))))
        = "\n\nx\n\n".data ++ (['\n', '\n', '#', '#', ' '] ++ (T.data ++ (['\n', '\n'] ++ "\n\ny\n\n".data))) := by
    intro m hhead hnil
    apply replaceScan_id_of_none
    apply suffixes_none_trigfree m '<' hhead "\n\nx\n\n".data (by decide)
    apply suffixes_none_trigfree m '<' hhead ['\n', '\n', '#', '#', ' '] (by decide)
    apply suffixes_none_trigfree m '<' hhead T.data hTlt
    apply suffixes_none_trigfree m '<' hhead ['\n', '\n'] (by decide)
    exact suffixes_none_all m '<' hhead "\n\ny\n\n".data (by decide) hnil
  have hs1 := hid0 (removeDelimitedCI "<script".data "</script>".data)
    (fun c r hc => removeDelimitedCI_head "script".data "</script>".data c r hc)
    (by intro i hi; interval_cases i <;> rfl)
    (by intro i hi; interval_cases i <;> rfl) rfl
  have hs2 := hid0 (removeDelimitedCI "<style".data "</style>".data)
    (fun c r hc => removeDelimitedCI_head "style".data "</style>".data c r hc)
    (by intro i hi; interval_cases i <;> rfl)
    (by intro i hi; interval_cases i <;> rfl) rfl
  have hs3 := hid0 (removeDelimitedCS "<!--".data "-->".data)
    (fun c r hc => removeDelimitedCS_head "!--".data "-->".data c r hc)
    (by intro i hi; interval_cases i <;> rfl)
    (by intro i hi; interval_cases i <;> rfl) rfl
  have hs4 := hid0 preCodeAt (fun c r hc => preCodeAt_head c r hc)
    (by intro i hi; interval_cases i <;> rfl)
    (by intro i hi; interval_cases i <;> rfl) rfl
  have hh6 := hid0 (headingAt 6) (fun c r hc => headingAt_head 6 c r hc)
    (by intro i hi; interval_cases i <;> rfl)
    (by intro i hi; interval_cases i <;> rfl) rfl
  have hh5 := hid0 (headingAt 5) (fun c r hc => headingAt_head 5 c r hc)
    (by intro i hi; interval_cases i <;> rfl)
    (by intro i hi; interval_cases i <;> rfl) rfl
  have hh4 := hid0 (headingAt 4) (fun c r hc => headingAt_head 4 c r hc)
    (by intro i hi; interval_cases i <;> rfl)
    (by intro i hi; interval_cases i <;> rfl) rfl
  have hh3 := hid0 (headingAt 3) (fun c r hc => headingAt_head 3 c r hc)
    (by intro i hi; interval_cases i <;> rfl)
    (by intro i hi; interval_cases i <;> rfl) rfl
  have hmatch : headingAt 2 ('<' :: 'h' :: '2' :: '>' ::
      (T.data ++ ("</h2>".data ++ "<p>y</p>".data)))
      = some (("\n\n" ++ (⟨List.replicate 2 '#'⟩ : String) ++ " " ++ T ++ "\n\n").data,
          "<p>y</p>".data) := by
    have hsplit := lSplitFirstCI_boundary_lt ['/', 'h', '2', '>'] T.data "<p>y</p>".data hTlt
    rw [List.append_assoc] at hsplit
    simp only [headingAt]
    rw [show tagOpenAt ['<', 'h', Char.ofNat (48 + 2)]
        ('<' :: 'h' :: '2' :: '>' :: (T.data ++ ("</h2>".data ++ "<p>y</p>".data)))
        = some (T.data ++ ("</h2>".data ++ "<p>y</p>".data)) from rfl]
    rw [show ('<' :: '/' :: 'h' :: Char.ofNat (48 + 2) :: '>' :: [] : List Char)
        = ('<' :: ['/', 'h', '2', '>'] : List Char) from rfl]
    rw [show (T.data ++ ("</h2>".data ++ "<p>y</p>".data))
        = T.data ++ (('<' :: ['/', 'h', '2', '>'] : List Char) ++ "<p>y</p>".data) from rfl]
    have heta : ((⟨T.data⟩ : String)) = T := rfl
    have hstp := stripTags_plain T.data hTlt (fun c hc => (hTc c hc).2.1)
    simp only [hsplit, hstp, heta, ne_eq, hTne, not_false_eq_true, if_true]
  have hhN : runStage (headingAt 2) ("<p>x</p><h2>".data ++ (T.data ++ "</h2><p>y</p>".data))
      = "<p>x</p>".data ++ ((("\n\n" ++ (⟨List.replicate 2 '#'⟩ : String) ++ " " ++ T ++ "\n\n").data) ++ "<p>y</p>".data) := by
    unfold runStage
    rw [show ("<p>x</p><h2>".data ++ (T.data ++ "</h2><p>y</p>".data))
        = "<p>x</p>".data ++ ("<h2>".data ++ (T.data ++ ("</h2>".data ++ "<p>y</p>".data)))
        from rfl]
    rw [show ("<p>x</p>".data ++
          ("<h2>".data ++ (T.data ++ ("</h2>".data ++ "<p>y</p>".data)))).length + 1
        = ("<p>x</p>".data).length +
          ((("<h2>".data ++ (T.data ++ ("</h2>".data ++ "<p>y</p>".data)))).length + 1)
        from by
      simp only [List.length_append, List.length_cons, List.length_nil] <;> omega]
    rw [replaceScan_steps_front (headingAt 2) ("<p>x</p>".data)
        ("<h2>".data ++ (T.data ++ ("</h2>".data ++ "<p>y</p>".data)))
        (by
          intro i hi
          rw [show (("<p>x</p>".data)).length = 8 from rfl] at hi
          interval_cases i <;> rfl)]
    rw [show ("<h2>".data ++ (T.data ++ ("</h2>".data ++ "<p>y</p>".data)))
        = '<' :: ('h' :: '2' :: '>' :: (T.data ++ ("</h2>".data ++ "<p>y</p>".data)))
        from rfl]
    rw [replaceScan_step_some (headingAt 2)
        ('<' :: 'h' :: '2' :: '>' :: (T.data ++ ("</h2>".data ++ "<p>y</p>".data))).length
        '<' ('h' :: '2' :: '>' :: (T.data ++ ("</h2>".data ++ "<p>y</p>".data)))
        (("\n\n" ++ (⟨List.replicate 2 '#'⟩ : String) ++ " " ++ T ++ "\n\n").data)
        ("<p>y</p>".data)
        hmatch]
    rw [replaceScan_id_of_none (headingAt 2) ("<p>y</p>".data) _
        (suffixes_none_concrete _ _
          (by
            intro i hi
            rw [show (("<p>y</p>".data)).length = 8 from rfl] at hi
            interval_cases i <;> rfl)
          rfl)]
  have hbridge : "<p>x</p>".data ++ ((("\n\n" ++ (⟨List.replicate 2 '#'⟩ : String) ++ " " ++ T ++ "\n\n").data) ++ "<p>y</p>".data)
      = "<p>x</p>".data ++ (['\n', '\n', '#', '#', ' '] ++ (T.data ++ (['\n', '\n'] ++ "<p>y</p>".data))) := by
    simp [String.data_append, List.append_assoc]
  have hg1 := hid1 (headingAt 1) (fun c r hc => headingAt_head 1 c r hc)
    (by intro i hi; interval_cases i <;> rfl)
    (by intro i hi; interval_cases i <;> rfl) rfl
  have hp : runStage paragraphAt ("<p>x</p>".data ++ (['\n', '\n', '#', '#', ' '] ++ (T.data ++ (['\n', '\n'] ++ "<p>y</p>".data))))
      = "\n\nx\n\n".data ++ (['\n', '\n', '#', '#', ' '] ++ (T.data ++ (['\n', '\n'] ++ "\n\ny\n\n".data))) := by
    unfold runStage
    rw [show ("<p>x</p>".data ++ (['\n', '\n', '#', '#', ' '] ++ (T.data ++ (['\n', '\n'] ++ "<p>y</p>".data))))
        = '<' :: ('p' :: '>' :: 'x' :: '<' :: '/' :: 'p' :: '>' ::
            (['\n', '\n', '#', '#', ' '] ++ (T.data ++ (['\n', '\n'] ++ "<p>y</p>".data))))
        from by simp [String.data_append, List.append_assoc]]
    have hpm1 : paragraphAt ('<' :: ('p' :: '>' :: 'x' :: '<' :: '/' :: 'p' :: '>' ::
            (['\n', '\n', '#', '#', ' '] ++ (T.data ++ (['\n', '\n'] ++ "<p>y</p>".data)))))
        = some ("\n\nx\n\n".data,
            ['\n', '\n', '#', '#', ' '] ++ (T.data ++ (['\n', '\n'] ++ "<p>y</p>".data))) := by rfl
    rw [replaceScan_step_some paragraphAt
        ('<' :: 'p' :: '>' :: 'x' :: '<' :: '/' :: 'p' :: '>' ::
            (['\n', '\n', '#', '#', ' '] ++ (T.data ++ (['\n', '\n'] ++ "<p>y</p>".data)))).length
        '<' ('p' :: '>' :: 'x' :: '<' :: '/' :: 'p' :: '>' ::
            (['\n', '\n', '#', '#', ' '] ++ (T.data ++ (['\n', '\n'] ++ "<p>y</p>".data))))
        ("\n\nx\n\n".data)
        (['\n', '\n', '#', '#', ' '] ++ (T.data ++ (['\n', '\n'] ++ "<p>y</p>".data)))
        hpm1]
    rw [show ('<' :: 'p' :: '>' :: 'x' :: '<' :: '/' :: 'p' :: '>' ::
            (['\n', '\n', '#', '#', ' '] ++ (T.data ++ (['\n', '\n'] ++ "<p>y</p>".data)))).length
        = (['\n', '\n', '#', '#', ' '] : List Char).length + (T.data.length + 18)
        from by
      simp only [List.length_append, List.length_cons, List.length_nil] <;> omega]
    rw [replaceScan_steps_front paragraphAt ['\n', '\n', '#', '#', ' ']
        (T.data ++ (['\n', '\n'] ++ "<p>y</p>".data))
        (by
          intro i hi
          simp only [List.length_cons, List.length_nil] at hi
          interval_cases i <;> rfl)
        (T.data.length + 18)]
    rw [replaceScan_skip_trigfree paragraphAt '<' (fun c r hc => paragraphAt_head c r hc)
        T.data hTlt (['\n', '\n'] ++ "<p>y</p>".data) 18]
    rw [show (18 : Nat) = (['\n', '\n'] : List Char).length + 16 from rfl]
    rw [replaceScan_steps_front paragraphAt ['\n', '\n'] ("<p>y</p>".data)
        (by
          intro i hi
          simp only [List.length_cons, List.length_nil] at hi
          interval_cases i <;> rfl)
        16]
    rw [show ("<p>y</p>".data : List Char)
        = '<' :: ('p' :: '>' :: 'y' :: '<' :: '/' :: 'p' :: '>' :: []) from rfl]
    rw [show (16 : Nat) = 15 + 1 from rfl]
    have hpm2 : paragraphAt ('<' :: ('p' :: '>' :: 'y' :: '<' :: '/' :: 'p' :: '>' :: []))
        = some ("\n\ny\n\n".data, []) := by rfl
    rw [replaceScan_step_some paragraphAt 15
        '<' ('p' :: '>' :: 'y' :: '<' :: '/' :: 'p' :: '>' :: []) ("\n\ny\n\n".data) [] hpm2]
    rw [replaceScan_nil]
    simp
  have hli := hid2 listItemAt (fun c r hc => listItemAt_head c r hc) rfl
  have hbr := hid2 brAt (fun c r hc => brAt_head c r hc) rfl
  have hcs := hid2 codeSpanAt (fun c r hc => codeSpanAt_head c r hc) rfl
  have han := hid2 anchorAt (fun c r hc => anchorAt_head c r hc) rfl
  have hmem : ∀ c ∈ ("\n\nx\n\n".data ++ (['\n', '\n', '#', '#', ' '] ++ (T.data ++ (['\n', '\n'] ++ "\n\ny\n\n".data)))), c ≠ '<' := by
    intro c hc
    simp only [List.mem_append, List.mem_cons, List.not_mem_nil, or_false] at hc
    casesm* _ ∨ _
    all_goals first
      | exact (hTc c (by assumption)).1
      | (rename_i hx; subst hx; decide)
  have hamp : ∀ c ∈ ("\n\nx\n\n".data ++ (['\n', '\n', '#', '#', ' '] ++ (T.data ++ (['\n', '\n'] ++ "\n\ny\n\n".data)))), c ≠ '&' := by
    intro c hc
    simp only [List.mem_append, List.mem_cons, List.not_mem_nil, or_false] at hc
    casesm* _ ∨ _
    all_goals first
      | exact (hTc c (by assumption)).2.1
      | (rename_i hx; subst hx; decide)
  have hstrip := stripTagsPlusScan_id ("\n\nx\n\n".data ++ (['\n', '\n', '#', '#', ' '] ++ (T.data ++ (['\n', '\n'] ++ "\n\ny\n\n".data)))) (("\n\nx\n\n".data ++ (['\n', '\n', '#', '#', ' '] ++ (T.data ++ (['\n', '\n'] ++ "\n\ny\n\n".data)))).length + 1) hmem
  have hdec := decode_plain ("\n\nx\n\n".data ++ (['\n', '\n', '#', '#', ' '] ++ (T.data ++ (['\n', '\n'] ++ "\n\ny\n\n".data)))) hamp
  have hcol : collapseNewlines
      ((("\n\nx\n\n".data ++ (['\n', '\n', '#', '#', ' '] ++ (T.data ++ (['\n', '\n'] ++ "\n\ny\n\n".data))))).length + 1)
      ("\n\nx\n\n".data ++ (['\n', '\n', '#', '#', ' '] ++ (T.data ++ (['\n', '\n'] ++ "\n\ny\n\n".data))))
      = '\n' :: '\n' :: 'x' :: '\n' :: '\n' :: (('#' :: '#' :: ' ' :: T.data) ++ ('\n' :: '\n' :: 'y' :: '\n' :: '\n' :: [])) := by
    rw [show ("\n\nx\n\n".data ++ (['\n', '\n', '#', '#', ' '] ++ (T.data ++ (['\n', '\n'] ++ "\n\ny\n\n".data))))
        = '\n' :: '\n' :: 'x' :: '\n' :: '\n' :: '\n' :: '\n' :: (('#' :: '#' :: ' ' :: T.data) ++ ('\n' :: '\n' :: '\n' :: '\n' :: 'y' :: '\n' :: '\n' :: []))
        from by simp [List.append_assoc]]
    rw [show ('\n' :: '\n' :: 'x' :: '\n' :: '\n' :: '\n' :: '\n' :: (('#' :: '#' :: ' ' :: T.data) ++ ('\n' :: '\n' :: '\n' :: '\n' :: 'y' :: '\n' :: '\n' :: []))).length + 1
        = ((T.data.length + (2 + 12)) + 1) + 3
        from by
      simp only [List.length_append, List.length_cons, List.length_nil] <;> omega]
    rw [collapse_lead ((T.data.length + (2 + 12)) + 1) _]
    rw [collapse_quad (T.data.length + (2 + 12)) _ (by
      cases hd : T.data with
      | nil => simp [List.takeWhile_cons]
      | cons c cs =>
          have hc : c ≠ '\n' := (hTc c (hd ▸ List.mem_cons_self c cs)).2.2
          simp [List.takeWhile_cons, hc])]
    rw [show T.data.length + (2 + 12)
        = ('#' :: '#' :: ' ' :: T.data).length + 11 from by
      simp only [List.length_append, List.length_cons, List.length_nil] <;> omega]
    rw [collapse_skip ('#' :: '#' :: ' ' :: T.data) (by
        intro c hc
        simp only [List.mem_cons] at hc
        casesm* _ ∨ _
        all_goals first
          | exact (hTc c (by assumption)).2.2
          | (rename_i hx; subst hx; decide)) 11
        ('\n' :: '\n' :: '\n' :: '\n' :: 'y' :: '\n' :: '\n' :: [])]
    rw [show (11 : Nat) = 10 + 1 from rfl]
    rw [collapse_quad 10 _ (by decide)]
    rw [show (10 : Nat) = 7 + 3 from rfl]
    rw [collapse_tail3 7]
  have htrim : jsTrim ⟨'\n' :: '\n' :: 'x' :: '\n' :: '\n' :: (('#' :: '#' :: ' ' :: T.data) ++ ('\n' :: '\n' :: 'y' :: '\n' :: '\n' :: []))⟩
      = "x\n\n" ++ (⟨List.replicate 2 '#'⟩ : String) ++ " " ++ T ++ "\n\ny" := by
    show (⟨jsTrimList ('\n' :: '\n' :: 'x' :: '\n' :: '\n' :: (('#' :: '#' :: ' ' :: T.data) ++ ('\n' :: '\n' :: 'y' :: '\n' :: '\n' :: [])))⟩ : String)
      = "x\n\n" ++ (⟨List.replicate 2 '#'⟩ : String) ++ " " ++ T ++ "\n\ny"
    have hlist : jsTrimList ('\n' :: '\n' :: 'x' :: '\n' :: '\n' :: (('#' :: '#' :: ' ' :: T.data) ++ ('\n' :: '\n' :: 'y' :: '\n' :: '\n' :: [])))
        = ("x\n\n" ++ (⟨List.replicate 2 '#'⟩ : String) ++ " " ++ T ++ "\n\ny").data := by
      unfold jsTrimList
      rw [show (('\n' :: '\n' :: 'x' :: '\n' :: '\n' :: (('#' :: '#' :: ' ' :: T.data) ++ ('\n' :: '\n' :: 'y' :: '\n' :: '\n' :: []))).dropWhile isJsWs)
          = 'x' :: '\n' :: '\n' :: (('#' :: '#' :: ' ' :: T.data) ++
              ('\n' :: '\n' :: 'y' :: '\n' :: '\n' :: [])) from by
        simp [List.dropWhile_cons, (by decide : isJsWs '\n' = true),
          (by decide : isJsWs 'x' = false)]]
      rw [show ('x' :: '\n' :: '\n' :: (('#' :: '#' :: ' ' :: T.data) ++
            ('\n' :: '\n' :: 'y' :: '\n' :: '\n' :: []))).reverse
          = '\n' :: '\n' :: 'y' :: '\n' :: '\n' ::
            (T.data.reverse ++ [' ', '#', '#', '\n', '\n', 'x']) from by
        simp [List.reverse_append, List.append_assoc]]
      rw [show (('\n' :: '\n' :: 'y' :: '\n' :: '\n' ::
            (T.data.reverse ++ [' ', '#', '#', '\n', '\n', 'x'])).dropWhile isJsWs)
          = 'y' :: '\n' :: '\n' ::
            (T.data.reverse ++ [' ', '#', '#', '\n', '\n', 'x']) from by
        simp [List.dropWhile_cons, (by decide : isJsWs '\n' = true),
          (by decide : isJsWs 'y' = false)]]
      rw [show ('y' :: '\n' :: '\n' ::
            (T.data.reverse ++ [' ', '#', '#', '\n', '\n', 'x'])).reverse
          = 'x' :: '\n' :: '\n' :: '#' :: '#' :: ' ' ::
            (T.data ++ ['\n', '\n', 'y']) from by
        simp [List.reverse_append, List.append_assoc]]
      simp [String.data_append, List.append_assoc]
    rw [hlist]
  simp only [htmlToMarkdown]
  rw [hdoc, hs1, hs2, hs3, hs4]
  rw [hh6]
  rw [hh5]
  rw [hh4]
  rw [hh3]
  rw [hhN, hbridge]
  rw [hg1]
  rw [hp, hli, hbr, hcs, han, hstrip, hdec]
  rw [show ((⟨"\n\nx\n\n".data ++ (['\n', '\n', '#', '#', ' '] ++ (T.data ++ (['\n', '\n'] ++ "\n\ny\n\n".data)))⟩ : String)).data
      = "\n\nx\n\n".data ++ (['\n', '\n', '#', '#', ' '] ++ (T.data ++ (['\n', '\n'] ++ "\n\ny\n\n".data))) from rfl]
  rw [hcol]
  exact htrim

set_option maxHeartbeats 1000000 in
theorem htmlToMarkdown_h3 (T : String) (hT0 : T.data ≠ [])
    (hTc : ∀ c ∈ T.data, c ≠ '<' ∧ c ≠ '&' ∧ c ≠ '\n') :
    htmlToMarkdown ("<p>x</p><h" ++ toString (3 : Nat) ++ ">" ++ T ++ "</h" ++
        toString (3 : Nat) ++ "><p>y</p>")
      = "x\n\n" ++ (⟨List.replicate 3 '#'⟩ : String) ++ " " ++ T ++ "\n\ny" := by
  have hTlt : ∀ c ∈ T.data, c ≠ '<' := fun c hc => (hTc c hc).1
  have hTne : T ≠ "" := fun e => hT0 (congrArg String.data e)
  have hdoc : ("<p>x</p><h" ++ toString (3 : Nat) ++ ">" ++ T ++ "</h" ++
      toString (3 : Nat) ++ "><p>y</p>").data
      = "<p>x</p><h3>".data ++ (T.data ++ "</h3><p>y</p>".data) := by
    rw [show toString (3 : Nat) = "3" from rfl]
    simp [String.data_append, List.append_assoc]
  have hid0 : ∀ (m : List Char → Option (List Char × List Char)),
      (∀ c r, c ≠ '<' → m (c :: r) = none) →
      (∀ i, i < 12 → m (("<p>x</p><h3>".data).drop i ++
        (T.data ++ "</h3><p>y</p>".data)) = none) →
      (∀ i, i < 13 → m (("</h3><p>y</p>".data).drop i) = none) →
      m [] = none →
      runStage m ("<p>x</p><h3>".data ++ (T.data ++ "</h3><p>y</p>".data))
        = "<p>x</p><h3>".data ++ (T.data ++ "</h3><p>y</p>".data) := by
    intro m hhead h0 h1 hnil
    apply replaceScan_id_of_none
    apply suffixes_none_append
    · intro i hi
      exact h0 i (by rw [show ("<p>x</p><h3>".data).length = 12 from rfl] at hi; exact hi)
    · apply suffixes_none_trigfree m '<' hhead T.data hTlt
      apply suffixes_none_concrete m _ _ hnil
      intro i hi
      exact h1 i (by rw [show ("</h3><p>y</p>".data).length = 13 from rfl] at hi; exact hi)
  have hid1 : ∀ (m : List Char → Option (List Char × List Char)),
      (∀ c r, c ≠ '<' → m (c :: r) = none) →
      (∀ i, i < 8 → m (("<p>x</p>".data).drop i ++
        (['\n', '\n', '#', '#', '#', ' '] ++ (T.data ++ (['\n', '\n'] ++ "<p>y</p>".data)))) = none) →
      (∀ i, i < 8 → m (("<p>y</p>".data).drop i) = none) →
      m [] = none →
      runStage m ("<p>x</p>".data ++ (['\n', '\n', '#', '#', '#', ' '] ++ (T.data ++ (['\n', '\n'] ++ "<p>y</p>".data))))
        = "<p>x</p>".data ++ (['\n', '\n', '#', '#', '#', ' '] ++ (T.data ++ (['\n', '\n'] ++ "<p>y</p>".data))) := by
    intro m hhead h0 h1 hnil
    apply replaceScan_id_of_none
    apply suffixes_none_append
    · intro i hi
      exact h0 i (by rw [show ("<p>x</p>".data).length = 8 from rfl] at hi; exact hi)
    · apply suffixes_none_trigfree m '<' hhead ['\n', '\n', '#', '#', '#', ' '] (by decide)
      apply suffixes_none_trigfree m '<' hhead T.data hTlt
      apply suffixes_none_trigfree m '<' hhead ['\n', '\n'] (by decide)
      apply suffixes_none_concrete m _ _ hnil
      intro i hi
      exact h1 i (by rw [show ("<p>y</p>".data).length = 8 from rfl] at hi; exact hi)
  have hid2 : ∀ (m : List Char → Option (List Char × List Char)),
      (∀ c r, c ≠ '<' → m (c :: r) = none) →
      m [] = none →
      runStage m ("\n\nx\n\n".data ++ (['\n', '\n', '#', '#', '#', ' '] ++ (T.data ++ (['\n', '\n'] ++ "\n\ny\n\n".data))))
        = "\n\nx\n\n".data ++ (['\n', '\n', '#', '#', '#', ' '] ++ (T.data ++ (['\n', '\n'] ++ "\n\ny\n\n".data))) := by
    intro m hhead hnil
    apply replaceScan_id_of_none
    apply suffixes_none_trigfree m '<' hhead "\n\nx\n\n".data (by decide)
    apply suffixes_none_trigfree m '<' hhead ['\n', '\n', '#', '#', '#', ' '] (by decide)
    apply suffixes_none_trigfree m '<' hhead T.data hTlt
    apply suffixes_none_trigfree m '<' hhead ['\n', '\n'] (by decide)
    exact suffixes_none_all m '<' hhead "\n\ny\n\n".data (by decide) hnil
  have hs1 := hid0 (removeDelimitedCI "<script".data "</script>".data)
    (fun c r hc => removeDelimitedCI_head "script".data "</script>".data c r hc)
    (by intro i hi; interval_cases i <;> rfl)
    (by intro i hi; interval_cases i <;> rfl) rfl
  have hs2 := hid0 (removeDelimitedCI "<style".data "</style>".data)
    (fun c r hc => removeDelimitedCI_head "style".data "</style>".data c r hc)
    (by intro i hi; interval_cases i <;> rfl)
    (by intro i hi; interval_cases i <;> rfl) rfl
  have hs3 := hid0 (removeDelimitedCS "<!--".data "-->".data)
    (fun c r hc => removeDelimitedCS_head "!--".data "-->".data c r hc)
    (by intro i hi; interval_cases i <;> rfl)
    (by intro i hi; interval_cases i <;> rfl) rfl
  have hs4 := hid0 preCodeAt (fun c r hc => preCodeAt_head c r hc)
    (by intro i hi; interval_cases i <;> rfl)
    (by intro i hi; interval_cases i <;> rfl) rfl
  have hh6 := hid0 (headingAt 6) (fun c r hc => headingAt_head 6 c r hc)
    (by intro i hi; interval_cases i <;> rfl)
    (by intro i hi; interval_cases i <;> rfl) rfl
  have hh5 := hid0 (headingAt 5) (fun c r hc => headingAt_head 5 c r hc)
    (by intro i hi; interval_cases i <;> rfl)
    (by intro i hi; interval_cases i <;> rfl) rfl
  have hh4 := hid0 (headingAt 4) (fun c r hc => headingAt_head 4 c r hc)
    (by intro i hi; interval_cases i <;> rfl)
    (by intro i hi; interval_cases i <;> rfl) rfl
  have hmatch : headingAt 3 ('<' :: 'h' :: '3' :: '>' ::
      (T.data ++ ("</h3>".data ++ "<p>y</p>".data)))
      = some (("\n\n" ++ (⟨List.replicate 3 '#'⟩ : String) ++ " " ++ T ++ "\n\n").data,
          "<p>y</p>".data) := by
    have hsplit := lSplitFirstCI_boundary_lt ['/', 'h', '3', '>'] T.data "<p>y</p>".data hTlt
    rw [List.append_assoc] at hsplit
    simp only [headingAt]
    rw [show tagOpenAt ['<', 'h', Char.ofNat (48 + 3)]
        ('<' :: 'h' :: '3' :: '>' :: (T.data ++ ("</h3>".data ++ "<p>y</p>".data)))
        = some (T.data ++ ("</h3>".data ++ "<p>y</p>".data)) from rfl]
    rw [show ('<' :: '/' :: 'h' :: Char.ofNat (48 + 3) :: '>' :: [] : List Char)
        = ('<' :: ['/', 'h', '3', '>'] : List Char) from rfl]
    rw [show (T.data ++ ("</h3>".data ++ "<p>y</p>".data))
        = T.data ++ (('<' :: ['/', 'h', '3', '>'] : List Char) ++ "<p>y</p>".data) from rfl]
    have heta : ((⟨T.data⟩ : String)) = T := rfl
    have hstp := stripTags_plain T.data hTlt (fun c hc => (hTc c hc).2.1)
    simp only [hsplit, hstp, heta, ne_eq, hTne, not_false_eq_true, if_true]
  have hhN : runStage (headingAt 3) ("<p>x</p><h3>".data ++ (T.data ++ "</h3><p>y</p>".data))
      = "<p>x</p>".data ++ ((("\n\n" ++ (⟨List.replicate 3 '#'⟩ : String) ++ " " ++ T ++ "\n\n").data) ++ "<p>y</p>".data) := by
    unfold runStage
    rw [show ("<p>x</p><h3>".data ++ (T.data ++ "</h3><p>y</p>".data))
        = "<p>x</p>".data ++ ("<h3>".data ++ (T.data ++ ("</h3>".data ++ "<p>y</p>".data)))
        from rfl]
    rw [show ("<p>x</p>".data ++
          ("<h3>".data ++ (T.data ++ ("</h3>".data ++ "<p>y</p>".data)))).length + 1
        = ("<p>x</p>".data).length +
          ((("<h3>".data ++ (T.data ++ ("</h3>".data ++ "<p>y</p>".data)))).length + 1)
        from by
      simp only [List.length_append, List.length_cons, List.length_nil] <;> omega]
    rw [replaceScan_steps_front (headingAt 3) ("<p>x</p>".data)
        ("<h3>".data ++ (T.data ++ ("</h3>".data ++ "<p>y</p>".data)))
        (by
          intro i hi
          rw [show (("<p>x</p>".data)).length = 8 from rfl] at hi
          interval_cases i <;> rfl)]
    rw [show ("<h3>".data ++ (T.data ++ ("</h3>".data ++ "<p>y</p>".data)))
        = '<' :: ('h' :: '3' :: '>' :: (T.data ++ ("</h3>".data ++ "<p>y</p>".data)))
        from rfl]
    rw [replaceScan_step_some (headingAt 3)
        ('<' :: 'h' :: '3' :: '>' :: (T.data ++ ("</h3>".data ++ "<p>y</p>".data))).length
        '<' ('h' :: '3' :: '>' :: (T.data ++ ("</h3>".data ++ "<p>y</p>".data)))
        (("\n\n" ++ (⟨List.replicate 3 '#'⟩ : String) ++ " " ++ T ++ "\n\n").data)
        ("<p>y</p>".data)
        hmatch]
    rw [replaceScan_id_of_none (headingAt 3) ("<p>y</p>".data) _
        (suffixes_none_concrete _ _
          (by
            intro i hi
            rw [show (("<p>y</p>".data)).length = 8 from rfl] at hi
            interval_cases i <;> rfl)
          rfl)]
  have hbridge : "<p>x</p>".data ++ ((("\n\n" ++ (⟨List.replicate 3 '#'⟩ : String) ++ " " ++ T ++ "\n\n").data) ++ "<p>y</p>".data)
      = "<p>x</p>".data ++ (['\n', '\n', '#', '#', '#', ' '] ++ (T.data ++ (['\n', '\n'] ++ "<p>y</p>".data))) := by
    simp [String.data_append, List.append_assoc]
  have hg2 := hid1 (headingAt 2) (fun c r hc => headingAt_head 2 c r hc)
    (by intro i hi; interval_cases i <;> rfl)
    (by intro i hi; interval_cases i <;> rfl) rfl
  have hg1 := hid1 (headingAt 1) (fun c r hc => headingAt_head 1 c r hc)
    (by intro i hi; interval_cases i <;> rfl)
    (by intro i hi; interval_cases i <;> rfl) rfl
  have hp : runStage paragraphAt ("<p>x</p>".data ++ (['\n', '\n', '#', '#', '#', ' '] ++ (T.data ++ (['\n', '\n'] ++ "<p>y</p>".data))))
      = "\n\nx\n\n".data ++ (['\n', '\n', '#', '#', '#', ' '] ++ (T.data ++ (['\n', '\n'] ++ "\n\ny\n\n".data))) := by
    unfold runStage
    rw [show ("<p>x</p>".data ++ (['\n', '\n', '#', '#', '#', ' '] ++ (T.data ++ (['\n', '\n'] ++ "<p>y</p>".data))))
        = '<' :: ('p' :: '>' :: 'x' :: '<' :: '/' :: 'p' :: '>' ::
            (['\n', '\n', '#', '#', '#', ' '] ++ (T.data ++ (['\n', '\n'] ++ "<p>y</p>".data))))
        from by simp [String.data_append, List.append_assoc]]
    have hpm1 : paragraphAt ('<' :: ('p' :: '>' :: 'x' :: '<' :: '/' :: 'p' :: '>' ::
            (['\n', '\n', '#', '#', '#', ' '] ++ (T.data ++ (['\n', '\n'] ++ "<p>y</p>".data)))))
        = some ("\n\nx\n\n".data,
            ['\n', '\n', '#', '#', '#', ' '] ++ (T.data ++ (['\n', '\n'] ++ "<p>y</p>".data))) := by rfl
    rw [replaceScan_step_some paragraphAt
        ('<' :: 'p' :: '>' :: 'x' :: '<' :: '/' :: 'p' :: '>' ::
            (['\n', '\n', '#', '#', '#', ' '] ++ (T.data ++ (['\n', '\n'] ++ "<p>y</p>".data)))).length
        '<' ('p' :: '>' :: 'x' :: '<' :: '/' :: 'p' :: '>' ::
            (['\n', '\n', '#', '#', '#', ' '] ++ (T.data ++ (['\n', '\n'] ++ "<p>y</p>".data))))
        ("\n\nx\n\n".data)
        (['\n', '\n', '#', '#', '#', ' '] ++ (T.data ++ (['\n', '\n'] ++ "<p>y</p>".data)))
        hpm1]
    rw [show ('<' :: 'p' :: '>' :: 'x' :: '<' :: '/' :: 'p' :: '>' ::
            (['\n', '\n', '#', '#', '#', ' '] ++ (T.data ++ (['\n', '\n'] ++ "<p>y</p>".data)))).length
        = (['\n', '\n', '#', '#', '#', ' '] : List Char).length + (T.data.length + 18)
        from by
      simp only [List.length_append, List.length_cons, List.length_nil] <;> omega]
    rw [replaceScan_steps_front paragraphAt ['\n', '\n', '#', '#', '#', ' ']
        (T.data ++ (['\n', '\n'] ++ "<p>y</p>".data))
        (by
          intro i hi
          simp only [List.length_cons, List.length_nil] at hi
          interval_cases i <;> rfl)
        (T.data.length + 18)]
    rw [replaceScan_skip_trigfree paragraphAt '<' (fun c r hc => paragraphAt_head c r hc)
        T.data hTlt (['\n', '\n'] ++ "<p>y</p>".data) 18]
    rw [show (18 : Nat) = (['\n', '\n'] : List Char).length + 16 from rfl]
    rw [replaceScan_steps_front paragraphAt ['\n', '\n'] ("<p>y</p>".data)
        (by
          intro i hi
          simp only [List.length_cons, List.length_nil] at hi
          interval_cases i <;> rfl)
        16]
    rw [show ("<p>y</p>".data : List Char)
        = '<' :: ('p' :: '>' :: 'y' :: '<' :: '/' :: 'p' :: '>' :: []) from rfl]
    rw [show (16 : Nat) = 15 + 1 from rfl]
    have hpm2 : paragraphAt ('<' :: ('p' :: '>' :: 'y' :: '<' :: '/' :: 'p' :: '>' :: []))
        = some ("\n\ny\n\n".data, []) := by rfl
    rw [replaceScan_step_some paragraphAt 15
        '<' ('p' :: '>' :: 'y' :: '<' :: '/' :: 'p' :: '>' :: []) ("\n\ny\n\n".data) [] hpm2]
    rw [replaceScan_nil]
    simp
  have hli := hid2 listItemAt (fun c r hc => listItemAt_head c r hc) rfl
  have hbr := hid2 brAt (fun c r hc => brAt_head c r hc) rfl
  have hcs := hid2 codeSpanAt (fun c r hc => codeSpanAt_head c r hc) rfl
  have han := hid2 anchorAt (fun c r hc => anchorAt_head c r hc) rfl
  have hmem : ∀ c ∈ ("\n\nx\n\n".data ++ (['\n', '\n', '#', '#', '#', ' '] ++ (T.data ++ (['\n', '\n'] ++ "\n\ny\n\n".data)))), c ≠ '<' := by
    intro c hc
    simp only [List.mem_append, List.mem_cons, List.not_mem_nil, or_false] at hc
    casesm* _ ∨ _
    all_goals first
      | exact (hTc c (by assumption)).1
      | (rename_i hx; subst hx; decide)
  have hamp : ∀ c ∈ ("\n\nx\n\n".data ++ (['\n', '\n', '#', '#', '#', ' '] ++ (T.data ++ (['\n', '\n'] ++ "\n\ny\n\n".data)))), c ≠ '&' := by
    intro c hc
    simp only [List.mem_append, List.mem_cons, List.not_mem_nil, or_false] at hc
    casesm* _ ∨ _
    all_goals first
      | exact (hTc c (by assumption)).2.1
      | (rename_i hx; subst hx; decide)
  have hstrip := stripTagsPlusScan_id ("\n\nx\n\n".data ++ (['\n', '\n', '#', '#', '#', ' '] ++ (T.data ++ (['\n', '\n'] ++ "\n\ny\n\n".data)))) (("\n\nx\n\n".data ++ (['\n', '\n', '#', '#', '#', ' '] ++ (T.data ++ (['\n', '\n'] ++ "\n\ny\n\n".data)))).length + 1) hmem
  have hdec := decode_plain ("\n\nx\n\n".data ++ (['\n', '\n', '#', '#', '#', ' '] ++ (T.data ++ (['\n', '\n'] ++ "\n\ny\n\n".data)))) hamp
  have hcol : collapseNewlines
      ((("\n\nx\n\n".data ++ (['\n', '\n', '#', '#', '#', ' '] ++ (T.data ++ (['\n', '\n'] ++ "\n\ny\n\n".data))))).length + 1)
      ("\n\nx\n\n".data ++ (['\n', '\n', '#', '#', '#', ' '] ++ (T.data ++ (['\n', '\n'] ++ "\n\ny\n\n".data))))
      = '\n' :: '\n' :: 'x' :: '\n' :: '\n' :: (('#' :: '#' :: '#' :: ' ' :: T.data) ++ ('\n' :: '\n' :: 'y' :: '\n' :: '\n' :: [])) := by
    rw [show ("\n\nx\n\n".data ++ (['\n', '\n', '#', '#', '#', ' '] ++ (T.data ++ (['\n', '\n'] ++ "\n\ny\n\n".data))))
        = '\n' :: '\n' :: 'x' :: '\n' :: '\n' :: '\n' :: '\n' :: (('#' :: '#' :: '#' :: ' ' :: T.data) ++ ('\n' :: '\n' :: '\n' :: '\n' :: 'y' :: '\n' :: '\n' :: []))
        from by simp [List.append_assoc]]
    rw [show ('\n' :: '\n' :: 'x' :: '\n' :: '\n' :: '\n' :: '\n' :: (('#' :: '#' :: '#' :: ' ' :: T.data) ++ ('\n' :: '\n' :: '\n' :: '\n' :: 'y' :: '\n' :: '\n' :: []))).length + 1
        = ((T.data.length + (3 + 12)) + 1) + 3
        from by
      simp only [List.length_append, List.length_cons, List.length_nil] <;> omega]
    rw [collapse_lead ((T.data.length + (3 + 12)) + 1) _]
    rw [collapse_quad (T.data.length + (3 + 12)) _ (by
      cases hd : T.data with
      | nil => simp [List.takeWhile_cons]
      | cons c cs =>
          have hc : c ≠ '\n' := (hTc c (hd ▸ List.mem_cons_self c cs)).2.2
          simp [List.takeWhile_cons, hc])]
    rw [show T.data.length + (3 + 12)
        = ('#' :: '#' :: '#' :: ' ' :: T.data).length + 11 from by
      simp only [List.length_append, List.length_cons, List.length_nil] <;> omega]
    rw [collapse_skip ('#' :: '#' :: '#' :: ' ' :: T.data) (by
        intro c hc
        simp only [List.mem_cons] at hc
        casesm* _ ∨ _
        all_goals first
          | exact (hTc c (by assumption)).2.2
          | (rename_i hx; subst hx; decide)) 11
        ('\n' :: '\n' :: '\n' :: '\n' :: 'y' :: '\n' :: '\n' :: [])]
    rw [show (11 : Nat) = 10 + 1 from rfl]
    rw [collapse_quad 10 _ (by decide)]
    rw [show (10 : Nat) = 7 + 3 from rfl]
    rw [collapse_tail3 7]
  have htrim : jsTrim ⟨'\n' :: '\n' :: 'x' :: '\n' :: '\n' :: (('#' :: '#' :: '#' :: ' ' :: T.data) ++ ('\n' :: '\n' :: 'y' :: '\n' :: '\n' :: []))⟩
      = "x\n\n" ++ (⟨List.replicate 3 '#'⟩ : String) ++ " " ++ T ++ "\n\ny" := by
    show (⟨jsTrimList ('\n' :: '\n' :: 'x' :: '\n' :: '\n' :: (('#' :: '#' :: '#' :: ' ' :: T.data) ++ ('\n' :: '\n' :: 'y' :: '\n' :: '\n' :: [])))⟩ : String)
      = "x\n\n" ++ (⟨List.replicate 3 '#'⟩ : String) ++ " " ++ T ++ "\n\ny"
    have hlist : jsTrimList ('\n' :: '\n' :: 'x' :: '\n' :: '\n' :: (('#' :: '#' :: '#' :: ' ' :: T.data) ++ ('\n' :: '\n' :: 'y' :: '\n' :: '\n' :: [])))
        = ("x\n\n" ++ (⟨List.replicate 3 '#'⟩ : String) ++ " " ++ T ++ "\n\ny").data := by
      unfold jsTrimList
      rw [show (('\n' :: '\n' :: 'x' :: '\n' :: '\n' :: (('#' :: '#' :: '#' :: ' ' :: T.data) ++ ('\n' :: '\n' :: 'y' :: '\n' :: '\n' :: []))).dropWhile isJsWs)
          = 'x' :: '\n' :: '\n' :: (('#' :: '#' :: '#' :: ' ' :: T.data) ++
              ('\n' :: '\n' :: 'y' :: '\n' :: '\n' :: [])) from by
        simp [List.dropWhile_cons, (by decide : isJsWs '\n' = true),
          (by decide : isJsWs 'x' = false)]]
      rw [show ('x' :: '\n' :: '\n' :: (('#' :: '#' :: '#' :: ' ' :: T.data) ++
            ('\n' :: '\n' :: 'y' :: '\n' :: '\n' :: []))).reverse
          = '\n' :: '\n' :: 'y' :: '\n' :: '\n' ::
            (T.data.reverse ++ [' ', '#', '#', '#', '\n', '\n', 'x']) from by
        simp [List.reverse_append, List.append_assoc]]
      rw [show (('\n' :: '\n' :: 'y' :: '\n' :: '\n' ::
            (T.data.reverse ++ [' ', '#', '#', '#', '\n', '\n', 'x'])).dropWhile isJsWs)
          = 'y' :: '\n' :: '\n' ::
            (T.data.reverse ++ [' ', '#', '#', '#', '\n', '\n', 'x']) from by
        simp [List.dropWhile_cons, (by decide : isJsWs '\n' = true),
          (by decide : isJsWs 'y' = false)]]
      rw [show ('y' :: '\n' :: '\n' ::
            (T.data.reverse ++ [' ', '#', '#', '#', '\n', '\n', 'x'])).reverse
          = 'x' :: '\n' :: '\n' :: '#' :: '#' :: '#' :: ' ' ::
            (T.data ++ ['\n', '\n', 'y']) from by
        simp [List.reverse_append, List.append_assoc]]
      simp [String.data_append, List.append_assoc]
    rw [hlist]
  simp only [htmlToMarkdown]
  rw [hdoc, hs1, hs2, hs3, hs4]
  rw [hh6]
  rw [hh5]
  rw [hh4]
  rw [hhN, hbridge]
  rw [hg2]
  rw [hg1]
  rw [hp, hli, hbr, hcs, han, hstrip, hdec]
  rw [show ((⟨"\n\nx\n\n".data ++ (['\n', '\n', '#', '#', '#', ' '] ++ (T.data ++ (['\n', '\n'] ++ "\n\ny\n\n".data)))⟩ : String)).data
      = "\n\nx\n\n".data ++ (['\n', '\n', '#', '#', '#', ' '] ++ (T.data ++ (['\n', '\n'] ++ "\n\ny\n\n".data))) from rfl]
  rw [hcol]
  exact htrim

set_option maxHeartbeats 1000000 in
theorem htmlToMarkdown_h4 (T : String) (hT0 : T.data ≠ [])
    (hTc : ∀ c ∈ T.data, c ≠ '<' ∧ c ≠ '&' ∧ c ≠ '\n') :
    htmlToMarkdown ("<p>x</p><h" ++ toString (4 : Nat) ++ ">" ++ T ++ "</h" ++
        toString (4 : Nat) ++ "><p>y</p>")
      = "x\n\n" ++ (⟨List.replicate 4 '#'⟩ : String) ++ " " ++ T ++ "\n\ny" := by
  have hTlt : ∀ c ∈ T.data, c ≠ '<' := fun c hc => (hTc c hc).1
  have hTne : T ≠ "" := fun e => hT0 (congrArg String.data e)
  have hdoc : ("<p>x</p><h" ++ toString (4 : Nat) ++ ">" ++ T ++ "</h" ++
      toString (4 : Nat) ++ "><p>y</p>").data
      = "<p>x</p><h4>".data ++ (T.data ++ "</h4><p>y</p>".data) := by
    rw [show toString (4 : Nat) = "4" from rfl]
    simp [String.data_append, List.append_assoc]
  have hid0 : ∀ (m : List Char → Option (List Char × List Char)),
      (∀ c r, c ≠ '<' → m (c :: r) = none) →
      (∀ i, i < 12 → m (("<p>x</p><h4>".data).drop i ++
        (T.data ++ "</h4><p>y</p>".data)) = none) →
      (∀ i, i < 13 → m (("</h4><p>y</p>".data).drop i) = none) →
      m [] = none →
      runStage m ("<p>x</p><h4>".data ++ (T.data ++ "</h4><p>y</p>".data))
        = "<p>x</p><h4>".data ++ (T.data ++ "</h4><p>y</p>".data) := by
    intro m hhead h0 h1 hnil
    apply replaceScan_id_of_none
    apply suffixes_none_append
    · intro i hi
      exact h0 i (by rw [show ("<p>x</p><h4>".data).length = 12 from rfl] at hi; exact hi)
    · apply suffixes_none_trigfree m '<' hhead T.data hTlt
      apply suffixes_none_concrete m _ _ hnil
      intro i hi
      exact h1 i (by rw [show ("</h4><p>y</p>".data).length = 13 from rfl] at hi; exact hi)
  have hid1 : ∀ (m : List Char → Option (List Char × List Char)),
      (∀ c r, c ≠ '<' → m (c :: r) = none) →
      (∀ i, i < 8 → m (("<p>x</p>".data).drop i ++
        (['\n', '\n', '#', '#', '#', '#', ' '] ++ (T.data ++ (['\n', '\n'] ++ "<p>y</p>".data)))) = none) →
      (∀ i, i < 8 → m (("<p>y</p>".data).drop i) = none) →
      m [] = none →
      runStage m ("<p>x</p>".data ++ (['\n', '\n', '#', '#', '#', '#', ' '] ++ (T.data ++ (['\n', '\n'] ++ "<p>y</p>".data))))
        = "<p>x</p>".data ++ (['\n', '\n', '#', '#', '#', '#', ' '] ++ (T.data ++ (['\n', '\n'] ++ "<p>y</p>".data))) := by
    intro m hhead h0 h1 hnil
    apply replaceScan_id_of_none
    apply suffixes_none_append
    · intro i hi
      exact h0 i (by rw [show ("<p>x</p>".data).length = 8 from rfl] at hi; exact hi)
    · apply suffixes_none_trigfree m '<' hhead ['\n', '\n', '#', '#', '#', '#', ' '] (by decide)
      apply suffixes_none_trigfree m '<' hhead T.data hTlt
      apply suffixes_none_trigfree m '<' hhead ['\n', '\n'] (by decide)
      apply suffixes_none_concrete m _ _ hnil
      intro i hi
      exact h1 i (by rw [show ("<p>y</p>".data).length = 8 from rfl] at hi; exact hi)
  have hid2 : ∀ (m : List Char → Option (List Char × List Char)),
      (∀ c r, c ≠ '<' → m (c :: r) = none) →
      m [] = none →
      runStage m ("\n\nx\n\n".data ++ (['\n', '\n', '#', '#', '#', '#', ' '] ++ (T.data ++ (['\n', '\n'] ++ "\n\ny\n\n".data))))
        = "\n\nx\n\n".data ++ (['\n', '\n', '#', '#', '#', '#', ' '] ++ (T.data ++ (['\n', '\n'] ++ "\n\ny\n\n".data))) := by
    intro m hhead hnil
    apply replaceScan_id_of_none
    apply suffixes_none_trigfree m '<' hhead "\n\nx\n\n".data (by decide)
    apply suffixes_none_trigfree m '<' hhead ['\n', '\n', '#', '#', '#', '#', ' '] (by decide)
    apply suffixes_none_trigfree m '<' hhead T.data hTlt
    apply suffixes_none_trigfree m '<' hhead ['\n', '\n'] (by decide)
    exact suffixes_none_all m '<' hhead "\n\ny\n\n".data (by decide) hnil
  have hs1 := hid0 (removeDelimitedCI "<script".data "</script>".data)
    (fun c r hc => removeDelimitedCI_head "script".data "</script>".data c r hc)
    (by intro i hi; interval_cases i <;> rfl)
    (by intro i hi; interval_cases i <;> rfl) rfl
  have hs2 := hid0 (removeDelimitedCI "<style".data "</style>".data)
    (fun c r hc => removeDelimitedCI_head "style".data "</style>".data c r hc)
    (by intro i hi; interval_cases i <;> rfl)
    (by intro i hi; interval_cases i <;> rfl) rfl
  have hs3 := hid0 (removeDelimitedCS "<!--".data "-->".data)
    (fun c r hc => removeDelimitedCS_head "!--".data "-->".data c r hc)
    (by intro i hi; interval_cases i <;> rfl)
    (by intro i hi; interval_cases i <;> rfl) rfl
  have hs4 := hid0 preCodeAt (fun c r hc => preCodeAt_head c r hc)
    (by intro i hi; interval_cases i <;> rfl)
    (by intro i hi; interval_cases i <;> rfl) rfl
  have hh6 := hid0 (headingAt 6) (fun c r hc => headingAt_head 6 c r hc)
    (by intro i hi; interval_cases i <;> rfl)
    (by intro i hi; interval_cases i <;> rfl) rfl
  have hh5 := hid0 (headingAt 5) (fun c r hc => headingAt_head 5 c r hc)
    (by intro i hi; interval_cases i <;> rfl)
    (by intro i hi; interval_cases i <;> rfl) rfl
  have hmatch : headingAt 4 ('<' :: 'h' :: '4' :: '>' ::
      (T.data ++ ("</h4>".data ++ "<p>y</p>".data)))
      = some (("\n\n" ++ (⟨List.replicate 4 '#'⟩ : String) ++ " " ++ T ++ "\n\n").data,
          "<p>y</p>".data) := by
    have hsplit := lSplitFirstCI_boundary_lt ['/', 'h', '4', '>'] T.data "<p>y</p>".data hTlt
    rw [List.append_assoc] at hsplit
    simp only [headingAt]
    rw [show tagOpenAt ['<', 'h', Char.ofNat (48 + 4)]
        ('<' :: 'h' :: '4' :: '>' :: (T.data ++ ("</h4>".data ++ "<p>y</p>".data)))
        = some (T.data ++ ("</h4>".data ++ "<p>y</p>".data)) from rfl]
    rw [show ('<' :: '/' :: 'h' :: Char.ofNat (48 + 4) :: '>' :: [] : List Char)
        = ('<' :: ['/', 'h', '4', '>'] : List Char) from rfl]
    rw [show (T.data ++ ("</h4>".data ++ "<p>y</p>".data))
        = T.data ++ (('<' :: ['/', 'h', '4', '>'] : List Char) ++ "<p>y</p>".data) from rfl]
    have heta : ((⟨T.data⟩ : String)) = T := rfl
    have hstp := stripTags_plain T.data hTlt (fun c hc => (hTc c hc).2.1)
    simp only [hsplit, hstp, heta, ne_eq, hTne, not_false_eq_true, if_true]
  have hhN : runStage (headingAt 4) ("<p>x</p><h4>".data ++ (T.data ++ "</h4><p>y</p>".data))
      = "<p>x</p>".data ++ ((("\n\n" ++ (⟨List.replicate 4 '#'⟩ : String) ++ " " ++ T ++ "\n\n").data) ++ "<p>y</p>".data) := by
    unfold runStage
    rw [show ("<p>x</p><h4>".data ++ (T.data ++ "</h4><p>y</p>".data))
        = "<p>x</p>".data ++ ("<h4>".data ++ (T.data ++ ("</h4>".data ++ "<p>y</p>".data)))
        from rfl]
    rw [show ("<p>x</p>".data ++
          ("<h4>".data ++ (T.data ++ ("</h4>".data ++ "<p>y</p>".data)))).length + 1
        = ("<p>x</p>".data).length +
          ((("<h4>".data ++ (T.data ++ ("</h4>".data ++ "<p>y</p>".data)))).length + 1)
        from by
      simp only [List.length_append, List.length_cons, List.length_nil] <;> omega]
    rw [replaceScan_steps_front (headingAt 4) ("<p>x</p>".data)
        ("<h4>".data ++ (T.data ++ ("</h4>".data ++ "<p>y</p>".data)))
        (by
          intro i hi
          rw [show (("<p>x</p>".data)).length = 8 from rfl] at hi
          interval_cases i <;> rfl)]
    rw [show ("<h4>".data ++ (T.data ++ ("</h4>".data ++ "<p>y</p>".data)))
        = '<' :: ('h' :: '4' :: '>' :: (T.data ++ ("</h4>".data ++ "<p>y</p>".data)))
        from rfl]
    rw [replaceScan_step_some (headingAt 4)
        ('<' :: 'h' :: '4' :: '>' :: (T.data ++ ("</h4>".data ++ "<p>y</p>".data))).length
        '<' ('h' :: '4' :: '>' :: (T.data ++ ("</h4>".data ++ "<p>y</p>".data)))
        (("\n\n" ++ (⟨List.replicate 4 '#'⟩ : String) ++ " " ++ T ++ "\n\n").data)
        ("<p>y</p>".data)
        hmatch]
    rw [replaceScan_id_of_none (headingAt 4) ("<p>y</p>".data) _
        (suffixes_none_concrete _ _
          (by
            intro i hi
            rw [show (("<p>y</p>".data)).length = 8 from rfl] at hi
            interval_cases i <;> rfl)
          rfl)]
  have hbridge : "<p>x</p>".data ++ ((("\n\n" ++ (⟨List.replicate 4 '#'⟩ : String) ++ " " ++ T ++ "\n\n").data) ++ "<p>y</p>".data)
      = "<p>x</p>".data ++ (['\n', '\n', '#', '#', '#', '#', ' '] ++ (T.data ++ (['\n', '\n'] ++ "<p>y</p>".data))) := by
    simp [String.data_append, List.append_assoc]
  have hg3 := hid1 (headingAt 3) (fun c r hc => headingAt_head 3 c r hc)
    (by intro i hi; interval_cases i <;> rfl)
    (by intro i hi; interval_cases i <;> rfl) rfl
  have hg2 := hid1 (headingAt 2) (fun c r hc => headingAt_head 2 c r hc)
    (by intro i hi; interval_cases i <;> rfl)
    (by intro i hi; interval_cases i <;> rfl) rfl
  have hg1 := hid1 (headingAt 1) (fun c r hc => headingAt_head 1 c r hc)
    (by intro i hi; interval_cases i <;> rfl)
    (by intro i hi; interval_cases i <;> rfl) rfl
  have hp : runStage paragraphAt ("<p>x</p>".data ++ (['\n', '\n', '#', '#', '#', '#', ' '] ++ (T.data ++ (['\n', '\n'] ++ "<p>y</p>".data))))
      = "\n\nx\n\n".data ++ (['\n', '\n', '#', '#', '#', '#', ' '] ++ (T.data ++ (['\n', '\n'] ++ "\n\ny\n\n".data))) := by
    unfold runStage
    rw [show ("<p>x</p>".data ++ (['\n', '\n', '#', '#', '#', '#', ' '] ++ (T.data ++ (['\n', '\n'] ++ "<p>y</p>".data))))
        = '<' :: ('p' :: '>' :: 'x' :: '<' :: '/' :: 'p' :: '>' ::
            (['\n', '\n', '#', '#', '#', '#', ' '] ++ (T.data ++ (['\n', '\n'] ++ "<p>y</p>".data))))
        from by simp [String.data_append, List.append_assoc]]
    have hpm1 : paragraphAt ('<' :: ('p' :: '>' :: 'x' :: '<' :: '/' :: 'p' :: '>' ::
            (['\n', '\n', '#', '#', '#', '#', ' '] ++ (T.data ++ (['\n', '\n'] ++ "<p>y</p>".data)))))
        = some ("\n\nx\n\n".data,
            ['\n', '\n', '#', '#', '#', '#', ' '] ++ (T.data ++ (['\n', '\n'] ++ "<p>y</p>".data))) := by rfl
    rw [replaceScan_step_some paragraphAt
        ('<' :: 'p' :: '>' :: 'x' :: '<' :: '/' :: 'p' :: '>' ::
            (['\n', '\n', '#', '#', '#', '#', ' '] ++ (T.data ++ (['\n', '\n'] ++ "<p>y</p>".data)))).length
        '<' ('p' :: '>' :: 'x' :: '<' :: '/' :: 'p' :: '>' ::
            (['\n', '\n', '#', '#', '#', '#', ' '] ++ (T.data ++ (['\n', '\n'] ++ "<p>y</p>".data))))
        ("\n\nx\n\n".data)
        (['\n', '\n', '#', '#', '#', '#', ' '] ++ (T.data ++ (['\n', '\n'] ++ "<p>y</p>".data)))
        hpm1]
    rw [show ('<' :: 'p' :: '>' :: 'x' :: '<' :: '/' :: 'p' :: '>' ::
            (['\n', '\n', '#', '#', '#', '#', ' '] ++ (T.data ++ (['\n', '\n'] ++ "<p>y</p>".data)))).length
        = (['\n', '\n', '#', '#', '#', '#', ' '] : List Char).length + (T.data.length + 18)
        from by
      simp only [List.length_append, List.length_cons, List.length_nil] <;> omega]
    rw [replaceScan_steps_front paragraphAt ['\n', '\n', '#', '#', '#', '#', ' ']
        (T.data ++ (['\n', '\n'] ++ "<p>y</p>".data))
        (by
          intro i hi
          simp only [List.length_cons, List.length_nil] at hi
          interval_cases i <;> rfl)
        (T.data.length + 18)]
    rw [replaceScan_skip_trigfree paragraphAt '<' (fun c r hc => paragraphAt_head c r hc)
        T.data hTlt (['\n', '\n'] ++ "<p>y</p>".data) 18]
    rw [show (18 : Nat) = (['\n', '\n'] : List Char).length + 16 from rfl]
    rw [replaceScan_steps_front paragraphAt ['\n', '\n'] ("<p>y</p>".data)
        (by
          intro i hi
          simp only [List.length_cons, List.length_nil] at hi
          interval_cases i <;> rfl)
        16]
    rw [show ("<p>y</p>".data : List Char)
        = '<' :: ('p' :: '>' :: 'y' :: '<' :: '/' :: 'p' :: '>' :: []) from rfl]
    rw [show (16 : Nat) = 15 + 1 from rfl]
    have hpm2 : paragraphAt ('<' :: ('p' :: '>' :: 'y' :: '<' :: '/' :: 'p' :: '>' :: []))
        = some ("\n\ny\n\n".data, []) := by rfl
    rw [replaceScan_step_some paragraphAt 15
        '<' ('p' :: '>' :: 'y' :: '<' :: '/' :: 'p' :: '>' :: []) ("\n\ny\n\n".data) [] hpm2]
    rw [replaceScan_nil]
    simp
  have hli := hid2 listItemAt (fun c r hc => listItemAt_head c r hc) rfl
  have hbr := hid2 brAt (fun c r hc => brAt_head c r hc) rfl
  have hcs := hid2 codeSpanAt (fun c r hc => codeSpanAt_head c r hc) rfl
  have han := hid2 anchorAt (fun c r hc => anchorAt_head c r hc) rfl
  have hmem : ∀ c ∈ ("\n\nx\n\n".data ++ (['\n', '\n', '#', '#', '#', '#', ' '] ++ (T.data ++ (['\n', '\n'] ++ "\n\ny\n\n".data)))), c ≠ '<' := by
    intro c hc
    simp only [List.mem_append, List.mem_cons, List.not_mem_nil, or_false] at hc
    casesm* _ ∨ _
    all_goals first
      | exact (hTc c (by assumption)).1
      | (rename_i hx; subst hx; decide)
  have hamp : ∀ c ∈ ("\n\nx\n\n".data ++ (['\n', '\n', '#', '#', '#', '#', ' '] ++ (T.data ++ (['\n', '\n'] ++ "\n\ny\n\n".data)))), c ≠ '&' := by
    intro c hc
    simp only [List.mem_append, List.mem_cons, List.not_mem_nil, or_false] at hc
    casesm* _ ∨ _
    all_goals first
      | exact (hTc c (by assumption)).2.1
      | (rename_i hx; subst hx; decide)
  have hstrip := stripTagsPlusScan_id ("\n\nx\n\n".data ++ (['\n', '\n', '#', '#', '#', '#', ' '] ++ (T.data ++ (['\n', '\n'] ++ "\n\ny\n\n".data)))) (("\n\nx\n\n".data ++ (['\n', '\n', '#', '#', '#', '#', ' '] ++ (T.data ++ (['\n', '\n'] ++ "\n\ny\n\n".data)))).length + 1) hmem
  have hdec := decode_plain ("\n\nx\n\n".data ++ (['\n', '\n', '#', '#', '#', '#', ' '] ++ (T.data ++ (['\n', '\n'] ++ "\n\ny\n\n".data)))) hamp
  have hcol : collapseNewlines
      ((("\n\nx\n\n".data ++ (['\n', '\n', '#', '#', '#', '#', ' '] ++ (T.data ++ (['\n', '\n'] ++ "\n\ny\n\n".data))))).length + 1)
      ("\n\nx\n\n".data ++ (['\n', '\n', '#', '#', '#', '#', ' '] ++ (T.data ++ (['\n', '\n'] ++ "\n\ny\n\n".data))))
      = '\n' :: '\n' :: 'x' :: '\n' :: '\n' :: (('#' :: '#' :: '#' :: '#' :: ' ' :: T.data) ++ ('\n' :: '\n' :: 'y' :: '\n' :: '\n' :: [])) := by
    rw [show ("\n\nx\n\n".data ++ (['\n', '\n', '#', '#', '#', '#', ' '] ++ (T.data ++ (['\n', '\n'] ++ "\n\ny\n\n".data))))
        = '\n' :: '\n' :: 'x' :: '\n' :: '\n' :: '\n' :: '\n' :: (('#' :: '#' :: '#' :: '#' :: ' ' :: T.data) ++ ('\n' :: '\n' :: '\n' :: '\n' :: 'y' :: '\n' :: '\n' :: []))
        from by simp [List.append_assoc]]
    rw [show ('\n' :: '\n' :: 'x' :: '\n' :: '\n' :: '\n' :: '\n' :: (('#' :: '#' :: '#' :: '#' :: ' ' :: T.data) ++ ('\n' :: '\n' :: '\n' :: '\n' :: 'y' :: '\n' :: '\n' :: []))).length + 1
        = ((T.data.length + (4 + 12)) + 1) + 3
        from by
      simp only [List.length_append, List.length_cons, List.length_nil] <;> omega]
    rw [collapse_lead ((T.data.length + (4 + 12)) + 1) _]
    rw [collapse_quad (T.data.length + (4 + 12)) _ (by
      cases hd : T.data with
      | nil => simp [List.takeWhile_cons]
      | cons c cs =>
          have hc : c ≠ '\n' := (hTc c (hd ▸ List.mem_cons_self c cs)).2.2
          simp [List.takeWhile_cons, hc])]
    rw [show T.data.length + (4 + 12)
        = ('#' :: '#' :: '#' :: '#' :: ' ' :: T.data).length + 11 from by
      simp only [List.length_append, List.length_cons, List.length_nil] <;> omega]
    rw [collapse_skip ('#' :: '#' :: '#' :: '#' :: ' ' :: T.data) (by
        intro c hc
        simp only [List.mem_cons] at hc
        casesm* _ ∨ _
        all_goals first
          | exact (hTc c (by assumption)).2.2
          | (rename_i hx; subst hx; decide)) 11
        ('\n' :: '\n' :: '\n' :: '\n' :: 'y' :: '\n' :: '\n' :: [])]
    rw [show (11 : Nat) = 10 + 1 from rfl]
    rw [collapse_quad 10 _ (by decide)]
    rw [show (10 : Nat) = 7 + 3 from rfl]
    rw [collapse_tail3 7]
  have htrim : jsTrim ⟨'\n' :: '\n' :: 'x' :: '\n' :: '\n' :: (('#' :: '#' :: '#' :: '#' :: ' ' :: T.data) ++ ('\n' :: '\n' :: 'y' :: '\n' :: '\n' :: []))⟩
      = "x\n\n" ++ (⟨List.replicate 4 '#'⟩ : String) ++ " " ++ T ++ "\n\ny" := by
    show (⟨jsTrimList ('\n' :: '\n' :: 'x' :: '\n' :: '\n' :: (('#' :: '#' :: '#' :: '#' :: ' ' :: T.data) ++ ('\n' :: '\n' :: 'y' :: '\n' :: '\n' :: [])))⟩ : String)
      = "x\n\n" ++ (⟨List.replicate 4 '#'⟩ : String) ++ " " ++ T ++ "\n\ny"
    have hlist : jsTrimList ('\n' :: '\n' :: 'x' :: '\n' :: '\n' :: (('#' :: '#' :: '#' :: '#' :: ' ' :: T.data) ++ ('\n' :: '\n' :: 'y' :: '\n' :: '\n' :: [])))
        = ("x\n\n" ++ (⟨List.replicate 4 '#'⟩ : String) ++ " " ++ T ++ "\n\ny").data := by
      unfold jsTrimList
      rw [show (('\n' :: '\n' :: 'x' :: '\n' :: '\n' :: (('#' :: '#' :: '#' :: '#' :: ' ' :: T.data) ++ ('\n' :: '\n' :: 'y' :: '\n' :: '\n' :: []))).dropWhile isJsWs)
          = 'x' :: '\n' :: '\n' :: (('#' :: '#' :: '#' :: '#' :: ' ' :: T.data) ++
              ('\n' :: '\n' :: 'y' :: '\n' :: '\n' :: [])) from by
        simp [List.dropWhile_cons, (by decide : isJsWs '\n' = true),
          (by decide : isJsWs 'x' = false)]]
      rw [show ('x' :: '\n' :: '\n' :: (('#' :: '#' :: '#' :: '#' :: ' ' :: T.data) ++
            ('\n' :: '\n' :: 'y' :: '\n' :: '\n' :: []))).reverse
          = '\n' :: '\n' :: 'y' :: '\n' :: '\n' ::
            (T.data.reverse ++ [' ', '#', '#', '#', '#', '\n', '\n', 'x']) from by
        simp [List.reverse_append, List.append_assoc]]
      rw [show (('\n' :: '\n' :: 'y' :: '\n' :: '\n' ::
            (T.data.reverse ++ [' ', '#', '#', '#', '#', '\n', '\n', 'x'])).dropWhile isJsWs)
          = 'y' :: '\n' :: '\n' ::
            (T.data.reverse ++ [' ', '#', '#', '#', '#', '\n', '\n', 'x']) from by
        simp [List.dropWhile_cons, (by decide : isJsWs '\n' = true),
          (by decide : isJsWs 'y' = false)]]
      rw [show ('y' :: '\n' :: '\n' ::
            (T.data.reverse ++ [' ', '#', '#', '#', '#', '\n', '\n', 'x'])).reverse
          = 'x' :: '\n' :: '\n' :: '#' :: '#' :: '#' :: '#' :: ' ' ::
            (T.data ++ ['\n', '\n', 'y']) from by
        simp [List.reverse_append, List.append_assoc]]
      simp [String.data_append, List.append_assoc]
    rw [hlist]
  simp only [htmlToMarkdown]
  rw [hdoc, hs1, hs2, hs3, hs4]
  rw [hh6]
  rw [hh5]
  rw [hhN, hbridge]
  rw [hg3]
  rw [hg2]
  rw [hg1]
  rw [hp, hli, hbr, hcs, han, hstrip, hdec]
  rw [show ((⟨"\n\nx\n\n".data ++ (['\n', '\n', '#', '#', '#', '#', ' '] ++ (T.data ++ (['\n', '\n'] ++ "\n\ny\n\n".data)))⟩ : String)).data
      = "\n\nx\n\n".data ++ (['\n', '\n', '#', '#', '#', '#', ' '] ++ (T.data ++ (['\n', '\n'] ++ "\n\ny\n\n".data))) from rfl]
  rw [hcol]
  exact htrim

set_option maxHeartbeats 1000000 in
theorem htmlToMarkdown_h5 (T : String) (hT0 : T.data ≠ [])
    (hTc : ∀ c ∈ T.data, c ≠ '<' ∧ c ≠ '&' ∧ c ≠ '\n') :
    htmlToMarkdown ("<p>x</p><h" ++ toString (5 : Nat) ++ ">" ++ T ++ "</h" ++
        toString (5 : Nat) ++ "><p>y</p>")
      = "x\n\n" ++ (⟨List.replicate 5 '#'⟩ : String) ++ " " ++ T ++ "\n\ny" := by
  have hTlt : ∀ c ∈ T.data, c ≠ '<' := fun c hc => (hTc c hc).1
  have hTne : T ≠ "" := fun e => hT0 (congrArg String.data e)
  have hdoc : ("<p>x</p><h" ++ toString (5 : Nat) ++ ">" ++ T ++ "</h" ++
      toString (5 : Nat) ++ "><p>y</p>").data
      = "<p>x</p><h5>".data ++ (T.data ++ "</h5><p>y</p>".data) := by
    rw [show toString (5 : Nat) = "5" from rfl]
    simp [String.data_append, List.append_assoc]
  have hid0 : ∀ (m : List Char → Option (List Char × List Char)),
      (∀ c r, c ≠ '<' → m (c :: r) = none) →
      (∀ i, i < 12 → m (("<p>x</p><h5>".data).drop i ++
        (T.data ++ "</h5><p>y</p>".data)) = none) →
      (∀ i, i < 13 → m (("</h5><p>y</p>".data).drop i) = none) →
      m [] = none →
      runStage m ("<p>x</p><h5>".data ++ (T.data ++ "</h5><p>y</p>".data))
        = "<p>x</p><h5>".data ++ (T.data ++ "</h5><p>y</p>".data) := by
    intro m hhead h0 h1 hnil
    apply replaceScan_id_of_none
    apply suffixes_none_append
    · intro i hi
      exact h0 i (by rw [show ("<p>x</p><h5>".data).length = 12 from rfl] at hi; exact hi)
    · apply suffixes_none_trigfree m '<' hhead T.data hTlt
      apply suffixes_none_concrete m _ _ hnil
      intro i hi
      exact h1 i (by rw [show ("</h5><p>y</p>".data).length = 13 from rfl] at hi; exact hi)
  have hid1 : ∀ (m : List Char → Option (List Char × List Char)),
      (∀ c r, c ≠ '<' → m (c :: r) = none) →
      (∀ i, i < 8 → m (("<p>x</p>".data).drop i ++
        (['\n', '\n', '#', '#', '#', '#', '#', ' '] ++ (T.data ++ (['\n', '\n'] ++ "<p>y</p>".data)))) = none) →
      (∀ i, i < 8 → m (("<p>y</p>".data).drop i) = none) →
      m [] = none →
      runStage m ("<p>x</p>".data ++ (['\n', '\n', '#', '#', '#', '#', '#', ' '] ++ (T.data ++ (['\n', '\n'] ++ "<p>y</p>".data))))
        = "<p>x</p>".data ++ (['\n', '\n', '#', '#', '#', '#', '#', ' '] ++ (T.data ++ (['\n', '\n'] ++ "<p>y</p>".data))) := by
    intro m hhead h0 h1 hnil
    apply replaceScan_id_of_none
    apply suffixes_none_append
    · intro i hi
      exact h0 i (by rw [show ("<p>x</p>".data).length = 8 from rfl] at hi; exact hi)
    · apply suffixes_none_trigfree m '<' hhead ['\n', '\n', '#', '#', '#', '#', '#', ' '] (by decide)
      apply suffixes_none_trigfree m '<' hhead T.data hTlt
      apply suffixes_none_trigfree m '<' hhead ['\n', '\n'] (by decide)
      apply suffixes_none_concrete m _ _ hnil
      intro i hi
      exact h1 i (by rw [show ("<p>y</p>".data).length = 8 from rfl] at hi; exact hi)
  have hid2 : ∀ (m : List Char → Option (List Char × List Char)),
      (∀ c r, c ≠ '<' → m (c :: r) = none) →
      m [] = none →
      runStage m ("\n\nx\n\n".data ++ (['\n', '\n', '#', '#', '#', '#', '#', ' '] ++ (T.data ++ (['\n', '\n'] ++ "\n\ny\n\n".data))))
        = "\n\nx\n\n".data ++ (['\n', '\n', '#', '#', '#', '#', '#', ' '] ++ (T.data ++ (['\n', '\n'] ++ "\n\ny\n\n".data))) := by
    intro m hhead hnil
    apply replaceScan_id_of_none
    apply suffixes_none_trigfree m '<' hhead "\n\nx\n\n".data (by decide)
    apply suffixes_none_trigfree m '<' hhead ['\n', '\n', '#', '#', '#', '#', '#', ' '] (by decide)
    apply suffixes_none_trigfree m '<' hhead T.data hTlt
    apply suffixes_none_trigfree m '<' hhead ['\n', '\n'] (by decide)
    exact suffixes_none_all m '<' hhead "\n\ny\n\n".data (by decide) hnil
  have hs1 := hid0 (removeDelimitedCI "<script".data "</script>".data)
    (fun c r hc => removeDelimitedCI_head "script".data "</script>".data c r hc)
    (by intro i hi; interval_cases i <;> rfl)
    (by intro i hi; interval_cases i <;> rfl) rfl
  have hs2 := hid0 (removeDelimitedCI "<style".data "</style>".data)
    (fun c r hc => removeDelimitedCI_head "style".data "</style>".data c r hc)
    (by intro i hi; interval_cases i <;> rfl)
    (by intro i hi; interval_cases i <;> rfl) rfl
  have hs3 := hid0 (removeDelimitedCS "<!--".data "-->".data)
    (fun c r hc => removeDelimitedCS_head "!--".data "-->".data c r hc)
    (by intro i hi; interval_cases i <;> rfl)
    (by intro i hi; interval_cases i <;> rfl) rfl
  have hs4 := hid0 preCodeAt (fun c r hc => preCodeAt_head c r hc)
    (by intro i hi; interval_cases i <;> rfl)
    (by intro i hi; interval_cases i <;> rfl) rfl
  have hh6 := hid0 (headingAt 6) (fun c r hc => headingAt_head 6 c r hc)
    (by intro i hi; interval_cases i <;> rfl)
    (by intro i hi; interval_cases i <;> rfl) rfl
  have hmatch : headingAt 5 ('<' :: 'h' :: '5' :: '>' ::
      (T.data ++ ("</h5>".data ++ "<p>y</p>".data)))
      = some (("\n\n" ++ (⟨List.replicate 5 '#'⟩ : String) ++ " " ++ T ++ "\n\n").data,
          "<p>y</p>".data) := by
    have hsplit := lSplitFirstCI_boundary_lt ['/', 'h', '5', '>'] T.data "<p>y</p>".data hTlt
    rw [List.append_assoc] at hsplit
    simp only [headingAt]
    rw [show tagOpenAt ['<', 'h', Char.ofNat (48 + 5)]
        ('<' :: 'h' :: '5' :: '>' :: (T.data ++ ("</h5>".data ++ "<p>y</p>".data)))
        = some (T.data ++ ("</h5>".data ++ "<p>y</p>".data)) from rfl]
    rw [show ('<' :: '/' :: 'h' :: Char.ofNat (48 + 5) :: '>' :: [] : List Char)
        = ('<' :: ['/', 'h', '5', '>'] : List Char) from rfl]
    rw [show (T.data ++ ("</h5>".data ++ "<p>y</p>".data))
        = T.data ++ (('<' :: ['/', 'h', '5', '>'] : List Char) ++ "<p>y</p>".data) from rfl]
    have heta : ((⟨T.data⟩ : String)) = T := rfl
    have hstp := stripTags_plain T.data hTlt (fun c hc => (hTc c hc).2.1)
    simp only [hsplit, hstp, heta, ne_eq, hTne, not_false_eq_true, if_true]
  have hhN : runStage (headingAt 5) ("<p>x</p><h5>".data ++ (T.data ++ "</h5><p>y</p>".data))
      = "<p>x</p>".data ++ ((("\n\n" ++ (⟨List.replicate 5 '#'⟩ : String) ++ " " ++ T ++ "\n\n").data) ++ "<p>y</p>".data) := by
    unfold runStage
    rw [show ("<p>x</p><h5>".data ++ (T.data ++ "</h5><p>y</p>".data))
        = "<p>x</p>".data ++ ("<h5>".data ++ (T.data ++ ("</h5>".data ++ "<p>y</p>".data)))
        from rfl]
    rw [show ("<p>x</p>".data ++
          ("<h5>".data ++ (T.data ++ ("</h5>".data ++ "<p>y</p>".data)))).length + 1
        = ("<p>x</p>".data).length +
          ((("<h5>".data ++ (T.data ++ ("</h5>".data ++ "<p>y</p>".data)))).length + 1)
        from by
      simp only [List.length_append, List.length_cons, List.length_nil] <;> omega]
    rw [replaceScan_steps_front (headingAt 5) ("<p>x</p>".data)
        ("<h5>".data ++ (T.data ++ ("</h5>".data ++ "<p>y</p>".data)))
        (by
          intro i hi
          rw [show (("<p>x</p>".data)).length = 8 from rfl] at hi
          interval_cases i <;> rfl)]
    rw [show ("<h5>".data ++ (T.data ++ ("</h5>".data ++ "<p>y</p>".data)))
        = '<' :: ('h' :: '5' :: '>' :: (T.data ++ ("</h5>".data ++ "<p>y</p>".data)))
        from rfl]
    rw [replaceScan_step_some (headingAt 5)
        ('<' :: 'h' :: '5' :: '>' :: (T.data ++ ("</h5>".data ++ "<p>y</p>".data))).length
        '<' ('h' :: '5' :: '>' :: (T.data ++ ("</h5>".data ++ "<p>y</p>".data)))
        (("\n\n" ++ (⟨List.replicate 5 '#'⟩ : String) ++ " " ++ T ++ "\n\n").data)
        ("<p>y</p>".data)
        hmatch]
    rw [replaceScan_id_of_none (headingAt 5) ("<p>y</p>".data) _
        (suffixes_none_concrete _ _
          (by
            intro i hi
            rw [show (("<p>y</p>".data)).length = 8 from rfl] at hi
            interval_cases i <;> rfl)
          rfl)]
  have hbridge : "<p>x</p>".data ++ ((("\n\n" ++ (⟨List.replicate 5 '#'⟩ : String) ++ " " ++ T ++ "\n\n").data) ++ "<p>y</p>".data)
      = "<p>x</p>".data ++ (['\n', '\n', '#', '#', '#', '#', '#', ' '] ++ (T.data ++ (['\n', '\n'] ++ "<p>y</p>".data))) := by
    simp [String.data_append, List.append_assoc]
  have hg4 := hid1 (headingAt 4) (fun c r hc => headingAt_head 4 c r hc)
    (by intro i hi; interval_cases i <;> rfl)
    (by intro i hi; interval_cases i <;> rfl) rfl
  have hg3 := hid1 (headingAt 3) (fun c r hc => headingAt_head 3 c r hc)
    (by intro i hi; interval_cases i <;> rfl)
    (by intro i hi; interval_cases i <;> rfl) rfl
  have hg2 := hid1 (headingAt 2) (fun c r hc => headingAt_head 2 c r hc)
    (by intro i hi; interval_cases i <;> rfl)
    (by intro i hi; interval_cases i <;> rfl) rfl
  have hg1 := hid1 (headingAt 1) (fun c r hc => headingAt_head 1 c r hc)
    (by intro i hi; interval_cases i <;> rfl)
    (by intro i hi; interval_cases i <;> rfl) rfl
  have hp : runStage paragraphAt ("<p>x</p>".data ++ (['\n', '\n', '#', '#', '#', '#', '#', ' '] ++ (T.data ++ (['\n', '\n'] ++ "<p>y</p>".data))))
      = "\n\nx\n\n".data ++ (['\n', '\n', '#', '#', '#', '#', '#', ' '] ++ (T.data ++ (['\n', '\n'] ++ "\n\ny\n\n".data))) := by
    unfold runStage
    rw [show ("<p>x</p>".data ++ (['\n', '\n', '#', '#', '#', '#', '#', ' '] ++ (T.data ++ (['\n', '\n'] ++ "<p>y</p>".data))))
        = '<' :: ('p' :: '>' :: 'x' :: '<' :: '/' :: 'p' :: '>' ::
            (['\n', '\n', '#', '#', '#', '#', '#', ' '] ++ (T.data ++ (['\n', '\n'] ++ "<p>y</p>".data))))
        from by simp [String.data_append, List.append_assoc]]
    have hpm1 : paragraphAt ('<' :: ('p' :: '>' :: 'x' :: '<' :: '/' :: 'p' :: '>' ::
            (['\n', '\n', '#', '#', '#', '#', '#', ' '] ++ (T.data ++ (['\n', '\n'] ++ "<p>y</p>".data)))))
        = some ("\n\nx\n\n".data,
            ['\n', '\n', '#', '#', '#', '#', '#', ' '] ++ (T.data ++ (['\n', '\n'] ++ "<p>y</p>".data))) := by rfl
    rw [replaceScan_step_some paragraphAt
        ('<' :: 'p' :: '>' :: 'x' :: '<' :: '/' :: 'p' :: '>' ::
            (['\n', '\n', '#', '#', '#', '#', '#', ' '] ++ (T.data ++ (['\n', '\n'] ++ "<p>y</p>".data)))).length
        '<' ('p' :: '>' :: 'x' :: '<' :: '/' :: 'p' :: '>' ::
            (['\n', '\n', '#', '#', '#', '#', '#', ' '] ++ (T.data ++ (['\n', '\n'] ++ "<p>y</p>".data))))
        ("\n\nx\n\n".data)
        (['\n', '\n', '#', '#', '#', '#', '#', ' '] ++ (T.data ++ (['\n', '\n'] ++ "<p>y</p>".data)))
        hpm1]
    rw [show ('<' :: 'p' :: '>' :: 'x' :: '<' :: '/' :: 'p' :: '>' ::
            (['\n', '\n', '#', '#', '#', '#', '#', ' '] ++ (T.data ++ (['\n', '\n'] ++ "<p>y</p>".data)))).length
        = (['\n', '\n', '#', '#', '#', '#', '#', ' '] : List Char).length + (T.data.length + 18)
        from by
      simp only [List.length_append, List.length_cons, List.length_nil] <;> omega]
    rw [replaceScan_steps_front paragraphAt ['\n', '\n', '#', '#', '#', '#', '#', ' ']
        (T.data ++ (['\n', '\n'] ++ "<p>y</p>".data))
        (by
          intro i hi
          simp only [List.length_cons, List.length_nil] at hi
          interval_cases i <;> rfl)
        (T.data.length + 18)]
    rw [replaceScan_skip_trigfree paragraphAt '<' (fun c r hc => paragraphAt_head c r hc)
        T.data hTlt (['\n', '\n'] ++ "<p>y</p>".data) 18]
    rw [show (18 : Nat) = (['\n', '\n'] : List Char).length + 16 from rfl]
    rw [replaceScan_steps_front paragraphAt ['\n', '\n'] ("<p>y</p>".data)
        (by
          intro i hi
          simp only [List.length_cons, List.length_nil] at hi
          interval_cases i <;> rfl)
        16]
    rw [show ("<p>y</p>".data : List Char)
        = '<' :: ('p' :: '>' :: 'y' :: '<' :: '/' :: 'p' :: '>' :: []) from rfl]
    rw [show (16 : Nat) = 15 + 1 from rfl]
    have hpm2 : paragraphAt ('<' :: ('p' :: '>' :: 'y' :: '<' :: '/' :: 'p' :: '>' :: []))
        = some ("\n\ny\n\n".data, []) := by rfl
    rw [replaceScan_step_some paragraphAt 15
        '<' ('p' :: '>' :: 'y' :: '<' :: '/' :: 'p' :: '>' :: []) ("\n\ny\n\n".data) [] hpm2]
    rw [replaceScan_nil]
    simp
  have hli := hid2 listItemAt (fun c r hc => listItemAt_head c r hc) rfl
  have hbr := hid2 brAt (fun c r hc => brAt_head c r hc) rfl
  have hcs := hid2 codeSpanAt (fun c r hc => codeSpanAt_head c r hc) rfl
  have han := hid2 anchorAt (fun c r hc => anchorAt_head c r hc) rfl
  have hmem : ∀ c ∈ ("\n\nx\n\n".data ++ (['\n', '\n', '#', '#', '#', '#', '#', ' '] ++ (T.data ++ (['\n', '\n'] ++ "\n\ny\n\n".data)))), c ≠ '<' := by
    intro c hc
    simp only [List.mem_append, List.mem_cons, List.not_mem_nil, or_false] at hc
    casesm* _ ∨ _
    all_goals first
      | exact (hTc c (by assumption)).1
      | (rename_i hx; subst hx; decide)
  have hamp : ∀ c ∈ ("\n\nx\n\n".data ++ (['\n', '\n', '#', '#', '#', '#', '#', ' '] ++ (T.data ++ (['\n', '\n'] ++ "\n\ny\n\n".data)))), c ≠ '&' := by
    intro c hc
    simp only [List.mem_append, List.mem_cons, List.not_mem_nil, or_false] at hc
    casesm* _ ∨ _
    all_goals first
      | exact (hTc c (by assumption)).2.1
      | (rename_i hx; subst hx; decide)
  have hstrip := stripTagsPlusScan_id ("\n\nx\n\n".data ++ (['\n', '\n', '#', '#', '#', '#', '#', ' '] ++ (T.data ++ (['\n', '\n'] ++ "\n\ny\n\n".data)))) (("\n\nx\n\n".data ++ (['\n', '\n', '#', '#', '#', '#', '#', ' '] ++ (T.data ++ (['\n', '\n'] ++ "\n\ny\n\n".data)))).length + 1) hmem
  have hdec := decode_plain ("\n\nx\n\n".data ++ (['\n', '\n', '#', '#', '#', '#', '#', ' '] ++ (T.data ++ (['\n', '\n'] ++ "\n\ny\n\n".data)))) hamp
  have hcol : collapseNewlines
      ((("\n\nx\n\n".data ++ (['\n', '\n', '#', '#', '#', '#', '#', ' '] ++ (T.data ++ (['\n', '\n'] ++ "\n\ny\n\n".data))))).length + 1)
      ("\n\nx\n\n".data ++ (['\n', '\n', '#', '#', '#', '#', '#', ' '] ++ (T.data ++ (['\n', '\n'] ++ "\n\ny\n\n".data))))
      = '\n' :: '\n' :: 'x' :: '\n' :: '\n' :: (('#' :: '#' :: '#' :: '#' :: '#' :: ' ' :: T.data) ++ ('\n' :: '\n' :: 'y' :: '\n' :: '\n' :: [])) := by
    rw [show ("\n\nx\n\n".data ++ (['\n', '\n', '#', '#', '#', '#', '#', ' '] ++ (T.data ++ (['\n', '\n'] ++ "\n\ny\n\n".data))))
        = '\n' :: '\n' :: 'x' :: '\n' :: '\n' :: '\n' :: '\n' :: (('#' :: '#' :: '#' :: '#' :: '#' :: ' ' :: T.data) ++ ('\n' :: '\n' :: '\n' :: '\n' :: 'y' :: '\n' :: '\n' :: []))
        from by simp [List.append_assoc]]
    rw [show ('\n' :: '\n' :: 'x' :: '\n' :: '\n' :: '\n' :: '\n' :: (('#' :: '#' :: '#' :: '#' :: '#' :: ' ' :: T.data) ++ ('\n' :: '\n' :: '\n' :: '\n' :: 'y' :: '\n' :: '\n' :: []))).length + 1
        = ((T.data.length + (5 + 12)) + 1) + 3
        from by
      simp only [List.length_append, List.length_cons, List.length_nil] <;> omega]
    rw [collapse_lead ((T.data.length + (5 + 12)) + 1) _]
    rw [collapse_quad (T.data.length + (5 + 12)) _ (by
      cases hd : T.data with
      | nil => simp [List.takeWhile_cons]
      | cons c cs =>
          have hc : c ≠ '\n' := (hTc c (hd ▸ List.mem_cons_self c cs)).2.2
          simp [List.takeWhile_cons, hc])]
    rw [show T.data.length + (5 + 12)
        = ('#' :: '#' :: '#' :: '#' :: '#' :: ' ' :: T.data).length + 11 from by
      simp only [List.length_append, List.length_cons, List.length_nil] <;> omega]
    rw [collapse_skip ('#' :: '#' :: '#' :: '#' :: '#' :: ' ' :: T.data) (by
        intro c hc
        simp only [List.mem_cons] at hc
        casesm* _ ∨ _
        all_goals first
          | exact (hTc c (by assumption)).2.2
          | (rename_i hx; subst hx; decide)) 11
        ('\n' :: '\n' :: '\n' :: '\n' :: 'y' :: '\n' :: '\n' :: [])]
    rw [show (11 : Nat) = 10 + 1 from rfl]
    rw [collapse_quad 10 _ (by decide)]
    rw [show (10 : Nat) = 7 + 3 from rfl]
    rw [collapse_tail3 7]
  have htrim : jsTrim ⟨'\n' :: '\n' :: 'x' :: '\n' :: '\n' :: (('#' :: '#' :: '#' :: '#' :: '#' :: ' ' :: T.data) ++ ('\n' :: '\n' :: 'y' :: '\n' :: '\n' :: []))⟩
      = "x\n\n" ++ (⟨List.replicate 5 '#'⟩ : String) ++ " " ++ T ++ "\n\ny" := by
    show (⟨jsTrimList ('\n' :: '\n' :: 'x' :: '\n' :: '\n' :: (('#' :: '#' :: '#' :: '#' :: '#' :: ' ' :: T.data) ++ ('\n' :: '\n' :: 'y' :: '\n' :: '\n' :: [])))⟩ : String)
      = "x\n\n" ++ (⟨List.replicate 5 '#'⟩ : String) ++ " " ++ T ++ "\n\ny"
    have hlist : jsTrimList ('\n' :: '\n' :: 'x' :: '\n' :: '\n' :: (('#' :: '#' :: '#' :: '#' :: '#' :: ' ' :: T.data) ++ ('\n' :: '\n' :: 'y' :: '\n' :: '\n' :: [])))
        = ("x\n\n" ++ (⟨List.replicate 5 '#'⟩ : String) ++ " " ++ T ++ "\n\ny").data := by
      unfold jsTrimList
      rw [show (('\n' :: '\n' :: 'x' :: '\n' :: '\n' :: (('#' :: '#' :: '#' :: '#' :: '#' :: ' ' :: T.data) ++ ('\n' :: '\n' :: 'y' :: '\n' :: '\n' :: []))).dropWhile isJsWs)
          = 'x' :: '\n' :: '\n' :: (('#' :: '#' :: '#' :: '#' :: '#' :: ' ' :: T.data) ++
              ('\n' :: '\n' :: 'y' :: '\n' :: '\n' :: [])) from by
        simp [List.dropWhile_cons, (by decide : isJsWs '\n' = true),
          (by decide : isJsWs 'x' = false)]]
      rw [show ('x' :: '\n' :: '\n' :: (('#' :: '#' :: '#' :: '#' :: '#' :: ' ' :: T.data) ++
            ('\n' :: '\n' :: 'y' :: '\n' :: '\n' :: []))).reverse
          = '\n' :: '\n' :: 'y' :: '\n' :: '\n' ::
            (T.data.reverse ++ [' ', '#', '#', '#', '#', '#', '\n', '\n', 'x']) from by
        simp [List.reverse_append, List.append_assoc]]
      rw [show (('\n' :: '\n' :: 'y' :: '\n' :: '\n' ::
            (T.data.reverse ++ [' ', '#', '#', '#', '#', '#', '\n', '\n', 'x'])).dropWhile isJsWs)
          = 'y' :: '\n' :: '\n' ::
            (T.data.reverse ++ [' ', '#', '#', '#', '#', '#', '\n', '\n', 'x']) from by
        simp [List.dropWhile_cons, (by decide : isJsWs '\n' = true),
          (by decide : isJsWs 'y' = false)]]
      rw [show ('y' :: '\n' :: '\n' ::
            (T.data.reverse ++ [' ', '#', '#', '#', '#', '#', '\n', '\n', 'x'])).reverse
          = 'x' :: '\n' :: '\n' :: '#' :: '#' :: '#' :: '#' :: '#' :: ' ' ::
            (T.data ++ ['\n', '\n', 'y']) from by
        simp [List.reverse_append, List.append_assoc]]
      simp [String.data_append, List.append_assoc]
    rw [hlist]
  simp only [htmlToMarkdown]
  rw [hdoc, hs1, hs2, hs3, hs4]
  rw [hh6]
  rw [hhN, hbridge]
  rw [hg4]
  rw [hg3]
  rw [hg2]
  rw [hg1]
  rw [hp, hli, hbr, hcs, han, hstrip, hdec]
  rw [show ((⟨"\n\nx\n\n".data ++ (['\n', '\n', '#', '#', '#', '#', '#', ' '] ++ (T.data ++ (['\n', '\n'] ++ "\n\ny\n\n".data)))⟩ : String)).data
      = "\n\nx\n\n".data ++ (['\n', '\n', '#', '#', '#', '#', '#', ' '] ++ (T.data ++ (['\n', '\n'] ++ "\n\ny\n\n".data))) from rfl]
  rw [hcol]
  exact htrim

set_option maxHeartbeats 1000000 in
theorem htmlToMarkdown_h6 (T : String) (hT0 : T.data ≠ [])
    (hTc : ∀ c ∈ T.data, c ≠ '<' ∧ c ≠ '&' ∧ c ≠ '\n') :
    htmlToMarkdown ("<p>x</p><h" ++ toString (6 : Nat) ++ ">" ++ T ++ "</h" ++
        toString (6 : Nat) ++ "><p>y</p>")
      = "x\n\n" ++ (⟨List.replicate 6 '#'⟩ : String) ++ " " ++ T ++ "\n\ny" := by
  have hTlt : ∀ c ∈ T.data, c ≠ '<' := fun c hc => (hTc c hc).1
  have hTne : T ≠ "" := fun e => hT0 (congrArg String.data e)
  have hdoc : ("<p>x</p><h" ++ toString (6 : Nat) ++ ">" ++ T ++ "</h" ++
      toString (6 : Nat) ++ "><p>y</p>").data
      = "<p>x</p><h6>".data ++ (T.data ++ "</h6><p>y</p>".data) := by
    rw [show toString (6 : Nat) = "6" from rfl]
    simp [String.data_append, List.append_assoc]
  have hid0 : ∀ (m : List Char → Option (List Char × List Char)),
      (∀ c r, c ≠ '<' → m (c :: r) = none) →
      (∀ i, i < 12 → m (("<p>x</p><h6>".data).drop i ++
        (T.data ++ "</h6><p>y</p>".data)) = none) →
      (∀ i, i < 13 → m (("</h6><p>y</p>".data).drop i) = none) →
      m [] = none →
      runStage m ("<p>x</p><h6>".data ++ (T.data ++ "</h6><p>y</p>".data))
        = "<p>x</p><h6>".data ++ (T.data ++ "</h6><p>y</p>".data) := by
    intro m hhead h0 h1 hnil
    apply replaceScan_id_of_none
    apply suffixes_none_append
    · intro i hi
      exact h0 i (by rw [show ("<p>x</p><h6>".data).length = 12 from rfl] at hi; exact hi)
    · apply suffixes_none_trigfree m '<' hhead T.data hTlt
      apply suffixes_none_concrete m _ _ hnil
      intro i hi
      exact h1 i (by rw [show ("</h6><p>y</p>".data).length = 13 from rfl] at hi; exact hi)
  have hid1 : ∀ (m : List Char → Option (List Char × List Char)),
      (∀ c r, c ≠ '<' → m (c :: r) = none) →
      (∀ i, i < 8 → m (("<p>x</p>".data).drop i ++
        (['\n', '\n', '#', '#', '#', '#', '#', '#', ' '] ++ (T.data ++ (['\n', '\n'] ++ "<p>y</p>".data)))) = none) →
      (∀ i, i < 8 → m (("<p>y</p>".data).drop i) = none) →
      m [] = none →
      runStage m ("<p>x</p>".data ++ (['\n', '\n', '#', '#', '#', '#', '#', '#', ' '] ++ (T.data ++ (['\n', '\n'] ++ "<p>y</p>".data))))
        = "<p>x</p>".data ++ (['\n', '\n', '#', '#', '#', '#', '#', '#', ' '] ++ (T.data ++ (['\n', '\n'] ++ "<p>y</p>".data))) := by
    intro m hhead h0 h1 hnil
    apply replaceScan_id_of_none
    apply suffixes_none_append
    · intro i hi
      exact h0 i (by rw [show ("<p>x</p>".data).length = 8 from rfl] at hi; exact hi)
    · apply suffixes_none_trigfree m '<' hhead ['\n', '\n', '#', '#', '#', '#', '#', '#', ' '] (by decide)
      apply suffixes_none_trigfree m '<' hhead T.data hTlt
      apply suffixes_none_trigfree m '<' hhead ['\n', '\n'] (by decide)
      apply suffixes_none_concrete m _ _ hnil
      intro i hi
      exact h1 i (by rw [show ("<p>y</p>".data).length = 8 from rfl] at hi; exact hi)
  have hid2 : ∀ (m : List Char → Option (List Char × List Char)),
      (∀ c r, c ≠ '<' → m (c :: r) = none) →
      m [] = none →
      runStage m ("\n\nx\n\n".data ++ (['\n', '\n', '#', '#', '#', '#', '#', '#', ' '] ++ (T.data ++ (['\n', '\n'] ++ "\n\ny\n\n".data))))
        = "\n\nx\n\n".data ++ (['\n', '\n', '#', '#', '#', '#', '#', '#', ' '] ++ (T.data ++ (['\n', '\n'] ++ "\n\ny\n\n".data))) := by
    intro m hhead hnil
    apply replaceScan_id_of_none
    apply suffixes_none_trigfree m '<' hhead "\n\nx\n\n".data (by decide)
    apply suffixes_none_trigfree m '<' hhead ['\n', '\n', '#', '#', '#', '#', '#', '#', ' '] (by decide)
    apply suffixes_none_trigfree m '<' hhead T.data hTlt
    apply suffixes_none_trigfree m '<' hhead ['\n', '\n'] (by decide)
    exact suffixes_none_all m '<' hhead "\n\ny\n\n".data (by decide) hnil
  have hs1 := hid0 (removeDelimitedCI "<script".data "</script>".data)
    (fun c r hc => removeDelimitedCI_head "script".data "</script>".data c r hc)
    (by intro i hi; interval_cases i <;> rfl)
    (by intro i hi; interval_cases i <;> rfl) rfl
  have hs2 := hid0 (removeDelimitedCI "<style".data "</style>".data)
    (fun c r hc => removeDelimitedCI_head "style".data "</style>".data c r hc)
    (by intro i hi; interval_cases i <;> rfl)
    (by intro i hi; interval_cases i <;> rfl) rfl
  have hs3 := hid0 (removeDelimitedCS "<!--".data "-->".data)
    (fun c r hc => removeDelimitedCS_head "!--".data "-->".data c r hc)
    (by intro i hi; interval_cases i <;> rfl)
    (by intro i hi; interval_cases i <;> rfl) rfl
  have hs4 := hid0 preCodeAt (fun c r hc => preCodeAt_head c r hc)
    (by intro i hi; interval_cases i <;> rfl)
    (by intro i hi; interval_cases i <;> rfl) rfl
  have hmatch : headingAt 6 ('<' :: 'h' :: '6' :: '>' ::
      (T.data ++ ("</h6>".data ++ "<p>y</p>".data)))
      = some (("\n\n" ++ (⟨List.replicate 6 '#'⟩ : String) ++ " " ++ T ++ "\n\n").data,
          "<p>y</p>".data) := by
    have hsplit := lSplitFirstCI_boundary_lt ['/', 'h', '6', '>'] T.data "<p>y</p>".data hTlt
    rw [List.append_assoc] at hsplit
    simp only [headingAt]
    rw [show tagOpenAt ['<', 'h', Char.ofNat (48 + 6)]
        ('<' :: 'h' :: '6' :: '>' :: (T.data ++ ("</h6>".data ++ "<p>y</p>".data)))
        = some (T.data ++ ("</h6>".data ++ "<p>y</p>".data)) from rfl]
    rw [show ('<' :: '/' :: 'h' :: Char.ofNat (48 + 6) :: '>' :: [] : List Char)
        = ('<' :: ['/', 'h', '6', '>'] : List Char) from rfl]
    rw [show (T.data ++ ("</h6>".data ++ "<p>y</p>".data))
        = T.data ++ (('<' :: ['/', 'h', '6', '>'] : List Char) ++ "<p>y</p>".data) from rfl]
    have heta : ((⟨T.data⟩ : String)) = T := rfl
    have hstp := stripTags_plain T.data hTlt (fun c hc => (hTc c hc).2.1)
    simp only [hsplit, hstp, heta, ne_eq, hTne, not_false_eq_true, if_true]
  have hhN : runStage (headingAt 6) ("<p>x</p><h6>".data ++ (T.data ++ "</h6><p>y</p>".data))
      = "<p>x</p>".data ++ ((("\n\n" ++ (⟨List.replicate 6 '#'⟩ : String) ++ " " ++ T ++ "\n\n").data) ++ "<p>y</p>".data) := by
    unfold runStage
    rw [show ("<p>x</p><h6>".data ++ (T.data ++ "</h6><p>y</p>".data))
        = "<p>x</p>".data ++ ("<h6>".data ++ (T.data ++ ("</h6>".data ++ "<p>y</p>".data)))
        from rfl]
    rw [show ("<p>x</p>".data ++
          ("<h6>".data ++ (T.data ++ ("</h6>".data ++ "<p>y</p>".data)))).length + 1
        = ("<p>x</p>".data).length +
          ((("<h6>".data ++ (T.data ++ ("</h6>".data ++ "<p>y</p>".data)))).length + 1)
        from by
      simp only [List.length_append, List.length_cons, List.length_nil] <;> omega]
    rw [replaceScan_steps_front (headingAt 6) ("<p>x</p>".data)
        ("<h6>".data ++ (T.data ++ ("</h6>".data ++ "<p>y</p>".data)))
        (by
          intro i hi
          rw [show (("<p>x</p>".data)).length = 8 from rfl] at hi
          interval_cases i <;> rfl)]
    rw [show ("<h6>".data ++ (T.data ++ ("</h6>".data ++ "<p>y</p>".data)))
        = '<' :: ('h' :: '6' :: '>' :: (T.data ++ ("</h6>".data ++ "<p>y</p>".data)))
        from rfl]
    rw [replaceScan_step_some (headingAt 6)
        ('<' :: 'h' :: '6' :: '>' :: (T.data ++ ("</h6>".data ++ "<p>y</p>".data))).length
        '<' ('h' :: '6' :: '>' :: (T.data ++ ("</h6>".data ++ "<p>y</p>".data)))
        (("\n\n" ++ (⟨List.replicate 6 '#'⟩ : String) ++ " " ++ T ++ "\n\n").data)
        ("<p>y</p>".data)
        hmatch]
    rw [replaceScan_id_of_none (headingAt 6) ("<p>y</p>".data) _
        (suffixes_none_concrete _ _
          (by
            intro i hi
            rw [show (("<p>y</p>".data)).length = 8 from rfl] at hi
            interval_cases i <;> rfl)
          rfl)]
  have hbridge : "<p>x</p>".data ++ ((("\n\n" ++ (⟨List.replicate 6 '#'⟩ : String) ++ " " ++ T ++ "\n\n").data) ++ "<p>y</p>".data)
      = "<p>x</p>".data ++ (['\n', '\n', '#', '#', '#', '#', '#', '#', ' '] ++ (T.data ++ (['\n', '\n'] ++ "<p>y</p>".data))) := by
    simp [String.data_append, List.append_assoc]
  have hg5 := hid1 (headingAt 5) (fun c r hc => headingAt_head 5 c r hc)
    (by intro i hi; interval_cases i <;> rfl)
    (by intro i hi; interval_cases i <;> rfl) rfl
  have hg4 := hid1 (headingAt 4) (fun c r hc => headingAt_head 4 c r hc)
    (by intro i hi; interval_cases i <;> rfl)
    (by intro i hi; interval_cases i <;> rfl) rfl
  have hg3 := hid1 (headingAt 3) (fun c r hc => headingAt_head 3 c r hc)
    (by intro i hi; interval_cases i <;> rfl)
    (by intro i hi; interval_cases i <;> rfl) rfl
  have hg2 := hid1 (headingAt 2) (fun c r hc => headingAt_head 2 c r hc)
    (by intro i hi; interval_cases i <;> rfl)
    (by intro i hi; interval_cases i <;> rfl) rfl
  have hg1 := hid1 (headingAt 1) (fun c r hc => headingAt_head 1 c r hc)
    (by intro i hi; interval_cases i <;> rfl)
    (by intro i hi; interval_cases i <;> rfl) rfl
  have hp : runStage paragraphAt ("<p>x</p>".data ++ (['\n', '\n', '#', '#', '#', '#', '#', '#', ' '] ++ (T.data ++ (['\n', '\n'] ++ "<p>y</p>".data))))
      = "\n\nx\n\n".data ++ (['\n', '\n', '#', '#', '#', '#', '#', '#', ' '] ++ (T.data ++ (['\n', '\n'] ++ "\n\ny\n\n".data))) := by
    unfold runStage
    rw [show ("<p>x</p>".data ++ (['\n', '\n', '#', '#', '#', '#', '#', '#', ' '] ++ (T.data ++ (['\n', '\n'] ++ "<p>y</p>".data))))
        = '<' :: ('p' :: '>' :: 'x' :: '<' :: '/' :: 'p' :: '>' ::
            (['\n', '\n', '#', '#', '#', '#', '#', '#', ' '] ++ (T.data ++ (['\n', '\n'] ++ "<p>y</p>".data))))
        from by simp [String.data_append, List.append_assoc]]
    have hpm1 : paragraphAt ('<' :: ('p' :: '>' :: 'x' :: '<' :: '/' :: 'p' :: '>' ::
            (['\n', '\n', '#', '#', '#', '#', '#', '#', ' '] ++ (T.data ++ (['\n', '\n'] ++ "<p>y</p>".data)))))
        = some ("\n\nx\n\n".data,
            ['\n', '\n', '#', '#', '#', '#', '#', '#', ' '] ++ (T.data ++ (['\n', '\n'] ++ "<p>y</p>".data))) := by rfl
    rw [replaceScan_step_some paragraphAt
        ('<' :: 'p' :: '>' :: 'x' :: '<' :: '/' :: 'p' :: '>' ::
            (['\n', '\n', '#', '#', '#', '#', '#', '#', ' '] ++ (T.data ++ (['\n', '\n'] ++ "<p>y</p>".data)))).length
        '<' ('p' :: '>' :: 'x' :: '<' :: '/' :: 'p' :: '>' ::
            (['\n', '\n', '#', '#', '#', '#', '#', '#', ' '] ++ (T.data ++ (['\n', '\n'] ++ "<p>y</p>".data))))
        ("\n\nx\n\n".data)
        (['\n', '\n', '#', '#', '#', '#', '#', '#', ' '] ++ (T.data ++ (['\n', '\n'] ++ "<p>y</p>".data)))
        hpm1]
    rw [show ('<' :: 'p' :: '>' :: 'x' :: '<' :: '/' :: 'p' :: '>' ::
            (['\n', '\n', '#', '#', '#', '#', '#', '#', ' '] ++ (T.data ++ (['\n', '\n'] ++ "<p>y</p>".data)))).length
        = (['\n', '\n', '#', '#', '#', '#', '#', '#', ' '] : List Char).length + (T.data.length + 18)
        from by
      simp only [List.length_append, List.length_cons, List.length_nil] <;> omega]
    rw [replaceScan_steps_front paragraphAt ['\n', '\n', '#', '#', '#', '#', '#', '#', ' ']
        (T.data ++ (['\n', '\n'] ++ "<p>y</p>".data))
        (by
          intro i hi
          simp only [List.length_cons, List.length_nil] at hi
          interval_cases i <;> rfl)
        (T.data.length + 18)]
    rw [replaceScan_skip_trigfree paragraphAt '<' (fun c r hc => paragraphAt_head c r hc)
        T.data hTlt (['\n', '\n'] ++ "<p>y</p>".data) 18]
    rw [show (18 : Nat) = (['\n', '\n'] : List Char).length + 16 from rfl]
    rw [replaceScan_steps_front paragraphAt ['\n', '\n'] ("<p>y</p>".data)
        (by
          intro i hi
          simp only [List.length_cons, List.length_nil] at hi
          interval_cases i <;> rfl)
        16]
    rw [show ("<p>y</p>".data : List Char)
        = '<' :: ('p' :: '>' :: 'y' :: '<' :: '/' :: 'p' :: '>' :: []) from rfl]
    rw [show (16 : Nat) = 15 + 1 from rfl]
    have hpm2 : paragraphAt ('<' :: ('p' :: '>' :: 'y' :: '<' :: '/' :: 'p' :: '>' :: []))
        = some ("\n\ny\n\n".data, []) := by rfl
    rw [replaceScan_step_some paragraphAt 15
        '<' ('p' :: '>' :: 'y' :: '<' :: '/' :: 'p' :: '>' :: []) ("\n\ny\n\n".data) [] hpm2]
    rw [replaceScan_nil]
    simp
  have hli := hid2 listItemAt (fun c r hc => listItemAt_head c r hc) rfl
  have hbr := hid2 brAt (fun c r hc => brAt_head c r hc) rfl
  have hcs := hid2 codeSpanAt (fun c r hc => codeSpanAt_head c r hc) rfl
  have han := hid2 anchorAt (fun c r hc => anchorAt_head c r hc) rfl
  have hmem : ∀ c ∈ ("\n\nx\n\n".data ++ (['\n', '\n', '#', '#', '#', '#', '#', '#', ' '] ++ (T.data ++ (['\n', '\n'] ++ "\n\ny\n\n".data)))), c ≠ '<' := by
    intro c hc
    simp only [List.mem_append, List.mem_cons, List.not_mem_nil, or_false] at hc
    casesm* _ ∨ _
    all_goals first
      | exact (hTc c (by assumption)).1
      | (rename_i hx; subst hx; decide)
  have hamp : ∀ c ∈ ("\n\nx\n\n".data ++ (['\n', '\n', '#', '#', '#', '#', '#', '#', ' '] ++ (T.data ++ (['\n', '\n'] ++ "\n\ny\n\n".data)))), c ≠ '&' := by
    intro c hc
    simp only [List.mem_append, List.mem_cons, List.not_mem_nil, or_false] at hc
    casesm* _ ∨ _
    all_goals first
      | exact (hTc c (by assumption)).2.1
      | (rename_i hx; subst hx; decide)
  have hstrip := stripTagsPlusScan_id ("\n\nx\n\n".data ++ (['\n', '\n', '#', '#', '#', '#', '#', '#', ' '] ++ (T.data ++ (['\n', '\n'] ++ "\n\ny\n\n".data)))) (("\n\nx\n\n".data ++ (['\n', '\n', '#', '#', '#', '#', '#', '#', ' '] ++ (T.data ++ (['\n', '\n'] ++ "\n\ny\n\n".data)))).length + 1) hmem
  have hdec := decode_plain ("\n\nx\n\n".data ++ (['\n', '\n', '#', '#', '#', '#', '#', '#', ' '] ++ (T.data ++ (['\n', '\n'] ++ "\n\ny\n\n".data)))) hamp
  have hcol : collapseNewlines
      ((("\n\nx\n\n".data ++ (['\n', '\n', '#', '#', '#', '#', '#', '#', ' '] ++ (T.data ++ (['\n', '\n'] ++ "\n\ny\n\n".data))))).length + 1)
      ("\n\nx\n\n".data ++ (['\n', '\n', '#', '#', '#', '#', '#', '#', ' '] ++ (T.data ++ (['\n', '\n'] ++ "\n\ny\n\n".data))))
      = '\n' :: '\n' :: 'x' :: '\n' :: '\n' :: (('#' :: '#' :: '#' :: '#' :: '#' :: '#' :: ' ' :: T.data) ++ ('\n' :: '\n' :: 'y' :: '\n' :: '\n' :: [])) := by
    rw [show ("\n\nx\n\n".data ++ (['\n', '\n', '#', '#', '#', '#', '#', '#', ' '] ++ (T.data ++ (['\n', '\n'] ++ "\n\ny\n\n".data))))
        = '\n' :: '\n' :: 'x' :: '\n' :: '\n' :: '\n' :: '\n' :: (('#' :: '#' :: '#' :: '#' :: '#' :: '#' :: ' ' :: T.data) ++ ('\n' :: '\n' :: '\n' :: '\n' :: 'y' :: '\n' :: '\n' :: []))
        from by simp [List.append_assoc]]
    rw [show ('\n' :: '\n' :: 'x' :: '\n' :: '\n' :: '\n' :: '\n' :: (('#' :: '#' :: '#' :: '#' :: '#' :: '#' :: ' ' :: T.data) ++ ('\n' :: '\n' :: '\n' :: '\n' :: 'y' :: '\n' :: '\n' :: []))).length + 1
        = ((T.data.length + (6 + 12)) + 1) + 3
        from by
      simp only [List.length_append, List.length_cons, List.length_nil] <;> omega]
    rw [collapse_lead ((T.data.length + (6 + 12)) + 1) _]
    rw [collapse_quad (T.data.length + (6 + 12)) _ (by
      cases hd : T.data with
      | nil => simp [List.takeWhile_cons]
      | cons c cs =>
          have hc : c ≠ '\n' := (hTc c (hd ▸ List.mem_cons_self c cs)).2.2
          simp [List.takeWhile_cons, hc])]
    rw [show T.data.length + (6 + 12)
        = ('#' :: '#' :: '#' :: '#' :: '#' :: '#' :: ' ' :: T.data).length + 11 from by
      simp only [List.length_append, List.length_cons, List.length_nil] <;> omega]
    rw [collapse_skip ('#' :: '#' :: '#' :: '#' :: '#' :: '#' :: ' ' :: T.data) (by
        intro c hc
        simp only [List.mem_cons] at hc
        casesm* _ ∨ _
        all_goals first
          | exact (hTc c (by assumption)).2.2
          | (rename_i hx; subst hx; decide)) 11
        ('\n' :: '\n' :: '\n' :: '\n' :: 'y' :: '\n' :: '\n' :: [])]
    rw [show (11 : Nat) = 10 + 1 from rfl]
    rw [collapse_quad 10 _ (by decide)]
    rw [show (10 : Nat) = 7 + 3 from rfl]
    rw [collapse_tail3 7]
  have htrim : jsTrim ⟨'\n' :: '\n' :: 'x' :: '\n' :: '\n' :: (('#' :: '#' :: '#' :: '#' :: '#' :: '#' :: ' ' :: T.data) ++ ('\n' :: '\n' :: 'y' :: '\n' :: '\n' :: []))⟩
      = "x\n\n" ++ (⟨List.replicate 6 '#'⟩ : String) ++ " " ++ T ++ "\n\ny" := by
    show (⟨jsTrimList ('\n' :: '\n' :: 'x' :: '\n' :: '\n' :: (('#' :: '#' :: '#' :: '#' :: '#' :: '#' :: ' ' :: T.data) ++ ('\n' :: '\n' :: 'y' :: '\n' :: '\n' :: [])))⟩ : String)
      = "x\n\n" ++ (⟨List.replicate 6 '#'⟩ : String) ++ " " ++ T ++ "\n\ny"
    have hlist : jsTrimList ('\n' :: '\n' :: 'x' :: '\n' :: '\n' :: (('#' :: '#' :: '#' :: '#' :: '#' :: '#' :: ' ' :: T.data) ++ ('\n' :: '\n' :: 'y' :: '\n' :: '\n' :: [])))
        = ("x\n\n" ++ (⟨List.replicate 6 '#'⟩ : String) ++ " " ++ T ++ "\n\ny").data := by
      unfold jsTrimList
      rw [show (('\n' :: '\n' :: 'x' :: '\n' :: '\n' :: (('#' :: '#' :: '#' :: '#' :: '#' :: '#' :: ' ' :: T.data) ++ ('\n' :: '\n' :: 'y' :: '\n' :: '\n' :: []))).dropWhile isJsWs)
          = 'x' :: '\n' :: '\n' :: (('#' :: '#' :: '#' :: '#' :: '#' :: '#' :: ' ' :: T.data) ++
              ('\n' :: '\n' :: 'y' :: '\n' :: '\n' :: [])) from by
        simp [List.dropWhile_cons, (by decide : isJsWs '\n' = true),
          (by decide : isJsWs 'x' = false)]]
      rw [show ('x' :: '\n' :: '\n' :: (('#' :: '#' :: '#' :: '#' :: '#' :: '#' :: ' ' :: T.data) ++
            ('\n' :: '\n' :: 'y' :: '\n' :: '\n' :: []))).reverse
          = '\n' :: '\n' :: 'y' :: '\n' :: '\n' ::
            (T.data.reverse ++ [' ', '#', '#', '#', '#', '#', '#', '\n', '\n', 'x']) from by
        simp [List.reverse_append, List.append_assoc]]
      rw [show (('\n' :: '\n' :: 'y' :: '\n' :: '\n' ::
            (T.data.reverse ++ [' ', '#', '#', '#', '#', '#', '#', '\n', '\n', 'x'])).dropWhile isJsWs)
          = 'y' :: '\n' :: '\n' ::
            (T.data.reverse ++ [' ', '#', '#', '#', '#', '#', '#', '\n', '\n', 'x']) from by
        simp [List.dropWhile_cons, (by decide : isJsWs '\n' = true),
          (by decide : isJsWs 'y' = false)]]
      rw [show ('y' :: '\n' :: '\n' ::
            (T.data.reverse ++ [' ', '#', '#', '#', '#', '#', '#', '\n', '\n', 'x'])).reverse
          = 'x' :: '\n' :: '\n' :: '#' :: '#' :: '#' :: '#' :: '#' :: '#' :: ' ' ::
            (T.data ++ ['\n', '\n', 'y']) from by
        simp [List.reverse_append, List.append_assoc]]
      simp [String.data_append, List.append_assoc]
    rw [hlist]
  simp only [htmlToMarkdown]
  rw [hdoc, hs1, hs2, hs3, hs4]
  rw [hhN, hbridge]
  rw [hg5]
  rw [hg4]
  rw [hg3]
  rw [hg2]
  rw [hg1]
  rw [hp, hli, hbr, hcs, han, hstrip, hdec]
  rw [show ((⟨"\n\nx\n\n".data ++ (['\n', '\n', '#', '#', '#', '#', '#', '#', ' '] ++ (T.data ++ (['\n', '\n'] ++ "\n\ny\n\n".data)))⟩ : String)).data
      = "\n\nx\n\n".data ++ (['\n', '\n', '#', '#', '#', '#', '#', '#', ' '] ++ (T.data ++ (['\n', '\n'] ++ "\n\ny\n\n".data))) from rfl]
  rw [hcol]
  exact htrim

/-- C9 counterexample: the converter decodes entities twice (once when the
heading text is tag-stripped, once in the final residual pass), so
`&amp;amp;` ends as `&` rather than the single-decode `&amp;`; and a heading
at the document boundary is not surrounded by blank lines (the final trim
removes them). -/
theorem c9_double_decode_counterexample :
    htmlToMarkdown "<p>x</p><h1>a&amp;amp;b</h1><p>y</p>" = "x\n\n# a&b\n\ny" ∧
    stripTags "a&amp;amp;b" = "a&amp;b" ∧
    ("x\n\n# a&b\n\ny" : String) ≠ "x\n\n# " ++ stripTags "a&amp;amp;b" ++ "\n\ny" ∧
    htmlToMarkdown "<h1>text</h1>" = "# text" := by
  refine ⟨by decide, by decide, by decide, by decide⟩

/-- C9 (amended): for every heading level 1-6 and every non-empty inner text
made of plain characters (no tag-opening, entity-starting or newline
characters), a heading inside a document converts to exactly that many
hash characters, a space and the inner text, surrounded by blank lines
(trimmed at the document boundary); entity-bearing inner text is instead
decoded twice by the converter, as the counterexample shows. -/
theorem c9_heading_conversion (level : Nat) (T : String) (h1 : 1 <= level)
    (h6 : level <= 6) (hT0 : T.data ≠ [])
    (hTc : ∀ c ∈ T.data, c ≠ '<' ∧ c ≠ '&' ∧ c ≠ '\n') :
    htmlToMarkdown ("<p>x</p><h" ++ toString level ++ ">" ++ T ++ "</h" ++
        toString level ++ "><p>y</p>")
      = "x\n\n" ++ (⟨List.replicate level '#'⟩ : String) ++ " " ++ T ++ "\n\ny" := by
  interval_cases level
  · exact htmlToMarkdown_h1 T hT0 hTc
  · exact htmlToMarkdown_h2 T hT0 hTc
  · exact htmlToMarkdown_h3 T hT0 hTc
  · exact htmlToMarkdown_h4 T hT0 hTc
  · exact htmlToMarkdown_h5 T hT0 hTc
  · exact htmlToMarkdown_h6 T hT0 hTc

/-- C9 witness: the level-3 instance on the inner text "Hello World". -/
theorem c9_heading_conversion_witness :
    (1 : Nat) <= 3 ∧ (3 : Nat) <= 6 ∧ ("Hello World" : String).data ≠ [] ∧
    (∀ c ∈ ("Hello World" : String).data, c ≠ '<' ∧ c ≠ '&' ∧ c ≠ '\n') ∧
    htmlToMarkdown ("<p>x</p><h" ++ toString (3 : Nat) ++ ">" ++ "Hello World" ++
        "</h" ++ toString (3 : Nat) ++ "><p>y</p>")
      = "x\n\n" ++ (⟨List.replicate 3 '#'⟩ : String) ++ " " ++ "Hello World" ++ "\n\ny" :=
  ⟨by decide, by decide, by decide, by decide,
    c9_heading_conversion 3 "Hello World" (by decide) (by decide) (by decide) (by decide)⟩

/-- C5 counterexample: the Related Links section is never omitted — with no
links it is emitted with the placeholder line `- (none)`, and that
placeholder section survives into the assembled document. -/
theorem c5_placeholder_counterexample :
    renderRelatedLinks [] = "## Related Links\n- (none)" ∧
    assembleBody "H" none none none none "# M" none none none (renderRelatedLinks []) =
      "H\n\n# M\n\n## Related Links\n- (none)" := by
  constructor <;> decide

/-- C5 (amended): the synopsis, warnings, workflow, agent-data,
related-pages and guides sections are omitted entirely when they have no
content (their renderers return nothing and the assembly drops absent and
empty parts), while the related-links section is always emitted. -/
theorem c5_empty_sections_omitted (ih enhanced rl origin basePath markdown : String)
    (specs : List (String × SpecInfo)) (taskMap : List TaskMapEntry)
    (moduleSummary : Option String)
    (hih : ih ≠ "") (hen : enhanced ≠ "") (hrl : rl ≠ "") :
    renderRelatedPages [] origin basePath = none ∧
    renderGuidesSection [] = none ∧
    buildAgentDataSection [] = none ∧
    buildModuleSynopsis none markdown specs taskMap [] moduleSummary origin basePath = none ∧
    buildOperationalWorkflow "" = none ∧
    assembleBody ih none none none none enhanced none none none rl =
      ih ++ "\n\n" ++ enhanced ++ "\n\n" ++ rl := by
  refine ⟨rfl, rfl, rfl, rfl, by decide, ?_⟩
  unfold assembleBody
  simp [hih, hen, hrl, joinParts, String.append_assoc]

/-- C5 witness: the assembly at concrete parts. -/
theorem c5_empty_sections_omitted_witness :
    renderRelatedPages [] "https://w" "/p" = none ∧
    renderGuidesSection [] = none ∧
    buildAgentDataSection [] = none ∧
    buildModuleSynopsis none "" [] [] [] none "https://w" "/p" = none ∧
    buildOperationalWorkflow "" = none ∧
    assembleBody "H" none none none none "# M" none none none "## Related Links\n- x" =
      "H" ++ "\n\n" ++ "# M" ++ "\n\n" ++ "## Related Links\n- x" :=
  c5_empty_sections_omitted "H" "# M" "## Related Links\n- x" "https://w" "/p" ""
    [] [] none (by decide) (by decide) (by decide)

/-- `dedupKeepFirstGo` does not depend on the fuel once it exceeds the
list length. -/
theorem dedupKeepFirstGo_fuel (f1 : Nat) :
    ∀ (l : List String) (f2 : Nat), l.length < f1 → l.length < f2 →
      dedupKeepFirstGo f1 l = dedupKeepFirstGo f2 l := by
  induction f1 with
  | zero => intro l f2 h1 _; exact absurd h1 (Nat.not_lt_zero _)
  | succ f ih =>
      intro l f2 h1 h2
      match l, f2 with
      | [], 0 => exact absurd h2 (Nat.not_lt_zero _)
      | [], g + 1 => rfl
      | x :: xs, 0 => exact absurd h2 (Nat.not_lt_zero _)
      | x :: xs, g + 1 =>
          simp only [dedupKeepFirstGo]
          congr 1
          apply ih
          · exact Nat.lt_of_le_of_lt (List.length_filter_le _ _)
              (Nat.lt_of_succ_lt_succ h1)
          · exact Nat.lt_of_le_of_lt (List.length_filter_le _ _)
              (Nat.lt_of_succ_lt_succ h2)

/-- The defining cons equation of `dedupKeepFirst`. -/
theorem dedupKeepFirst_cons (x : String) (xs : List String) :
    dedupKeepFirst (x :: xs) = x :: dedupKeepFirst (xs.filter (fun y => y ≠ x)) := by
  unfold dedupKeepFirst
  simp only [List.length_cons, dedupKeepFirstGo]
  congr 1
  apply dedupKeepFirstGo_fuel
  · exact Nat.lt_succ_of_le (List.length_filter_le _ _)
  · exact Nat.lt_succ_self _

/-- The `Set`-insertion fold of `extractRelatedLinks` computes
first-occurrence deduplication. -/
theorem foldInsert_eq_dedup (xs : List String) (acc : List String) :
    xs.foldl (fun links r => if r ∈ links then links else links ++ [r]) acc =
      acc ++ dedupKeepFirst (xs.filter (fun y => y ∉ acc)) := by
  induction xs generalizing acc with
  | nil => simp [dedupKeepFirst, dedupKeepFirstGo]
  | cons x xs ih =>
      simp only [List.foldl_cons, List.filter_cons]
      by_cases hx : x ∈ acc
      · rw [if_pos hx, ih]
        have hd : decide (x ∉ acc) = false := by simp [hx]
        rw [hd]
        simp
      · rw [if_neg hx, ih]
        have hd : decide (x ∉ acc) = true := by simp [hx]
        rw [hd]
        simp only [if_true]
        rw [dedupKeepFirst_cons]
        have hfilter : (xs.filter (fun y => y ∉ acc ++ [x])) =
            ((xs.filter (fun y => y ∉ acc)).filter (fun y => y ≠ x)) := by
          rw [List.filter_filter]
          apply List.filter_congr
          intro a _
          by_cases hax : a = x
          · simp [hax, hx, List.mem_append]
          · by_cases haacc : a ∈ acc <;> simp [hax, haacc, List.mem_append]
        rw [hfilter]
        simp [List.append_assoc]

set_option maxRecDepth 100000 in
/-- C6 counterexample: with 31 distinct resolvable links on the page, the
31st resolved target is a markdown link target that resolves, yet it is
absent from the output, which is capped at 30 entries. -/
theorem c6_cap_counterexample :
    ("/p30.html" ∈ (mdLinks manyLinksMarkdown).map Prod.snd) ∧
    relatedLinkOf "https://w/pkg/1.0.0/Mod.html" "https://w"
        ⟨"https", "w", "/pkg/1.0.0/Mod.html", "", "", false⟩ "/p30.html" =
      some "https://w/p30.html" ∧
    "https://w/p30.html" ∉
      (extractRelatedLinks manyLinksMarkdown "https://w/pkg/1.0.0/Mod.html" "https://w").getD [] ∧
    ((extractRelatedLinks manyLinksMarkdown "https://w/pkg/1.0.0/Mod.html" "https://w").getD []).length = 30 := by
  refine ⟨by decide, by decide, by decide, by decide⟩

/-- C6 (amended): the related-links collection is exactly the resolved
markdown link targets of the page in first-occurrence order, deduplicated,
self-referential links excluded — capped to the first 30. -/
theorem c6_related_links_capped (markdown baseUrl wrapperOrigin : String)
    (pageUrl : UrlRec) (h : urlParse baseUrl = some pageUrl) :
    extractRelatedLinks markdown baseUrl wrapperOrigin =
      some ((dedupKeepFirst
        (relatedLinkTargets markdown baseUrl wrapperOrigin pageUrl)).take 30) := by
  have hfold := foldInsert_eq_dedup
    ((mdLinks markdown).filterMap (fun lh => relatedLinkOf baseUrl wrapperOrigin pageUrl lh.2)) []
  have hfilter : ((mdLinks markdown).filterMap
        (fun lh => relatedLinkOf baseUrl wrapperOrigin pageUrl lh.2)).filter
      (fun y => y ∉ ([] : List String)) =
      (mdLinks markdown).filterMap (fun lh => relatedLinkOf baseUrl wrapperOrigin pageUrl lh.2) := by
    apply List.filter_eq_self.mpr
    intro a _
    simp
  rw [hfilter, List.nil_append] at hfold
  simp only [extractRelatedLinks, relatedLinkTargets, h]
  rw [hfold]

/-- C6 witness: a concrete page with a repeated link and a self link. -/
theorem c6_related_links_capped_witness :
    extractRelatedLinks "[a](x.html) [b](x.html) [s](M.html) [c](y.html)"
        "https://w/p/1.0.0/M.html" "https://w" =
      some ((dedupKeepFirst (relatedLinkTargets "[a](x.html) [b](x.html) [s](M.html) [c](y.html)"
        "https://w/p/1.0.0/M.html" "https://w"
        ⟨"https", "w", "/p/1.0.0/M.html", "", "", false⟩)).take 30) ∧
    (dedupKeepFirst (relatedLinkTargets "[a](x.html) [b](x.html) [s](M.html) [c](y.html)"
        "https://w/p/1.0.0/M.html" "https://w"
        ⟨"https", "w", "/p/1.0.0/M.html", "", "", false⟩)).take 30 =
      ["https://w/p/1.0.0/x.html", "https://w/p/1.0.0/y.html"] := by
  constructor
  · exact c6_related_links_capped _ _ _ _ (by decide)
  · decide

set_option maxRecDepth 100000 in
/-- C4 counterexample: an api-reference module table that lists the same
module name twice produces two ModuleEntry records with that name — the
modules list is not deduplicated by name. -/
theorem c4_dedup_counterexample :
    buildPackageIndex wrapperUrl dupRowsFetcher "NOW" = Except.ok dupIndex ∧
    dupIndex.modules.map ModuleEntry.name = ["M", "M"] := by
  refine ⟨rfl, by decide⟩

/-- C4 (amended): when the api-reference HTML table is non-empty, the
modules list has exactly one entry per table row (in order) — a sidebar
listing of the same module contributes no second entry, only merged flags;
within-source duplicates are kept. -/
theorem c4_modules_single_source (u : UrlRec) (f : Fetcher) (now : String)
    (i : PackageIndex) (hok : buildPackageIndex u f now = Except.ok i)
    (hrows : parseApiReferenceModules (f i.source.api_reference).body ≠ []) :
    i.modules.map ModuleEntry.name =
      (parseApiReferenceModules (f i.source.api_reference).body).map ApiModuleRow.name := by
  unfold buildPackageIndex at hok
  by_cases hb : (f (urlResolveToStr
      (if (parsePathContext u.path).isVersioned then
        "/" ++ (parsePathContext u.path).packageName.getD "undefined" ++ "/" ++
          (parsePathContext u.path).version.getD "undefined" ++ "/api-reference.html"
       else "/" ++ (parsePathContext u.path).packageName.getD "undefined" ++
          "/api-reference.html") UPSTREAM_ORIGIN)).ok
  · rw [if_neg (by simp [hb])] at hok
    injection hok with hi
    subst hi
    simp only at hrows ⊢
    rw [if_pos (List.length_pos.mpr hrows)]
    rw [List.map_map]
    rfl
  · rw [if_pos (by simp [hb])] at hok
    cases hok

/-- The instruction header always starts with its `## Navigation` line. -/
theorem instructionHeader_ne_empty (origin basePath : String) :
    buildInstructionHeader origin basePath ≠ "" := by
  unfold buildInstructionHeader joinParts
  exact append_ne_empty_left _ _ (by rw [String.data_append]; decide)

/-- The non-JSON error response is a 502 whose body contains the
`attempted:` line with the attempted URL and the `status: 404` line. -/
theorem renderError_decompose (ih urlStr : String) (e : ErrDetails) (a : String)
    (hih : ih ≠ "") (ha : e.attempted = some a) (hst : e.status = some 404) :
    (renderErrorResponse ih false urlStr e).status = 502 ∧
    (∃ p q, (renderErrorResponse ih false urlStr e).body =
      p ++ ("attempted: " ++ a) ++ q) ∧
    (∃ p q, (renderErrorResponse ih false urlStr e).body =
      p ++ "status: 404" ++ q) := by
  obtain ⟨msg, att, st, fb, fbs⟩ := e
  simp only at ha hst
  subst ha hst
  have hmsg : ("message: " ++ msg : String) ≠ "" :=
    append_ne_empty_left _ _ (by decide)
  have hatt : ("attempted: " ++ a : String) ≠ "" :=
    append_ne_empty_left _ _ (by decide)
  have hnum : ("status: " ++ toString (404 : Nat) : String) = "status: 404" := by decide
  simp only [renderErrorResponse, Option.getD_some, Bool.false_eq_true, if_false,
    List.filterMap, Option.bind, hnum]
  rcases fb with _ | f
  · rcases fbs with _ | fs <;>
    · refine ⟨trivial, ?_, ?_⟩
      · refine ⟨ih ++ "\n" ++ "## Upstream Error" ++ "\n" ++ ("message: " ++ msg) ++ "\n",
          "\n" ++ "status: 404" ++ "\n" ++ "fallback: none", ?_⟩
        simp [joinParts, hih, hmsg, hatt, String.append_assoc]
        try rfl
      · refine ⟨ih ++ "\n" ++ "## Upstream Error" ++ "\n" ++ ("message: " ++ msg) ++ "\n" ++
            ("attempted: " ++ a) ++ "\n", "\n" ++ "fallback: none", ?_⟩
        simp [joinParts, hih, hmsg, hatt, String.append_assoc]
        try rfl
  · by_cases hf : f = ""
    · subst hf
      rcases fbs with _ | fs <;>
      · refine ⟨trivial, ?_, ?_⟩
        · refine ⟨ih ++ "\n" ++ "## Upstream Error" ++ "\n" ++ ("message: " ++ msg) ++ "\n",
            "\n" ++ "status: 404" ++ "\n" ++ "fallback: none", ?_⟩
          simp [joinParts, hih, hmsg, hatt, String.append_assoc]
          try rfl
        · refine ⟨ih ++ "\n" ++ "## Upstream Error" ++ "\n" ++ ("message: " ++ msg) ++ "\n" ++
              ("attempted: " ++ a) ++ "\n", "\n" ++ "fallback: none", ?_⟩
          simp [joinParts, hih, hmsg, hatt, String.append_assoc]
          try rfl
    · have hfb : ("fallback: " ++ f : String) ≠ "" :=
        append_ne_empty_left _ _ (by decide)
      rcases fbs with _ | fs
      · refine ⟨trivial, ?_, ?_⟩
        · refine ⟨ih ++ "\n" ++ "## Upstream Error" ++ "\n" ++ ("message: " ++ msg) ++ "\n",
            "\n" ++ "status: 404" ++ "\n" ++ ("fallback: " ++ f), ?_⟩
          simp [joinParts, hih, hmsg, hatt, hf, hfb, String.append_assoc]
          try rfl
        · refine ⟨ih ++ "\n" ++ "## Upstream Error" ++ "\n" ++ ("message: " ++ msg) ++ "\n" ++
              ("attempted: " ++ a) ++ "\n", "\n" ++ ("fallback: " ++ f), ?_⟩
          simp [joinParts, hih, hmsg, hatt, hf, hfb, String.append_assoc]
          try rfl
      · by_cases hfs : fs = 0
        · subst hfs
          refine ⟨trivial, ?_, ?_⟩
          · refine ⟨ih ++ "\n" ++ "## Upstream Error" ++ "\n" ++ ("message: " ++ msg) ++ "\n",
              "\n" ++ "status: 404" ++ "\n" ++ ("fallback: " ++ f), ?_⟩
            simp [joinParts, hih, hmsg, hatt, hf, hfb, String.append_assoc]
            try rfl
          · refine ⟨ih ++ "\n" ++ "## Upstream Error" ++ "\n" ++ ("message: " ++ msg) ++ "\n" ++
                ("attempted: " ++ a) ++ "\n", "\n" ++ ("fallback: " ++ f), ?_⟩
            simp [joinParts, hih, hmsg, hatt, hf, hfb, String.append_assoc]
            try rfl
        · have hfbs : ("fallback_status: " ++ toString fs : String) ≠ "" :=
            append_ne_empty_left _ _ (by decide)
          refine ⟨trivial, ?_, ?_⟩
          · refine ⟨ih ++ "\n" ++ "## Upstream Error" ++ "\n" ++ ("message: " ++ msg) ++ "\n",
              "\n" ++ "status: 404" ++ "\n" ++ ("fallback: " ++ f) ++ "\n" ++
                ("fallback_status: " ++ toString fs), ?_⟩
            simp [joinParts, hih, hmsg, hatt, hf, hfb, hfs, hfbs, String.append_assoc]
            try rfl
          · refine ⟨ih ++ "\n" ++ "## Upstream Error" ++ "\n" ++ ("message: " ++ msg) ++ "\n" ++
                ("attempted: " ++ a) ++ "\n", "\n" ++ ("fallback: " ++ f) ++ "\n" ++
                ("fallback_status: " ++ toString fs), ?_⟩
            simp [joinParts, hih, hmsg, hatt, hf, hfb, hfs, hfbs, String.append_assoc]
            try rfl

set_option maxRecDepth 100000 in
/-- C7 counterexample: for a `.md` page request whose primary upstream fetch
returns 404 while the `.html` fallback succeeds, the handler serves a normal
200 page rather than the error document the claim demands. -/
theorem c7_fallback_counterexample :
    (mdFallbackFetcher "https://hexdocs.pm/p/1.0.0/M.md").status = 404 ∧
    (handleRequest mdRequestUrl mdFallbackFetcher "NOW").status = 200 := by
  refine ⟨by decide, by decide⟩

/-- C7 (amended): for a valid page-render request (neither `llms.txt` nor
`index.json`) whose primary upstream fetch returns HTTP 404 — and, when the
request path ends in `.md`, whose `.html` fallback fetch also fails — the
handler responds with HTTP 502 and a document containing the literal
attempted upstream URL and the status 404. -/
theorem c7_error_document (url : UrlRec) (fetcher : Fetcher) (now : String)
    (up : UrlRec)
    (hpkg : (parsePathContext url.path).packageName ≠ none)
    (hrest : (parsePathContext url.path).restPath ≠ "")
    (hllms : strEnds url.path "/llms.txt" = false)
    (hidx : strEnds url.path "/index.json" = false)
    (hup : urlResolve (url.path ++ url.search) UPSTREAM_ORIGIN = some up)
    (hst : (fetcher up.toStr).status = 404)
    (hfb : strEnds url.path ".md" = true →
      (fetcher (urlResolveToStr (replaceMdEnd url.path) UPSTREAM_ORIGIN)).ok = false) :
    (handleRequest url fetcher now).status = 502 ∧
    (∃ p q, (handleRequest url fetcher now).body = p ++ ("attempted: " ++ up.toStr) ++ q) ∧
    (∃ p q, (handleRequest url fetcher now).body = p ++ "status: 404" ++ q) := by
  have hguard : ¬ ((parsePathContext url.path).packageName = none ∨
      (parsePathContext url.path).restPath = "") := by
    rintro (h | h)
    · exact hpkg h
    · exact hrest h
  have hok : (fetcher up.toStr).ok = false := by
    simp [FetchResult.ok, hst]
  obtain ⟨E, hgm, hEatt, hEst⟩ : ∃ E, getMarkdownFromPath url fetcher = Except.error E ∧
      E.attempted = some up.toStr ∧ E.status = some 404 := by
    by_cases hmd : strEnds url.path ".md"
    · refine ⟨⟨"Upstream markdown fetch failed", some up.toStr, some 404,
        some (urlResolveToStr (replaceMdEnd url.path) UPSTREAM_ORIGIN),
        some ((fetcher (urlResolveToStr (replaceMdEnd url.path) UPSTREAM_ORIGIN)).status)⟩,
        ?_, rfl, rfl⟩
      unfold getMarkdownFromPath
      rw [hup]
      simp only [hmd, if_true, hok, Bool.false_eq_true, if_false, hfb hmd, hst]
    · refine ⟨⟨"Upstream html fetch failed", some up.toStr, some 404, none, none⟩,
        ?_, rfl, rfl⟩
      unfold getMarkdownFromPath
      rw [hup]
      simp only [hmd, Bool.false_eq_true, if_false, hok, not_false_eq_true, if_true, hst]
  have hhr : handleRequest url fetcher now =
      renderErrorResponse
        (buildInstructionHeader url.origin (parsePathContext url.path).basePath)
        false url.toStr E := by
    unfold handleRequest
    rw [if_neg hguard]
    simp only [hidx, hllms, Bool.false_eq_true, if_false, hgm, Except.map]
  rw [hhr]
  exact renderError_decompose _ _ _ _ (instructionHeader_ne_empty _ _) hEatt hEst

/-- C7 witness: a concrete `.html` request against an all-404 upstream. -/
theorem c7_error_document_witness :
    (handleRequest ⟨"https", "w.example", "/p/1.0.0/M.html", "", "", false⟩
        (fun _ => ⟨404, "Not Found", none⟩) "NOW").status = 502 ∧
    (∃ p q, (handleRequest ⟨"https", "w.example", "/p/1.0.0/M.html", "", "", false⟩
        (fun _ => ⟨404, "Not Found", none⟩) "NOW").body =
      p ++ ("attempted: " ++
        (UrlRec.mk "https" "hexdocs.pm" "/p/1.0.0/M.html" "" "" false).toStr) ++ q) ∧
    (∃ p q, (handleRequest ⟨"https", "w.example", "/p/1.0.0/M.html", "", "", false⟩
        (fun _ => ⟨404, "Not Found", none⟩) "NOW").body = p ++ "status: 404" ++ q) := by
  exact c7_error_document ⟨"https", "w.example", "/p/1.0.0/M.html", "", "", false⟩
    (fun _ => ⟨404, "Not Found", none⟩) "NOW"
    ⟨"https", "hexdocs.pm", "/p/1.0.0/M.html", "", "", false⟩
    (by decide) (by decide) (by decide) (by decide) (by decide) (by decide)
    (fun h => by decide)

set_option maxRecDepth 100000 in
/-- C4 witness: the one-row-table-plus-sidebar merge yields exactly one
entry, with the sidebar's deprecated/group flags merged on. -/
theorem c4_modules_single_source_witness :
    mergeIndex.modules.map ModuleEntry.name =
      (parseApiReferenceModules (mergeFetcher mergeIndex.source.api_reference).body).map
        ApiModuleRow.name ∧
    mergeIndex.modules.map (fun m => (m.name, m.deprecated, m.group)) =
      [("M", true, some "g")] := by
  constructor
  · exact c4_modules_single_source wrapperUrl mergeFetcher "NOW" mergeIndex rfl (by decide)
  · decide

end SearchEx

